import Mathlib

/-!
Verification of the dungeon generator (`src/dungeon_generator.py`).

The Python program is shallowly embedded: grid cells are a tagged value
(`Cell.num` for the transient integer maze markers, `Cell.str` for the
string tile names, mirroring Python's dynamically typed grid), the grid is
a list of rows, and the global `random` source is an explicit oracle
stream of naturals threaded through every function (`Rng`).  Calls to
`random.random()` are modelled at 1/100 granularity (every probability
threshold appearing in the source — 0.01, 0.20, 0.33, 0.66 — is an exact
multiple of 0.01).  The recursive backtracking maze carver takes a fuel
argument; the entry point passes `rows * columns + 1`, which is proved
sufficient where the claims need it.
-/

set_option maxRecDepth 40000
set_option maxHeartbeats 1000000
set_option autoImplicit false

/-- A grid cell: either one of the transient integer maze markers
(`MAZE_WALL = 0`, `MAZE_PASSAGE = 1`) or a string tile name. -/
inductive Cell where
  | num (n : Nat)
  | str (s : String)
deriving DecidableEq, Repr

abbrev Grid := List (List Cell)

/-- Bounds-safe read of `grid[r][c]`; out-of-range reads yield a junk value
(the source only reads in bounds on every executed path). -/
def getCell (g : Grid) (r c : Int) : Cell :=
  if 0 ≤ r ∧ 0 ≤ c then (g.getD r.toNat []).getD c.toNat (.str "") else .str ""

/-- Bounds-safe write of `grid[r][c] = v`; out-of-range writes are no-ops. -/
def setCell (g : Grid) (r c : Int) (v : Cell) : Grid :=
  if 0 ≤ r ∧ 0 ≤ c then g.set r.toNat ((g.getD r.toNat []).set c.toNat v) else g

/-- `range(a, b)` as a list of integers. -/
def intRange (a b : Int) : List Int :=
  (List.range (b - a).toNat).map (fun i : Nat => a + (i : Int))

/-- `range(a, b, 2)` as a list of integers. -/
def intRange2 (a b : Int) : List Int :=
  (List.range (((b - a) + 1) / 2).toNat).map (fun i : Nat => a + 2 * (i : Int))

/-- Row-major list of coordinate pairs, as produced by two nested `for` loops. -/
def prodRange (rs cs : List Int) : List (Int × Int) :=
  rs.flatMap (fun r => cs.map (fun c => (r, c)))

/-- The oracle randomness stream: `random`'s successive outputs.  An
exhausted stream keeps yielding 0. -/
abbrev Rng := List Nat

def draw : Rng → Nat × Rng
  | [] => (0, [])
  | n :: rest => (n, rest)

/-- `random.randint(a, b)` (inclusive bounds, natural-number version). -/
def randint (a b : Nat) (rng : Rng) : Nat × Rng :=
  let (u, rng') := draw rng
  (a + u % (b + 1 - a), rng')

/-- `random.randint(a, b)` for integer (coordinate) bounds. -/
def randintI (a b : Int) (rng : Rng) : Int × Rng :=
  let (u, rng') := draw rng
  (a + (u % (b + 1 - a).toNat : Nat), rng')

/-- `random.random()` compared against d100-style thresholds: yields a
percent value in `[0, 100)`; `random.random() < 0.xy` is modelled as
`randPct < xy`. -/
def randPct (rng : Rng) : Nat × Rng :=
  let (u, rng') := draw rng
  (u % 100, rng')

/-- `random.choice(xs)` (with a junk default for the empty list, which the
source never passes). -/
def randChoice {α : Type} (d : α) (xs : List α) (rng : Rng) : α × Rng :=
  let (u, rng') := draw rng
  (xs.getD (u % xs.length) d, rng')

/-- `random.shuffle(xs)`: draw an index, move that element to the front,
recurse on the rest — a draw-driven permutation of `xs`.  Structural
recursion on a step counter (which `shuffle` instantiates with the list's
length, always sufficient). -/
def shuffleAux {α : Type} : Nat → List α → Rng → List α × Rng
  | _, [], rng => ([], rng)
  | 0, _ :: _, rng => ([], rng)
  | n + 1, x :: tail, rng =>
    let (u, rng') := draw rng
    let i := u % (x :: tail).length
    let rest := (x :: tail).eraseIdx i
    let (tl, rng'') := shuffleAux n rest rng'
    ((x :: tail).getD i x :: tl, rng'')

def shuffle {α : Type} (xs : List α) (rng : Rng) : List α × Rng :=
  shuffleAux xs.length xs rng

/-- `random.choices(choices, weights, k=1)[0]`: weighted draw walking the
cumulative weights; falls back to `"F"` exactly where the source's
`except ValueError` fallback would fire. -/
def weightedWalk : List (String × Nat) → Nat → String
  | [], _ => "F"
  | (c, w) :: rest, u => if u < w then c else weightedWalk rest (u - w)

def weightedChoiceTier (choices : List String) (weights : List Nat) (rng : Rng) :
    String × Rng :=
  let (u, rng') := draw rng
  (weightedWalk (choices.zip weights) (u % weights.sum), rng')

-- --- 1. CONFIGURATION CONSTANTS (from the source) ---

def ROOM_WIDTH_PIXELS : Nat := 3840
def ROOM_HEIGHT_PIXELS : Nat := 2160
def TILE_SIZE_WIDTH : Nat := 256
def TILE_SIZE_HEIGHT : Nat := 256

def TILE_NO_WALL : String := "No_Wall"
def TILE_CORNER_TL : String := "Top_Left_Corner"
def TILE_CORNER_TR : String := "Top_Right_Corner"
def TILE_CORNER_BL : String := "Bottom_Left_Corner"
def TILE_CORNER_BR : String := "Bottom_Right_Corner"
def TILE_WALL_TOP : String := "Top_Wall"
def TILE_WALL_BOTTOM : String := "Bottom_Wall"
def TILE_WALL_LEFT : String := "Left_Wall"
def TILE_WALL_RIGHT : String := "Right_Wall"
def TILE_HALLWAY_HORZ : String := "Horizontal_Hallway"
def TILE_HALLWAY_VERT : String := "Vertical_Hallway"
def TILE_OPEN_SPACE : String := "Open_Space"
def TILE_CHEST : String := "Loot_Chest"
def TILE_BARREL : String := "Loot_Barrel"
def TILE_CRATE : String := "Loot_Crate"
def TILE_SPAWNER : String := "Enemy_Spawner"

def MAZE_PASSAGE : Nat := 1
def MAZE_WALL : Nat := 0

def ROOM_MIN_COUNT : Nat := 3
def ROOM_MAX_COUNT : Nat := 8
def ROOM_MIN_EXITS : Nat := 1
def ROOM_MAX_EXITS : Nat := 4

def ROOM_DIMENSIONS_SMALL : List (Int × Int) := [(2, 2), (2, 3), (3, 2)]
def ROOM_DIMENSIONS_MEDIUM : List (Int × Int) := [(2, 4), (4, 2), (3, 4), (4, 3), (4, 4)]
def ROOM_DIMENSIONS_LARGE : List (Int × Int) :=
  [(3, 7), (7, 3), (4, 6), (6, 4), (5, 5), (5, 6), (6, 5), (6, 6)]

def BARREL_COUNT_MIN : Nat := 1
def BARREL_COUNT_MAX : Nat := 8
def CRATE_COUNT_MIN : Nat := 1
def CRATE_COUNT_MAX : Nat := 8
def OUTSIDE_LOOT_MIN : Nat := 2
def OUTSIDE_LOOT_MAX : Nat := 6
def ENEMY_SPAWNER_COUNT : Nat := 2

def GEAR_TIERS : List String := ["F", "E", "D", "C", "B", "A", "S"]
def GEAR_TYPES : List String :=
  ["Weapon Part", "Armor Part", "Food", "Scroll", "Spell", "Card", "Trinket", "Junk"]

/-- The weight table `GEAR_TIER_WEIGHTS`, as an association list. -/
def GEAR_TIER_WEIGHTS : List (String × Nat) :=
  [("S", 3), ("A", 5), ("B", 15), ("C", 25), ("D", 25), ("E", 20), ("F", 7)]

def MIN_LOOT_ITEMS : Nat := 1
def MAX_LOOT_ITEMS : Nat := 8

-- --- 2. DIMENSION CALCULATION ---

def GRID_COLUMNS : Nat := ROOM_WIDTH_PIXELS / TILE_SIZE_WIDTH
def GRID_ROWS : Nat := ROOM_HEIGHT_PIXELS / TILE_SIZE_HEIGHT

-- --- 3. INVENTORY AND LOOT SYSTEM ---

/-- One gear item as built by `InventoryManager.generate_gear`
(`GEAR_STAT_IMPACTS` is empty in the source, so `stats` is always the
placeholder). -/
structure Gear where
  tier : String
  type : String
  name : String
  stats : String
deriving DecidableEq, Repr

/-- `GEAR_TIERS[min_index : max_index + 1]` of
`InventoryManager._roll_weighted_tier`. -/
def validTiers (min_tier max_tier : String) : List String :=
  (GEAR_TIERS.drop (GEAR_TIERS.indexOf min_tier)).take
    (GEAR_TIERS.indexOf max_tier + 1 - GEAR_TIERS.indexOf min_tier)

/-- The `choices` list of `_roll_weighted_tier`: valid tiers present in the
weight table. -/
def tierChoices (tier_weights : List (String × Nat)) (min_tier max_tier : String) :
    List String :=
  (validTiers min_tier max_tier).filter (fun t => (tier_weights.lookup t).isSome)

/-- The `weights` list of `_roll_weighted_tier`. -/
def tierChoiceWeights (tier_weights : List (String × Nat)) (min_tier max_tier : String) :
    List Nat :=
  (tierChoices tier_weights min_tier max_tier).map
    (fun t => (tier_weights.lookup t).getD 0)

/-- `InventoryManager._roll_weighted_tier(min_tier, max_tier)`. -/
def roll_weighted_tier (tier_weights : List (String × Nat))
    (min_tier max_tier : String) (rng : Rng) : String × Rng :=
  let choices := tierChoices tier_weights min_tier max_tier
  let weights := tierChoiceWeights tier_weights min_tier max_tier
  if choices = [] ∨ weights.sum = 0 then ("F", rng)
  else weightedChoiceTier choices weights rng

/-- `InventoryManager.generate_gear(tier_index)`. -/
def generate_gear (tier_index : Nat) (rng : Rng) : Gear × Rng :=
  let tier := GEAR_TIERS.getD tier_index "F"
  let (item_type, rng') := randChoice "" GEAR_TYPES rng
  (⟨tier, item_type, tier ++ " Tier " ++ item_type, "No defined stats yet"⟩, rng')

/-- Phase 1 of the chest branch of `_roll_loot`: `n` draws of the 80/20
A/S coin, each followed by `generate_gear`. -/
def rollHighPhase (tier_weights : List (String × Nat)) :
    Nat → Rng → List Gear × Rng
  | 0, rng => ([], rng)
  | n + 1, rng =>
    let (p, rng) := randPct rng
    let rolled_tier := if p < 20 then "S" else "A"
    let (g, rng) := generate_gear (GEAR_TIERS.indexOf rolled_tier) rng
    let (rest, rng) := rollHighPhase tier_weights n rng
    (g :: rest, rng)

/-- Phase 2 of the chest branch of `_roll_loot`: `n` weighted F–B rolls. -/
def rollLowPhase (tier_weights : List (String × Nat)) :
    Nat → Rng → List Gear × Rng
  | 0, rng => ([], rng)
  | n + 1, rng =>
    let (rolled_tier, rng) := roll_weighted_tier tier_weights "F" "B" rng
    let (g, rng) := generate_gear (GEAR_TIERS.indexOf rolled_tier) rng
    let (rest, rng) := rollLowPhase tier_weights n rng
    (g :: rest, rng)

/-- The standard (barrel/crate) branch of `_roll_loot`: `n` weighted rolls
between `min_tier` and `max_tier`. -/
def rollStandardPhase (tier_weights : List (String × Nat))
    (min_tier max_tier : String) : Nat → Rng → List Gear × Rng
  | 0, rng => ([], rng)
  | n + 1, rng =>
    let (rolled_tier, rng) := roll_weighted_tier tier_weights min_tier max_tier rng
    let (g, rng) := generate_gear (GEAR_TIERS.indexOf rolled_tier) rng
    let (rest, rng) := rollStandardPhase tier_weights min_tier max_tier n rng
    (g :: rest, rng)

/-- `random.sample(xs, k)`: a draw-driven k-subset (first k of a
draw-driven permutation). -/
def randSample {α : Type} (xs : List α) (k : Nat) (rng : Rng) : List α × Rng :=
  let (perm, rng') := shuffle xs rng
  (perm.take k, rng')

/-- The two chest phases of `_roll_loot` concatenated, before the
`len(loot) > MAX_LOOT_ITEMS` check. -/
def chestPhases (tier_weights : List (String × Nat)) (rng : Rng) :
    List Gear × Rng :=
  let (high_count, rng) := randint 1 4 rng
  let (high, rng) := rollHighPhase tier_weights high_count rng
  let (low_count, rng) := randint 0 4 rng
  let (low, rng) := rollLowPhase tier_weights low_count rng
  (high ++ low, rng)

/-- `InventoryManager._roll_loot`. -/
def roll_loot (tier_weights : List (String × Nat)) (min_count max_count : Nat)
    (min_tier max_tier : String) (is_chest : Bool) (rng : Rng) : List Gear × Rng :=
  if is_chest then
    let (loot, rng) := chestPhases tier_weights rng
    if MAX_LOOT_ITEMS < loot.length then randSample loot MAX_LOOT_ITEMS rng
    else (loot, rng)
  else
    let (total_count, rng) := randint min_count max_count rng
    rollStandardPhase tier_weights min_tier max_tier total_count rng

/-- `LootChest.generate_loot` (tier range B–S, chest logic). -/
def lootChest_generate_loot (tier_weights : List (String × Nat)) (rng : Rng) :
    List Gear × Rng :=
  roll_loot tier_weights MIN_LOOT_ITEMS MAX_LOOT_ITEMS "B" "S" true rng

/-- `LootBarrel.generate_loot` (exactly 4 items, tiers F–A). -/
def lootBarrel_generate_loot (tier_weights : List (String × Nat)) (rng : Rng) :
    List Gear × Rng :=
  roll_loot tier_weights 4 4 "F" "A" false rng

/-- `LootCrate.generate_loot` (exactly 6 items, tiers F–A). -/
def lootCrate_generate_loot (tier_weights : List (String × Nat)) (rng : Rng) :
    List Gear × Rng :=
  roll_loot tier_weights 6 6 "F" "A" false rng

-- --- 4. DUNGEON GENERATION CORE FUNCTIONS ---

/-- One entry of the run-wide loot manifest (`placed_loot`). -/
structure LootEntry where
  type : String
  row : Int
  column : Int
  loot : List Gear
deriving DecidableEq, Repr

/-- One entry of `spawner_locations`. -/
structure SpawnerLoc where
  row : Int
  column : Int
  center_x_pixels : Int
  center_y_pixels : Int
deriving DecidableEq, Repr

/-- One room dictionary of `generate_rooms_data`. -/
structure RoomData where
  id : Nat
  type : String
  width : Int
  height : Int
  exits_required : Nat
  placed : Bool
  start_r : Int
  start_c : Int
deriving DecidableEq, Repr

/-- `generate_initial_box_dungeon(rows, columns)`. -/
def generate_initial_box_dungeon (rows columns : Nat) : Grid :=
  let dungeon : Grid := List.replicate rows (List.replicate columns (.str TILE_NO_WALL))
  let dungeon := setCell dungeon 0 0 (.str TILE_CORNER_TL)
  let dungeon := setCell dungeon 0 ((columns : Int) - 1) (.str TILE_CORNER_TR)
  let dungeon := setCell dungeon ((rows : Int) - 1) 0 (.str TILE_CORNER_BL)
  let dungeon := setCell dungeon ((rows : Int) - 1) ((columns : Int) - 1) (.str TILE_CORNER_BR)
  (prodRange (intRange 0 rows) (intRange 0 columns)).foldl
    (fun g rc =>
      let r := rc.1
      let c := rc.2
      if r = 0 ∧ 0 < c ∧ c < (columns : Int) - 1 then setCell g r c (.str TILE_WALL_TOP)
      else if r = (rows : Int) - 1 ∧ 0 < c ∧ c < (columns : Int) - 1 then
        setCell g r c (.str TILE_WALL_BOTTOM)
      else if c = 0 ∧ 0 < r ∧ r < (rows : Int) - 1 then setCell g r c (.str TILE_WALL_LEFT)
      else if c = (columns : Int) - 1 ∧ 0 < r ∧ r < (rows : Int) - 1 then
        setCell g r c (.str TILE_WALL_RIGHT)
      else g)
    dungeon

/-- `initialize_inner_grid(dungeon_grid)`: fills the inner area with
`MAZE_WALL` (the name is abbreviated; the source calls this
`initialize_inner_grid`). -/
def init_inner_grid (dungeon_grid : Grid) : Grid :=
  let rows : Int := dungeon_grid.length
  let columns : Int := (dungeon_grid.getD 0 []).length
  (prodRange (intRange 1 (rows - 1)) (intRange 1 (columns - 1))).foldl
    (fun g rc => setCell g rc.1 rc.2 (.num MAZE_WALL)) dungeon_grid

/-- The `directions` list of `recursive_backtracking_maze_generator`. -/
def mazeDirections : List (Int × Int) := [(0, 2), (0, -2), (2, 0), (-2, 0)]

/-- `recursive_backtracking_maze_generator(grid, r, c)`.  The extra fuel
argument bounds the recursion depth; the entry point passes
`rows * columns + 1`, which exceeds the number of `MAZE_WALL` cells and is
proved sufficient where needed. -/
def recursive_backtracking_maze_generator (fuel : Nat) (grid : Grid)
    (r c : Int) (rng : Rng) : Grid × Rng :=
  match fuel with
  | 0 => (grid, rng)
  | fuel + 1 =>
    let grid := setCell grid r c (.num MAZE_PASSAGE)
    let (dirs, rng) := shuffle mazeDirections rng
    dirs.foldl
      (fun st d =>
        let (g, rng) := st
        let next_r := r + d.1
        let next_c := c + d.2
        let wall_r := r + d.1 / 2
        let wall_c := c + d.2 / 2
        if 1 ≤ next_r ∧ next_r < (GRID_ROWS : Int) - 1 ∧
            1 ≤ next_c ∧ next_c < (GRID_COLUMNS : Int) - 1 then
          if getCell g next_r next_c = .num MAZE_WALL then
            let g := setCell g wall_r wall_c (.num MAZE_PASSAGE)
            recursive_backtracking_maze_generator fuel g next_r next_c rng
          else (g, rng)
        else (g, rng))
      (grid, rng)

/-- Python's `tile.endswith("Wall")`, modelled on the character list. -/
def endsWithWall (s : String) : Bool := "Wall".data.isSuffixOf s.data

/-- The neighbour predicate `is_passage_or_room` of
`generate_hallways_in_remaining_space` (note: any string ending in
`"Wall"` counts, including `No_Wall` and the boundary walls). -/
def is_passage_or_room (g : Grid) (tr tc : Int) : Bool :=
  decide (getCell g tr tc ∈
    ([.str TILE_OPEN_SPACE, .num MAZE_PASSAGE, .str TILE_BARREL, .str TILE_CRATE,
      .str TILE_CHEST, .str TILE_SPAWNER] : List Cell)) ||
  (match getCell g tr tc with
   | .str s => endsWithWall s
   | .num _ => false)

/-- The resolution pass of `generate_hallways_in_remaining_space`,
converting one interior cell's maze ID to its final string tile name. -/
def resolveMazeCell (rows columns : Int) (g : Grid) (rc : Int × Int) : Grid :=
  let r := rc.1
  let c := rc.2
  match getCell g r c with
  | .str _ => g
  | .num n =>
    if n = MAZE_PASSAGE then setCell g r c (.str TILE_OPEN_SPACE)
    else if n = MAZE_WALL then
      let hasN := decide (0 < r) && is_passage_or_room g (r - 1) c
      let hasS := decide (r < rows - 1) && is_passage_or_room g (r + 1) c
      let hasW := decide (0 < c) && is_passage_or_room g r (c - 1)
      let hasE := decide (c < columns - 1) && is_passage_or_room g r (c + 1)
      if ((hasN || hasS) && !(hasW || hasE) : Bool) then
        setCell g r c (.str TILE_HALLWAY_VERT)
      else if ((hasW || hasE) && !(hasN || hasS) : Bool) then
        setCell g r c (.str TILE_HALLWAY_HORZ)
      else setCell g r c (.str TILE_OPEN_SPACE)
    else g

/-- `generate_hallways_in_remaining_space(dungeon_grid)`: runs the
backtracker from a random unclaimed stride-2 cell (if any), then resolves
every remaining maze ID to a string tile.  Returns the grid, the chosen
start (or `(-1, -1)`), and the rng. -/
def generate_hallways_in_remaining_space (dungeon_grid : Grid) (rng : Rng) :
    Grid × Int × Int × Rng :=
  let rows : Int := dungeon_grid.length
  let columns : Int := (dungeon_grid.getD 0 []).length
  let wall_starts := (prodRange (intRange2 1 (rows - 1)) (intRange2 1 (columns - 1))).filter
    (fun rc => getCell dungeon_grid rc.1 rc.2 = .num MAZE_WALL)
  let (g, start_r, start_c, rng) :=
    if wall_starts = [] then (dungeon_grid, (-1 : Int), (-1 : Int), rng)
    else
      let (st, rng) := randChoice (-1, -1) wall_starts rng
      let (g, rng) := recursive_backtracking_maze_generator
        (dungeon_grid.length * (dungeon_grid.getD 0 []).length + 1) dungeon_grid st.1 st.2 rng
      (g, st.1, st.2, rng)
  let g := (prodRange (intRange 1 (rows - 1)) (intRange 1 (columns - 1))).foldl
    (resolveMazeCell rows columns) g
  (g, start_r, start_c, rng)

-- --- 5. ROOM AND CONTAINER PLACEMENT LOGIC ---

/-- One container-placing loop of `place_containers_in_room` (`n`
iterations of "take the next shuffled open tile, write the container tile,
roll loot, append a manifest entry; stop when tiles run out"). -/
def containerLoop (kind : String) (tile : String)
    (gen : List (String × Nat) → Rng → List Gear × Rng)
    (tier_weights : List (String × Nat)) (open_tiles : List (Int × Int)) :
    Nat → Grid → List LootEntry → Rng → Nat → Grid × List LootEntry × Rng × Nat
  | 0, g, loot, rng, used => (g, loot, rng, used)
  | n + 1, g, loot, rng, used =>
    if used < open_tiles.length then
      let rc := open_tiles.getD used (0, 0)
      let g := setCell g rc.1 rc.2 (.str tile)
      let (loot_data, rng) := gen tier_weights rng
      containerLoop kind tile gen tier_weights open_tiles n g
        (loot ++ [⟨kind, rc.1, rc.2, loot_data⟩]) rng (used + 1)
    else (g, loot, rng, used)

/-- The chest phase of `place_containers_in_room` (Large rooms only,
`LootChest.SPAWN_CHANCE = 0.20`); returns the grid, manifest, rng and
`tiles_used`. -/
def chestPlacePhase (g : Grid) (open_tiles : List (Int × Int)) (room_type : String)
    (tier_weights : List (String × Nat)) (loot : List LootEntry) (rng : Rng) :
    Grid × List LootEntry × Rng × Nat :=
  if room_type = "Large" then
    let (p, rng) := randPct rng
    if p < 20 then
      if 0 < open_tiles.length then
        let rc := open_tiles.getD 0 (0, 0)
        let g := setCell g rc.1 rc.2 (.str TILE_CHEST)
        let (loot_data, rng) := lootChest_generate_loot tier_weights rng
        (g, loot ++ [⟨"Chest", rc.1, rc.2, loot_data⟩], rng, 1)
      else (g, loot, rng, 0)
    else (g, loot, rng, 0)
  else (g, loot, rng, 0)

/-- `place_containers_in_room(grid, start_r, start_c, width, height,
room_type, ...)`. -/
def place_containers_in_room (g : Grid) (start_r start_c width height : Int)
    (room_type : String) (tier_weights : List (String × Nat))
    (loot : List LootEntry) (rng : Rng) : Grid × List LootEntry × Rng :=
  let end_r := start_r + height - 1
  let end_c := start_c + width - 1
  let open_tiles := (prodRange (intRange (start_r + 1) end_r)
      (intRange (start_c + 1) end_c)).filter
    (fun rc => getCell g rc.1 rc.2 = .str TILE_OPEN_SPACE)
  let (open_tiles, rng) := shuffle open_tiles rng
  -- 1. Chest placement
  let (g, loot, rng, tiles_used) :=
    chestPlacePhase g open_tiles room_type tier_weights loot rng
  -- 2. Barrel placement (max halved for in-room placement)
  let max_barrels_in_room := if 1 < BARREL_COUNT_MAX then BARREL_COUNT_MAX / 2 else 1
  let (num_barrels, rng) := randint BARREL_COUNT_MIN max_barrels_in_room rng
  let (g, loot, rng, tiles_used) := containerLoop "Barrel" TILE_BARREL
    lootBarrel_generate_loot tier_weights open_tiles num_barrels g loot rng tiles_used
  -- 3. Crate placement (max halved for in-room placement)
  let max_crates_in_room := if 1 < CRATE_COUNT_MAX then CRATE_COUNT_MAX / 2 else 1
  let (num_crates, rng) := randint CRATE_COUNT_MIN max_crates_in_room rng
  let (g, loot, rng, _) := containerLoop "Crate" TILE_CRATE
    lootCrate_generate_loot tier_weights open_tiles num_crates g loot rng tiles_used
  (g, loot, rng)

/-- The tiles a stray chest / outside container / spawner may land on. -/
def validFloorTiles : List Cell :=
  [.str TILE_OPEN_SPACE, .str TILE_HALLWAY_HORZ, .str TILE_HALLWAY_VERT]

/-- `spawn_stray_chest_if_lucky(grid, ...)`: 1% chance
(`STRAY_CHANCE = 0.01`) of converting one random open tile to a chest. -/
def spawn_stray_chest_if_lucky (g : Grid) (tier_weights : List (String × Nat))
    (loot : List LootEntry) (rng : Rng) : Grid × List LootEntry × Bool × Rng :=
  let rows : Int := g.length
  let cols : Int := (g.getD 0 []).length
  let (p, rng) := randPct rng
  if p < 1 then
    let potential_spots := (prodRange (intRange 1 (rows - 1)) (intRange 1 (cols - 1))).filter
      (fun rc => getCell g rc.1 rc.2 ∈ validFloorTiles)
    if potential_spots = [] then (g, loot, false, rng)
    else
      let (rc, rng) := randChoice (0, 0) potential_spots rng
      let g := setCell g rc.1 rc.2 (.str TILE_CHEST)
      let (loot_data, rng) := lootChest_generate_loot tier_weights rng
      (g, loot ++ [⟨"Chest [RARE STRAY CHEST]", rc.1, rc.2, loot_data⟩], true, rng)
  else (g, loot, false, rng)

/-- The placement loop of `place_outside_loot`: walk the shuffled spots,
placing a Barrel or Crate (50/50) at each until `num_to_place` are
placed. -/
def outsideLootLoop (tier_weights : List (String × Nat)) (num_to_place : Nat) :
    List (Int × Int) → Grid → List LootEntry → Rng → Nat → Grid × List LootEntry × Rng
  | [], g, loot, rng, _ => (g, loot, rng)
  | rc :: rest, g, loot, rng, placed_count =>
    if num_to_place ≤ placed_count then (g, loot, rng)
    else
      let (container_type, rng) := randChoice "" ["Barrel", "Crate"] rng
      let (g, loot_data, rng) :=
        if container_type = "Barrel" then
          let (loot_data, rng) := lootBarrel_generate_loot tier_weights rng
          (setCell g rc.1 rc.2 (.str TILE_BARREL), loot_data, rng)
        else
          let (loot_data, rng) := lootCrate_generate_loot tier_weights rng
          (setCell g rc.1 rc.2 (.str TILE_CRATE), loot_data, rng)
      outsideLootLoop tier_weights num_to_place rest g
        (loot ++ [⟨container_type, rc.1, rc.2, loot_data⟩]) rng (placed_count + 1)

/-- `place_outside_loot(grid, ...)`. -/
def place_outside_loot (g : Grid) (tier_weights : List (String × Nat))
    (loot : List LootEntry) (rng : Rng) : Grid × List LootEntry × Rng :=
  let rows : Int := g.length
  let cols : Int := (g.getD 0 []).length
  let potential_spots := (prodRange (intRange 1 (rows - 1)) (intRange 1 (cols - 1))).filter
    (fun rc => getCell g rc.1 rc.2 ∈ validFloorTiles)
  let (potential_spots, rng) := shuffle potential_spots rng
  let (num_to_place, rng) := randint OUTSIDE_LOOT_MIN OUTSIDE_LOOT_MAX rng
  outsideLootLoop tier_weights num_to_place potential_spots g loot rng 0

/-- The placement loop of `place_enemy_spawners`. -/
def spawnerLoop (spawner_count : Nat) :
    List (Int × Int) → Grid → List SpawnerLoc → Nat → Grid × List SpawnerLoc
  | [], g, locs, _ => (g, locs)
  | rc :: rest, g, locs, placed_count =>
    if spawner_count ≤ placed_count then (g, locs)
    else
      let g := setCell g rc.1 rc.2 (.str TILE_SPAWNER)
      let loc : SpawnerLoc :=
        ⟨rc.1, rc.2, rc.2 * TILE_SIZE_WIDTH + TILE_SIZE_WIDTH / 2,
          rc.1 * TILE_SIZE_HEIGHT + TILE_SIZE_HEIGHT / 2⟩
      spawnerLoop spawner_count rest g (locs ++ [loc]) (placed_count + 1)

/-- `place_enemy_spawners(grid, spawner_count)`. -/
def place_enemy_spawners (g : Grid) (spawner_count : Nat) (rng : Rng) :
    Grid × List SpawnerLoc × Rng :=
  let rows : Int := g.length
  let cols : Int := (g.getD 0 []).length
  let potential_spots := (prodRange (intRange 1 (rows - 1)) (intRange 1 (cols - 1))).filter
    (fun rc => getCell g rc.1 rc.2 ∈ validFloorTiles)
  let (potential_spots, rng) := shuffle potential_spots rng
  let (g, locs) := spawnerLoop spawner_count potential_spots g [] 0
  (g, locs, rng)

-- --- Room Carving Functions ---

/-- One cell of the perimeter-carving double loop of `carve_small_room`. -/
def carvePerimeterCell (start_r start_c end_r end_c : Int) (g : Grid)
    (rc : Int × Int) : Grid :=
  let r := rc.1
  let c := rc.2
  let is_border := r = start_r ∨ r = end_r ∨ c = start_c ∨ c = end_c
  let is_corner := (r = start_r ∧ c = start_c) ∨ (r = start_r ∧ c = end_c) ∨
    (r = end_r ∧ c = start_c) ∨ (r = end_r ∧ c = end_c)
  if is_corner then
    if r = start_r ∧ c = start_c then setCell g r c (.str TILE_CORNER_TL)
    else if r = start_r ∧ c = end_c then setCell g r c (.str TILE_CORNER_TR)
    else if r = end_r ∧ c = start_c then setCell g r c (.str TILE_CORNER_BL)
    else setCell g r c (.str TILE_CORNER_BR)
  else if is_border then
    if r = start_r then setCell g r c (.str TILE_WALL_TOP)
    else if r = end_r then setCell g r c (.str TILE_WALL_BOTTOM)
    else if c = start_c then setCell g r c (.str TILE_WALL_LEFT)
    else setCell g r c (.str TILE_WALL_RIGHT)
  else setCell g r c (.str TILE_OPEN_SPACE)

/-- The non-corner border cells of a room rectangle, in the order
`carve_small_room` builds its `wall_tiles` pool. -/
def roomWallTiles (start_r start_c width height : Int) : List (Int × Int) :=
  let end_r := start_r + height - 1
  let end_c := start_c + width - 1
  ((intRange (start_c + 1) end_c).flatMap (fun c => [(start_r, c), (end_r, c)])) ++
  ((intRange (start_r + 1) end_r).flatMap (fun r => [(r, start_c), (r, end_c)]))

/-- The exit-placing loop of `carve_small_room`: walk the shuffled wall
tiles converting them to `OpenFloor` until `exits_required` are placed. -/
def exitLoop (exits_required : Nat) : Grid → List (Int × Int) → Nat → Grid
  | g, [], _ => g
  | g, rc :: rest, placed =>
    if exits_required ≤ placed then g
    else exitLoop exits_required (setCell g rc.1 rc.2 (.str TILE_OPEN_SPACE)) rest
      (placed + 1)

/-- `carve_small_room(grid, start_r, start_c, width, height,
exits_required, ...)`. -/
def carve_small_room (g : Grid) (start_r start_c width height : Int)
    (exits_required : Nat) (tier_weights : List (String × Nat))
    (loot : List LootEntry) (rng : Rng) : Grid × List LootEntry × Rng :=
  let end_r := start_r + height - 1
  let end_c := start_c + width - 1
  -- Perimeter carving logic
  let g := (prodRange (intRange start_r (start_r + height))
      (intRange start_c (start_c + width))).foldl
    (carvePerimeterCell start_r start_c end_r end_c) g
  -- Exit placement logic
  let (wall_tiles, rng) := shuffle (roomWallTiles start_r start_c width height) rng
  let g := exitLoop exits_required g wall_tiles 0
  -- Place containers
  place_containers_in_room g start_r start_c width height "Small" tier_weights loot rng

/-- The interior-wall loop shared by `carve_medium_room` and
`carve_large_room`: `n` random horizontal/vertical partitions, each
overwriting only cells currently `OpenFloor`. -/
def interiorWallLoop (inner_start_r inner_start_c inner_width inner_height : Int) :
    Nat → Grid → Rng → Grid × Rng
  | 0, g, rng => (g, rng)
  | n + 1, g, rng =>
    let (is_horizontal, rng) := randChoice true [true, false] rng
    let (g, rng) :=
      if is_horizontal then
        let (wall_r, rng) := randintI inner_start_r (inner_start_r + inner_height - 1) rng
        ((intRange inner_start_c (inner_start_c + inner_width)).foldl
          (fun g c =>
            if getCell g wall_r c = .str TILE_OPEN_SPACE then
              setCell g wall_r c (.str TILE_HALLWAY_HORZ)
            else g) g, rng)
      else
        let (wall_c, rng) := randintI inner_start_c (inner_start_c + inner_width - 1) rng
        ((intRange inner_start_r (inner_start_r + inner_height)).foldl
          (fun g r =>
            if getCell g r wall_c = .str TILE_OPEN_SPACE then
              setCell g r wall_c (.str TILE_HALLWAY_VERT)
            else g) g, rng)
    interiorWallLoop inner_start_r inner_start_c inner_width inner_height n g rng

/-- `carve_medium_room(grid, ...)`. -/
def carve_medium_room (g : Grid) (start_r start_c width height : Int)
    (exits_required : Nat) (tier_weights : List (String × Nat))
    (loot : List LootEntry) (rng : Rng) : Grid × List LootEntry × Rng :=
  let (g, loot, rng) := carve_small_room g start_r start_c width height
    exits_required tier_weights loot rng
  let inner_start_r := start_r + 1
  let inner_start_c := start_c + 1
  let inner_height := height - 2
  let inner_width := width - 2
  -- Interior wall logic
  let (g, rng) :=
    if 2 ≤ inner_width ∧ 2 ≤ inner_height then
      let (num_interior_walls, rng) := randint 1 3 rng
      interiorWallLoop inner_start_r inner_start_c inner_width inner_height
        num_interior_walls g rng
    else (g, rng)
  -- Re-run container placement on the remaining open space
  place_containers_in_room g start_r start_c width height "Medium" tier_weights loot rng

/-- The sub-room clearance check of `carve_large_room`: is the
`sub_width × sub_height` footprint at `(sub_r, sub_c)` entirely
`OpenFloor`? -/
def isClearForSub (g : Grid) (sub_r sub_c sub_width sub_height : Int) : Bool :=
  (prodRange (intRange sub_r (sub_r + sub_height))
    (intRange sub_c (sub_c + sub_width))).all
    (fun rc => decide (getCell g rc.1 rc.2 = .str TILE_OPEN_SPACE))

/-- The sub-room phase of `carve_large_room`: pick a Small dimension pair,
find the first shuffled fully-`OpenFloor` interior footprint there, and
carve a small room with a single exit (silently skipped when none fits). -/
def subRoomPhase (g : Grid) (start_r start_c width height : Int)
    (tier_weights : List (String × Nat)) (loot : List LootEntry) (rng : Rng) :
    Grid × List LootEntry × Rng :=
  let inner_start_r := start_r + 1
  let inner_start_c := start_c + 1
  let inner_height := height - 2
  let inner_width := width - 2
  let (subdim, rng) := randChoice (0, 0) ROOM_DIMENSIONS_SMALL rng
  let sub_width := subdim.1
  let sub_height := subdim.2
  let inner_possible_starts := prodRange
    (intRange inner_start_r (inner_start_r + inner_height - sub_height + 1))
    (intRange inner_start_c (inner_start_c + inner_width - sub_width + 1))
  let (inner_possible_starts, rng) := shuffle inner_possible_starts rng
  match inner_possible_starts.find?
      (fun rc => isClearForSub g rc.1 rc.2 sub_width sub_height) with
  | some rc => carve_small_room g rc.1 rc.2 sub_width sub_height 1 tier_weights loot rng
  | none => (g, loot, rng)

/-- `carve_large_room(grid, ...)`. -/
def carve_large_room (g : Grid) (start_r start_c width height : Int)
    (exits_required : Nat) (tier_weights : List (String × Nat))
    (loot : List LootEntry) (rng : Rng) : Grid × List LootEntry × Rng :=
  let (g, loot, rng) := carve_small_room g start_r start_c width height
    exits_required tier_weights loot rng
  let inner_start_r := start_r + 1
  let inner_start_c := start_c + 1
  let inner_height := height - 2
  let inner_width := width - 2
  -- Interior wall logic (same as Medium)
  let (g, rng) :=
    if 2 ≤ inner_width ∧ 2 ≤ inner_height then
      let (num_interior_walls, rng) := randint 1 3 rng
      interiorWallLoop inner_start_r inner_start_c inner_width inner_height
        num_interior_walls g rng
    else (g, rng)
  -- Sub-room placement logic
  let (g, loot, rng) := subRoomPhase g start_r start_c width height tier_weights loot rng
  -- Place containers in the main large room space
  place_containers_in_room g start_r start_c width height "Large" tier_weights loot rng

-- --- Room Finding/Connecting Logic ---

/-- `generate_rooms_data()`. -/
def generate_rooms_data (rng : Rng) : List RoomData × Rng :=
  let (num_rooms, rng) := randint ROOM_MIN_COUNT ROOM_MAX_COUNT rng
  (List.range num_rooms).foldl
    (fun st i =>
      let (rooms, rng) := st
      let (roll, rng) := randPct rng
      let (room_type, room_width, room_height, rng) :=
        if roll < 33 then
          let (d, rng) := randChoice (0, 0) ROOM_DIMENSIONS_SMALL rng
          ("Small", d.1, d.2, rng)
        else if roll < 66 then
          let (d, rng) := randChoice (0, 0) ROOM_DIMENSIONS_MEDIUM rng
          ("Medium", d.1, d.2, rng)
        else
          let (d, rng) := randChoice (0, 0) ROOM_DIMENSIONS_LARGE rng
          ("Large", d.1, d.2, rng)
      let (num_exits, rng) := randint ROOM_MIN_EXITS ROOM_MAX_EXITS rng
      (rooms ++ [⟨i, room_type, room_width, room_height, num_exits, false, -1, -1⟩], rng))
    ([], rng)

/-- `is_area_clear(grid, start_r, start_c, width, height)`. -/
def is_area_clear (g : Grid) (start_r start_c width height : Int) : Bool :=
  let rows : Int := g.length
  let cols : Int := (g.getD 0 []).length
  if start_r < 1 ∨ start_c < 1 ∨ rows - 1 < start_r + height ∨ cols - 1 < start_c + width then
    false
  else
    (prodRange (intRange start_r (start_r + height))
      (intRange start_c (start_c + width))).all
      (fun rc => decide (getCell g rc.1 rc.2 = .num MAZE_WALL))

/-- `find_clear_area(grid, room_width, room_height)`. -/
def find_clear_area (g : Grid) (room_width room_height : Int) (rng : Rng) :
    (Int × Int) × Rng :=
  let rows : Int := g.length
  let cols : Int := (g.getD 0 []).length
  let possible_starts := prodRange (intRange 1 (rows - room_height))
    (intRange 1 (cols - room_width))
  let (possible_starts, rng) := shuffle possible_starts rng
  match possible_starts.find?
      (fun rc => is_area_clear g rc.1 rc.2 room_width room_height) with
  | some rc => (rc, rng)
  | none => ((-1, -1), rng)

/-- The body of the placement loop of `place_rooms_in_dungeon` for one
room. -/
def placeRoomStep (tier_weights : List (String × Nat))
    (st : Grid × List RoomData × List LootEntry × Rng) (room : RoomData) :
    Grid × List RoomData × List LootEntry × Rng :=
  let (g, rooms_out, loot, rng) := st
  let (rc, rng) := find_clear_area g room.width room.height rng
  if rc.1 ≠ -1 then
    let room' := { room with placed := true, start_r := rc.1, start_c := rc.2 }
    let (g, loot, rng) :=
      if room.type = "Small" then
        carve_small_room g rc.1 rc.2 room.width room.height room.exits_required
          tier_weights loot rng
      else if room.type = "Medium" then
        carve_medium_room g rc.1 rc.2 room.width room.height room.exits_required
          tier_weights loot rng
      else if room.type = "Large" then
        carve_large_room g rc.1 rc.2 room.width room.height room.exits_required
          tier_weights loot rng
      else (g, loot, rng)
    (g, rooms_out ++ [room'], loot, rng)
  else (g, rooms_out ++ [room], loot, rng)

/-- `place_rooms_in_dungeon(dungeon_grid, rooms_data, ...)`; returns the
grid, the rooms list with `placed`/`start_r`/`start_c` updated, the loot
manifest and the rng. -/
def place_rooms_in_dungeon (g : Grid) (rooms_data : List RoomData)
    (tier_weights : List (String × Nat)) (loot : List LootEntry) (rng : Rng) :
    Grid × List RoomData × List LootEntry × Rng :=
  rooms_data.foldl (placeRoomStep tier_weights) (g, [], loot, rng)

/-- The exit tiles `connect_rooms_to_hallways` looks for on a room's
perimeter. -/
def connectExitTiles : List Cell :=
  [.str TILE_OPEN_SPACE, .str TILE_BARREL, .str TILE_CRATE, .str TILE_CHEST]

/-- The body of `connect_rooms_to_hallways` for one cell of one placed
room's rectangle. -/
def connectCell (start_r start_c end_r end_c : Int) (g : Grid) (rc : Int × Int) : Grid :=
  let r := rc.1
  let c := rc.2
  if getCell g r c ∈ connectExitTiles ∧
      (r = start_r ∨ r = end_r ∨ c = start_c ∨ c = end_c) then
    let d : Int × Int :=
      if r = start_r then (-1, 0)
      else if r = end_r then (1, 0)
      else if c = start_c then (0, -1)
      else if c = end_c then (0, 1)
      else (0, 0)
    let connect_r := r + d.1
    let connect_c := c + d.2
    if 1 ≤ connect_r ∧ connect_r < (GRID_ROWS : Int) - 1 ∧
        1 ≤ connect_c ∧ connect_c < (GRID_COLUMNS : Int) - 1 then
      if getCell g connect_r connect_c = .num MAZE_WALL then
        setCell g connect_r connect_c (.num MAZE_PASSAGE)
      else g
    else g
  else g

/-- `connect_rooms_to_hallways(grid, rooms_data)`. -/
def connect_rooms_to_hallways (g : Grid) (rooms_data : List RoomData) : Grid :=
  rooms_data.foldl
    (fun g room =>
      if room.placed = false then g
      else
        let start_r := room.start_r
        let start_c := room.start_c
        let end_r := start_r + room.height - 1
        let end_c := start_c + room.width - 1
        (prodRange (intRange start_r (end_r + 1)) (intRange start_c (end_c + 1))).foldl
          (connectCell start_r start_c end_r end_c) g)
    g

-- --- 7. EXECUTION PIPELINE (generate_dungeon_and_loot, printing omitted) ---

/-- Pipeline state after a generation stage. -/
structure GenState where
  grid : Grid
  rooms : List RoomData
  loot : List LootEntry
  spawners : List SpawnerLoc
  rng : Rng

/-- Steps 6.1–6.4 of `generate_dungeon_and_loot`: initial box, inner grid,
room parameter generation, room placement (with in-room loot). -/
def pipelineAfterPlacement (rng : Rng) : GenState :=
  let dungeon_grid := generate_initial_box_dungeon GRID_ROWS GRID_COLUMNS
  let dungeon_grid := init_inner_grid dungeon_grid
  let (rooms_to_place, rng) := generate_rooms_data rng
  let (g, rooms, loot, rng) :=
    place_rooms_in_dungeon dungeon_grid rooms_to_place GEAR_TIER_WEIGHTS [] rng
  ⟨g, rooms, loot, [], rng⟩

/-- Step 6.5: connect rooms to the maze system. -/
def pipelineAfterConnect (rng : Rng) : GenState :=
  let st := pipelineAfterPlacement rng
  { st with grid := connect_rooms_to_hallways st.grid st.rooms }

/-- Step 6.6: generate hallways (backtracking plus resolution). -/
def pipelineAfterHallways (rng : Rng) : GenState :=
  let st := pipelineAfterConnect rng
  let (g, _, _, rng) := generate_hallways_in_remaining_space st.grid st.rng
  { st with grid := g, rng := rng }

/-- Step 6.6b: place enemy spawners. -/
def pipelineAfterSpawners (rng : Rng) : GenState :=
  let st := pipelineAfterHallways rng
  let (g, locs, rng) := place_enemy_spawners st.grid ENEMY_SPAWNER_COUNT st.rng
  { st with grid := g, spawners := locs, rng := rng }

/-- Step 6.6c: place outside loot. -/
def pipelineAfterOutsideLoot (rng : Rng) : GenState :=
  let st := pipelineAfterSpawners rng
  let (g, loot, rng) := place_outside_loot st.grid GEAR_TIER_WEIGHTS st.loot st.rng
  { st with grid := g, loot := loot, rng := rng }

/-- The full generation pipeline `generate_dungeon_and_loot` (steps
6.1–6.6d; the remaining steps only format and print). -/
def generate_dungeon_and_loot (rng : Rng) : GenState :=
  let st := pipelineAfterOutsideLoot rng
  let (g, loot, _, rng) := spawn_stray_chest_if_lucky st.grid GEAR_TIER_WEIGHTS st.loot st.rng
  { st with grid := g, loot := loot, rng := rng }

-- --- BASIC LEMMAS: grid reads and writes ---

/-- The pipeline's grids are rectangular: `rows` rows of `cols` cells. -/
def GridRect (g : Grid) (rows cols : Nat) : Prop :=
  g.length = rows ∧ ∀ row ∈ g, row.length = cols

theorem gridRect_setCell {g : Grid} {rows cols : Nat} (hg : GridRect g rows cols)
    (r c : Int) (v : Cell) : GridRect (setCell g r c v) rows cols := by
  unfold setCell
  split
  · rcases Nat.lt_or_ge r.toNat g.length with hlt | hge
    · constructor
      · simpa using hg.1
      · intro row hrow
        rcases List.mem_or_eq_of_mem_set hrow with h | h
        · exact hg.2 _ h
        · subst h
          have hgd : g.getD r.toNat [] = g[r.toNat] := by
            simp [List.getD_eq_getElem?_getD, List.getElem?_eq_getElem hlt]
          rw [hgd, List.length_set]
          exact hg.2 _ (List.getElem_mem hlt)
    · rw [List.set_eq_of_length_le hge]
      exact hg
  · exact hg

theorem getCell_setCell_ne {g : Grid} {r c r' c' : Int} {v : Cell}
    (hne : r' ≠ r ∨ c' ≠ c) :
    getCell (setCell g r c v) r' c' = getCell g r' c' := by
  unfold getCell setCell
  by_cases hw : 0 ≤ r ∧ 0 ≤ c
  · rw [if_pos hw]
    by_cases hrd : 0 ≤ r' ∧ 0 ≤ c'
    · rw [if_pos hrd, if_pos hrd]
      by_cases hrr : r'.toNat = r.toNat
      · have hcc : c'.toNat ≠ c.toNat := by
          rcases hne with h | h
          · exact absurd (show r' = r by omega) h
          · omega
        by_cases hlt : r.toNat < g.length
        · rw [hrr]
          simp only [List.getD_eq_getElem?_getD, List.getElem?_set_self hlt]
          simp [List.getD_eq_getElem?_getD, List.getElem?_set_ne (Ne.symm hcc)]
        · rw [List.set_eq_of_length_le (by omega)]
      · simp [List.getD_eq_getElem?_getD, List.getElem?_set_ne (Ne.symm hrr)]
    · rw [if_neg hrd, if_neg hrd]
  · rw [if_neg hw]

theorem getCell_setCell_self {g : Grid} {r c : Int} {v : Cell}
    (h0r : 0 ≤ r) (h0c : 0 ≤ c) (hr : r.toNat < g.length)
    (hc : c.toNat < (g.getD r.toNat []).length) :
    getCell (setCell g r c v) r c = v := by
  have hw : 0 ≤ r ∧ 0 ≤ c := ⟨h0r, h0c⟩
  unfold getCell setCell
  rw [if_pos hw, if_pos hw]
  simp only [List.getD_eq_getElem?_getD, List.getElem?_set_self hr]
  have hc2 : c.toNat < ((g[r.toNat]?.getD []).set c.toNat v).length := by
    rw [List.length_set]
    simpa [List.getD_eq_getElem?_getD] using hc
  rw [List.getElem?_eq_getElem (by simpa using hc2)]
  simp [List.getElem_set_self (by simpa [List.length_set] using hc2)]

-- --- BASIC LEMMAS: ranges, folds, shuffles ---

theorem mem_intRange {a b x : Int} : x ∈ intRange a b ↔ a ≤ x ∧ x < b := by
  unfold intRange
  simp only [List.mem_map, List.mem_range]
  constructor
  · rintro ⟨i, hi, rfl⟩
    omega
  · rintro ⟨h1, h2⟩
    exact ⟨(x - a).toNat, by omega, by omega⟩

theorem nodup_intRange {a b : Int} : (intRange a b).Nodup := by
  unfold intRange
  exact (List.nodup_range _).map (fun i j hij => by omega)

theorem prodRange_eq_product (rs cs : List Int) : prodRange rs cs = rs ×ˢ cs := rfl

theorem mem_prodRange {rs cs : List Int} {p : Int × Int} :
    p ∈ prodRange rs cs ↔ p.1 ∈ rs ∧ p.2 ∈ cs := by
  rw [prodRange_eq_product]
  exact List.mem_product

theorem nodup_prodRange {rs cs : List Int} (hr : rs.Nodup) (hc : cs.Nodup) :
    (prodRange rs cs).Nodup := by
  rw [prodRange_eq_product]
  exact hr.product hc

/-- Fold invariant: a property preserved by every step holds at the end. -/
theorem foldl_preserve {σ ι : Type} (P : σ → Prop) (f : σ → ι → σ) :
    ∀ (xs : List ι) (s : σ), P s → (∀ s x, x ∈ xs → P s → P (f s x)) →
      P (xs.foldl f s)
  | [], s, hs, _ => hs
  | x :: xs, s, hs, hstep =>
    foldl_preserve P f xs (f s x) (hstep s x (List.mem_cons_self x xs) hs)
      (fun s' y hy => hstep s' y (List.mem_cons_of_mem x hy))

/-- Fold invariant plus per-element postcondition: on a duplicate-free
index list, if each step establishes `P` at its own element and every step
preserves `P` at other elements, `P` holds at every element at the end. -/
theorem foldl_establish {σ ι : Type} (I : σ → Prop) (P : σ → ι → Prop) (f : σ → ι → σ) :
    ∀ (xs : List ι) (s : σ), xs.Nodup → I s →
      (∀ s x, x ∈ xs → I s → I (f s x)) →
      (∀ s x, x ∈ xs → I s → P (f s x) x) →
      (∀ s x y, x ∈ xs → x ≠ y → I s → P s y → P (f s x) y) →
      ∀ y ∈ xs, P (xs.foldl f s) y := by
  intro xs
  induction xs with
  | nil => simp
  | cons x xs ih =>
    intro s hnd hI hIstep hstep hpres y hy
    simp only [List.foldl_cons]
    have hI' : I (f s x) := hIstep s x (by simp) hI
    rcases List.mem_cons.1 hy with rfl | hy'
    · have h0 : P (f s y) y := hstep s y (by simp) hI
      have hnotin : y ∉ xs := (List.nodup_cons.1 hnd).1
      have hout := foldl_preserve (fun st => I st ∧ P st y) f xs (f s y) ⟨hI', h0⟩
        (fun s' z hz hIP => ⟨hIstep s' z (by simp [hz]) hIP.1,
          hpres s' z y (by simp [hz]) (fun h => hnotin (h ▸ hz)) hIP.1 hIP.2⟩)
      exact hout.2
    · exact ih (f s x) (List.nodup_cons.1 hnd).2 hI'
        (fun s' z hz => hIstep s' z (by simp [hz]))
        (fun s' z hz => hstep s' z (by simp [hz]))
        (fun s' z w hz => hpres s' z w (by simp [hz])) y hy'

theorem getD_cons_eraseIdx_perm {α : Type} (xs : List α) (d : α) {i : Nat}
    (hi : i < xs.length) : (xs.getD i d :: xs.eraseIdx i).Perm xs := by
  have hgd : xs.getD i d = xs[i] := by
    simp [List.getD_eq_getElem?_getD, List.getElem?_eq_getElem hi]
  rw [hgd, List.eraseIdx_eq_take_drop_succ]
  have hx : xs = xs.take i ++ xs[i] :: xs.drop (i + 1) := by
    conv_lhs => rw [← List.take_append_drop i xs]
    rw [List.drop_eq_getElem_cons hi]
  conv_rhs => rw [hx]
  exact List.perm_middle.symm

theorem shuffleAux_perm {α : Type} :
    ∀ (n : Nat) (xs : List α) (rng : Rng), xs.length ≤ n →
      ((shuffleAux n xs rng).1).Perm xs
  | _, [], _, _ => by simp [shuffleAux]
  | 0, x :: tail, rng, h => by simp at h
  | n + 1, x :: tail, rng, h => by
    simp only [shuffleAux]
    have hi : (draw rng).1 % (x :: tail).length < (x :: tail).length :=
      Nat.mod_lt _ (by simp)
    have hlen : ((x :: tail).eraseIdx ((draw rng).1 % (x :: tail).length)).length ≤ n := by
      rw [List.length_eraseIdx_of_lt hi]
      simpa using Nat.le_of_succ_le_succ (by simpa using h)
    have ih := shuffleAux_perm n ((x :: tail).eraseIdx ((draw rng).1 % (x :: tail).length))
      (draw rng).2 hlen
    exact (ih.cons _).trans (getD_cons_eraseIdx_perm _ _ hi)

/-- The shuffled list is a permutation of the input. -/
theorem shuffle_perm {α : Type} (xs : List α) (rng : Rng) :
    ((shuffle xs rng).1).Perm xs :=
  shuffleAux_perm xs.length xs rng le_rfl

theorem shuffle_mem {α : Type} {xs : List α} {rng : Rng} {x : α} :
    x ∈ (shuffle xs rng).1 ↔ x ∈ xs :=
  (shuffle_perm xs rng).mem_iff

theorem shuffle_nodup {α : Type} {xs : List α} {rng : Rng} (h : xs.Nodup) :
    ((shuffle xs rng).1).Nodup :=
  ((shuffle_perm xs rng).nodup_iff).2 h

theorem shuffle_length {α : Type} (xs : List α) (rng : Rng) :
    ((shuffle xs rng).1).length = xs.length :=
  (shuffle_perm xs rng).length_eq

-- --- LOOT SYSTEM LEMMAS (claims C5, C7, C9) ---

theorem weightedWalk_mem (l : List (String × Nat)) (u : Nat) :
    weightedWalk l u = "F" ∨ weightedWalk l u ∈ l.map Prod.fst := by
  induction l generalizing u with
  | nil => exact Or.inl rfl
  | cons p rest ih =>
    rcases p with ⟨c, w⟩
    by_cases h : u < w
    · simp [weightedWalk, h]
    · rcases ih (u - w) with h' | h'
      · simp only [weightedWalk, if_neg h]
        exact Or.inl h'
      · simp only [weightedWalk, if_neg h]
        right
        simp only [List.map_cons, List.mem_cons]
        exact Or.inr h'

theorem roll_weighted_tier_mem_valid (tier_weights : List (String × Nat))
    (min_tier max_tier : String) (rng : Rng) :
    (roll_weighted_tier tier_weights min_tier max_tier rng).1 = "F" ∨
    (roll_weighted_tier tier_weights min_tier max_tier rng).1 ∈
      validTiers min_tier max_tier := by
  simp only [roll_weighted_tier]
  split
  · exact Or.inl rfl
  · unfold weightedChoiceTier
    simp only
    rcases weightedWalk_mem
        ((tierChoices tier_weights min_tier max_tier).zip
          (tierChoiceWeights tier_weights min_tier max_tier))
        ((draw rng).1 % (tierChoiceWeights tier_weights min_tier max_tier).sum) with h | h
    · exact Or.inl h
    · right
      have hmem := List.map_fst_zip (tierChoices tier_weights min_tier max_tier)
        (tierChoiceWeights tier_weights min_tier max_tier)
        (by simp [tierChoiceWeights])
      rw [hmem] at h
      simp only [tierChoices] at h
      exact List.mem_of_mem_filter h

/-- F–B rolls always land in the five bottom tiers, whatever the table. -/
theorem roll_weighted_tier_FB (tier_weights : List (String × Nat)) (rng : Rng) :
    (roll_weighted_tier tier_weights "F" "B" rng).1 ∈ ["F", "E", "D", "C", "B"] := by
  have hv : validTiers "F" "B" = ["F", "E", "D", "C", "B"] := by decide
  rcases roll_weighted_tier_mem_valid tier_weights "F" "B" rng with h | h
  · rw [h]; decide
  · rwa [hv] at h

/-- `generate_gear` round-trips the tier it is given (for any real tier). -/
theorem generate_gear_tier_of_mem {t : String} (h : t ∈ GEAR_TIERS) (rng : Rng) :
    (generate_gear (GEAR_TIERS.indexOf t) rng).1.tier = t := by
  have h7 : t = "F" ∨ t = "E" ∨ t = "D" ∨ t = "C" ∨ t = "B" ∨ t = "A" ∨ t = "S" := by
    simpa [GEAR_TIERS] using h
  rcases h7 with rfl | rfl | rfl | rfl | rfl | rfl | rfl <;> rfl

theorem rollHighPhase_spec (tier_weights : List (String × Nat)) :
    ∀ (n : Nat) (rng : Rng),
      ((rollHighPhase tier_weights n rng).1).length = n ∧
      ∀ it ∈ (rollHighPhase tier_weights n rng).1, it.tier = "S" ∨ it.tier = "A"
  | 0, rng => by simp [rollHighPhase]
  | n + 1, rng => by
    simp only [rollHighPhase]
    have ih := rollHighPhase_spec tier_weights n
    by_cases h : (randPct rng).1 < 20
    · simp only [if_pos h]
      refine ⟨by simpa using (ih _).1, ?_⟩
      intro it hit
      rcases List.mem_cons.1 hit with rfl | hmem
      · exact Or.inl rfl
      · exact (ih _).2 it hmem
    · simp only [if_neg h]
      refine ⟨by simpa using (ih _).1, ?_⟩
      intro it hit
      rcases List.mem_cons.1 hit with rfl | hmem
      · exact Or.inr rfl
      · exact (ih _).2 it hmem

theorem rollLowPhase_spec (tier_weights : List (String × Nat)) :
    ∀ (n : Nat) (rng : Rng),
      ((rollLowPhase tier_weights n rng).1).length = n ∧
      ∀ it ∈ (rollLowPhase tier_weights n rng).1, it.tier ∈ ["F", "E", "D", "C", "B"]
  | 0, rng => by simp [rollLowPhase]
  | n + 1, rng => by
    simp only [rollLowPhase]
    have ih := rollLowPhase_spec tier_weights n
    refine ⟨by simpa using (ih _).1, ?_⟩
    intro it hit
    rcases List.mem_cons.1 hit with rfl | hmem
    · have hFB := roll_weighted_tier_FB tier_weights rng
      have hmemG : (roll_weighted_tier tier_weights "F" "B" rng).1 ∈ GEAR_TIERS := by
        have : (["F", "E", "D", "C", "B"] : List String) ⊆ GEAR_TIERS := by decide
        exact this hFB
      rw [generate_gear_tier_of_mem hmemG]
      exact hFB
    · exact (ih _).2 it hmem

theorem randint_bounds (a b : Nat) (rng : Rng) (h : a ≤ b) :
    a ≤ (randint a b rng).1 ∧ (randint a b rng).1 ≤ b := by
  unfold randint
  have : (draw rng).1 % (b + 1 - a) < b + 1 - a := Nat.mod_lt _ (by omega)
  constructor
  · simp
  · simp only
    omega

/-- The chest phases decomposed: phase-1 items (1–4 of them, tiers S/A)
followed by phase-2 items (0–4 of them, tiers F–B). -/
theorem chestPhases_decomp (tier_weights : List (String × Nat)) (rng : Rng) :
    ∃ high low : List Gear,
      (chestPhases tier_weights rng).1 = high ++ low ∧
      1 ≤ high.length ∧ high.length ≤ 4 ∧ low.length ≤ 4 ∧
      (∀ it ∈ high, it.tier = "S" ∨ it.tier = "A") ∧
      (∀ it ∈ low, it.tier ∈ ["F", "E", "D", "C", "B"]) := by
  have hsplit : (chestPhases tier_weights rng).1 =
      (rollHighPhase tier_weights (randint 1 4 rng).1 (randint 1 4 rng).2).1 ++
      (rollLowPhase tier_weights
        (randint 0 4 (rollHighPhase tier_weights (randint 1 4 rng).1
          (randint 1 4 rng).2).2).1
        (randint 0 4 (rollHighPhase tier_weights (randint 1 4 rng).1
          (randint 1 4 rng).2).2).2).1 := rfl
  refine ⟨_, _, hsplit, ?_, ?_, ?_, ?_, ?_⟩
  · rw [(rollHighPhase_spec tier_weights _ _).1]
    exact (randint_bounds 1 4 rng (by omega)).1
  · rw [(rollHighPhase_spec tier_weights _ _).1]
    exact (randint_bounds 1 4 rng (by omega)).2
  · rw [(rollLowPhase_spec tier_weights _ _).1]
    exact (randint_bounds 0 4 _ (by omega)).2
  · exact (rollHighPhase_spec tier_weights _ _).2
  · exact (rollLowPhase_spec tier_weights _ _).2

/-- The combined chest roll never exceeds 8 items. -/
theorem chestPhases_length_le (tier_weights : List (String × Nat)) (rng : Rng) :
    1 ≤ ((chestPhases tier_weights rng).1).length ∧
    ((chestPhases tier_weights rng).1).length ≤ MAX_LOOT_ITEMS := by
  obtain ⟨high, low, heq, h1, h2, h3, -, -⟩ := chestPhases_decomp tier_weights rng
  rw [heq, List.length_append]
  unfold MAX_LOOT_ITEMS
  omega

/-- A chest call of `_roll_loot` is exactly its two phases: the sampling
branch is never taken. -/
theorem chest_roll_eq_phases (tier_weights : List (String × Nat))
    (min_count max_count : Nat) (min_tier max_tier : String) (rng : Rng) :
    roll_loot tier_weights min_count max_count min_tier max_tier true rng =
      chestPhases tier_weights rng := by
  show (if MAX_LOOT_ITEMS < ((chestPhases tier_weights rng).1).length then
      randSample (chestPhases tier_weights rng).1 MAX_LOOT_ITEMS
        (chestPhases tier_weights rng).2
    else ((chestPhases tier_weights rng).1, (chestPhases tier_weights rng).2)) =
      chestPhases tier_weights rng
  rw [if_neg (by exact Nat.not_lt.2 (chestPhases_length_le tier_weights rng).2)]

/-- C7: `_roll_weighted_tier(min_tier, max_tier)` deterministically returns
`"F"` (with the rng untouched) whenever the inclusive tier sub-range
yields no candidate present in the weight table, or the candidates'
weights sum to zero.  The witness instantiates it at `min_tier = "B"`,
`max_tier = "S"` under a weight table where S, A and B all have weight
zero. -/
theorem claim_C7_weighted_tier_fallback (tier_weights : List (String × Nat))
    (min_tier max_tier : String) (rng : Rng)
    (h : tierChoices tier_weights min_tier max_tier = [] ∨
      (tierChoiceWeights tier_weights min_tier max_tier).sum = 0) :
    roll_weighted_tier tier_weights min_tier max_tier rng = ("F", rng) := by
  simp only [roll_weighted_tier]
  rw [if_pos h]

theorem claim_C7_weighted_tier_fallback_witness :
    (tierChoices [("S", 0), ("A", 0), ("B", 0), ("C", 25), ("D", 25), ("E", 20), ("F", 7)]
        "B" "S" = [] ∨
      (tierChoiceWeights
        [("S", 0), ("A", 0), ("B", 0), ("C", 25), ("D", 25), ("E", 20), ("F", 7)]
        "B" "S").sum = 0) ∧
    roll_weighted_tier
      [("S", 0), ("A", 0), ("B", 0), ("C", 25), ("D", 25), ("E", 20), ("F", 7)]
      "B" "S" [42] = ("F", [42]) :=
  ⟨by decide, claim_C7_weighted_tier_fallback _ "B" "S" [42] (by decide)⟩

/-- C9: in every chest roll, phase 1 draws at most 4 items and phase 2 at
most 4, so the combined list never exceeds `MAX_LOOT_ITEMS = 8`: the
subsample-truncation branch of `_roll_loot` is unreachable, and the chest
call returns exactly the two concatenated phases with no item discarded. -/
theorem claim_C9_chest_truncation_unreachable (tier_weights : List (String × Nat))
    (min_count max_count : Nat) (min_tier max_tier : String) (rng : Rng) :
    ((chestPhases tier_weights rng).1).length ≤ MAX_LOOT_ITEMS ∧
    roll_loot tier_weights min_count max_count min_tier max_tier true rng =
      chestPhases tier_weights rng :=
  ⟨(chestPhases_length_le tier_weights rng).2,
    chest_roll_eq_phases tier_weights min_count max_count min_tier max_tier rng⟩

/-- C5: every chest loot roll is phase 1 (1–4 items, each of tier S or A,
S exactly when the percent draw is below 20) followed by phase 2 (0–4
items, each from the weighted roll restricted to F–B, hence of tier F, E,
D, C or B); the combined list has between 1 and 8 items (so the
subsampling conditional is vacuous and nothing is discarded). -/
theorem claim_C5_chest_loot_roll (tier_weights : List (String × Nat)) (rng : Rng) :
    ∃ high low : List Gear,
      (lootChest_generate_loot tier_weights rng).1 = high ++ low ∧
      1 ≤ high.length ∧ high.length ≤ 4 ∧ low.length ≤ 4 ∧
      (∀ it ∈ high, it.tier = "S" ∨ it.tier = "A") ∧
      (∀ it ∈ low, it.tier ∈ ["F", "E", "D", "C", "B"]) ∧
      1 ≤ ((lootChest_generate_loot tier_weights rng).1).length ∧
      ((lootChest_generate_loot tier_weights rng).1).length ≤ MAX_LOOT_ITEMS := by
  have he : lootChest_generate_loot tier_weights rng = chestPhases tier_weights rng :=
    chest_roll_eq_phases tier_weights MIN_LOOT_ITEMS MAX_LOOT_ITEMS "B" "S" rng
  rw [lootChest_generate_loot] at he ⊢
  rw [he]
  obtain ⟨high, low, heq, h1, h2, h3, h4, h5⟩ := chestPhases_decomp tier_weights rng
  exact ⟨high, low, heq, h1, h2, h3, h4, h5,
    (chestPhases_length_le tier_weights rng).1, (chestPhases_length_le tier_weights rng).2⟩

-- --- GRID EVOLUTION FRAMEWORK ---

/-- The pipeline's grids are 8 × 15 rectangles. -/
def GridOK (g : Grid) : Prop := GridRect g GRID_ROWS GRID_COLUMNS

/-- A cell strictly inside the permanent outer boundary ring. -/
def interiorCell (r c : Int) : Prop :=
  1 ≤ r ∧ r < (GRID_ROWS : Int) - 1 ∧ 1 ≤ c ∧ c < (GRID_COLUMNS : Int) - 1

/-- `g` evolves into `g'` through writes allowed by `W`: every cell is
unchanged or its old/new values satisfy `W`. -/
def GridEvolve (W : Int → Int → Cell → Cell → Prop) (g g' : Grid) : Prop :=
  ∀ r c, getCell g' r c = getCell g r c ∨
    W r c (getCell g r c) (getCell g' r c)

/-- `W` admits chaining of two successive writes at one cell. -/
def WTrans (W : Int → Int → Cell → Cell → Prop) : Prop :=
  ∀ r c a b d, W r c a b → W r c b d → W r c a d

theorem gridEvolve_refl (W : Int → Int → Cell → Cell → Prop) (g : Grid) :
    GridEvolve W g g := fun _ _ => Or.inl rfl

theorem gridEvolve_trans {W : Int → Int → Cell → Cell → Prop} (hW : WTrans W)
    {g1 g2 g3 : Grid} (h12 : GridEvolve W g1 g2) (h23 : GridEvolve W g2 g3) :
    GridEvolve W g1 g3 := by
  intro r c
  rcases h23 r c with h | h
  · rw [h]
    exact h12 r c
  · rcases h12 r c with h' | h'
    · rw [h'] at h
      exact Or.inr h
    · exact Or.inr (hW r c _ _ _ h' h)

theorem gridEvolve_mono {W W' : Int → Int → Cell → Cell → Prop}
    (h : ∀ r c a b, W r c a b → W' r c a b) {g g' : Grid}
    (he : GridEvolve W g g') : GridEvolve W' g g' := by
  intro r c
  rcases he r c with h' | h'
  · exact Or.inl h'
  · exact Or.inr (h r c _ _ h')

theorem list_set_getElem_self {α : Type} (l : List α) (i : Nat) (h : i < l.length) :
    l.set i l[i] = l := by
  apply List.ext_getElem
  · simp
  · intro n h1 h2
    by_cases hn : n = i
    · subst hn
      simp [List.getElem_set_self]
    · simp [List.getElem_set_ne (Ne.symm hn)]

theorem getCell_setCell_cases (g : Grid) (r c : Int) (v : Cell) :
    getCell (setCell g r c v) r c = v ∨ getCell (setCell g r c v) r c = getCell g r c := by
  by_cases hw : 0 ≤ r ∧ 0 ≤ c
  · by_cases hr : r.toNat < g.length
    · by_cases hc : c.toNat < (g.getD r.toNat []).length
      · exact Or.inl (getCell_setCell_self hw.1 hw.2 hr hc)
      · right
        have hgd : g.getD r.toNat [] = g[r.toNat] := by
          simp [List.getD_eq_getElem?_getD, List.getElem?_eq_getElem hr]
        have hseteq : setCell g r c v = g := by
          unfold setCell
          rw [if_pos hw, List.set_eq_of_length_le (l := g.getD r.toNat []) (by omega), hgd]
          exact list_set_getElem_self g r.toNat hr
        rw [hseteq]
    · right
      unfold setCell
      rw [if_pos hw, List.set_eq_of_length_le (by omega)]
  · right
    unfold setCell
    rw [if_neg hw]

theorem gridEvolve_setCell {W : Int → Int → Cell → Cell → Prop} {g : Grid}
    {r c : Int} {v : Cell} (hW : W r c (getCell g r c) v) :
    GridEvolve W g (setCell g r c v) := by
  intro r' c'
  by_cases h : r' = r ∧ c' = c
  · rcases h with ⟨rfl, rfl⟩
    rcases getCell_setCell_cases g r' c' v with h' | h'
    · rw [h']
      exact Or.inr hW
    · exact Or.inl h'
  · left
    apply getCell_setCell_ne
    rcases not_and_or.1 h with h' | h'
    · exact Or.inl h'
    · exact Or.inr h'

/-- Folding grid-writing steps, each of which is a `W`-evolution, yields a
`W`-evolution. -/
theorem gridEvolve_foldl {σ ι : Type} (gr : σ → Grid)
    {W : Int → Int → Cell → Cell → Prop} (hW : WTrans W) (f : σ → ι → σ) :
    ∀ (xs : List ι) (s : σ),
      (∀ s x, x ∈ xs → GridEvolve W (gr s) (gr (f s x))) →
      GridEvolve W (gr s) (gr (xs.foldl f s))
  | [], s, _ => gridEvolve_refl W _
  | x :: xs, s, hstep => by
    simp only [List.foldl_cons]
    exact gridEvolve_trans hW (hstep s x (by simp))
      (gridEvolve_foldl gr hW f xs (f s x)
        (fun s' y hy => hstep s' y (by simp [hy])))

theorem gridOK_box : GridOK (generate_initial_box_dungeon GRID_ROWS GRID_COLUMNS) := by
  unfold generate_initial_box_dungeon
  apply foldl_preserve (fun g => GridOK g)
  · refine gridRect_setCell (gridRect_setCell (gridRect_setCell (gridRect_setCell ?_ _ _ _)
      _ _ _) _ _ _) _ _ _
    constructor
    · simp
    · intro row hrow
      rw [List.eq_of_mem_replicate hrow]
      simp
  · intro g rc _ hg
    simp only []
    split
    · exact gridRect_setCell hg _ _ _
    · split
      · exact gridRect_setCell hg _ _ _
      · split
        · exact gridRect_setCell hg _ _ _
        · split
          · exact gridRect_setCell hg _ _ _
          · exact hg

theorem gridOK_rows {g : Grid} (hg : GridOK g) : (g.length : Int) = (GRID_ROWS : Int) := by
  exact_mod_cast congrArg Nat.cast hg.1

theorem gridOK_cols {g : Grid} (hg : GridOK g) :
    ((g.getD 0 []).length : Int) = (GRID_COLUMNS : Int) := by
  have h8 : 0 < g.length := by rw [hg.1]; decide
  have : g.getD 0 [] = g[0] := by
    simp [List.getD_eq_getElem?_getD, List.getElem?_eq_getElem h8]
  rw [this]
  exact_mod_cast congrArg Nat.cast (hg.2 _ (List.getElem_mem h8))

/-- Row lengths of a well-formed grid. -/
theorem gridOK_row_len {g : Grid} (hg : GridOK g) {n : Nat} (hn : n < g.length) :
    (g.getD n []).length = GRID_COLUMNS := by
  have : g.getD n [] = g[n] := by
    simp [List.getD_eq_getElem?_getD, List.getElem?_eq_getElem hn]
  rw [this]
  exact hg.2 _ (List.getElem_mem hn)

/-- Writing at an in-bounds cell of a well-formed grid lands. -/
theorem getCell_setCell_self_ok {g : Grid} (hg : GridOK g) {r c : Int} {v : Cell}
    (hr : 0 ≤ r ∧ r < (GRID_ROWS : Int)) (hc : 0 ≤ c ∧ c < (GRID_COLUMNS : Int)) :
    getCell (setCell g r c v) r c = v := by
  have hrn : r.toNat < g.length := by
    rw [hg.1]
    unfold GRID_ROWS ROOM_HEIGHT_PIXELS TILE_SIZE_HEIGHT at hr ⊢
    omega
  apply getCell_setCell_self hr.1 hc.1 hrn
  rw [gridOK_row_len hg hrn]
  unfold GRID_COLUMNS ROOM_WIDTH_PIXELS TILE_SIZE_WIDTH at hc ⊢
  omega

theorem gridOK_init_inner {g : Grid} (hg : GridOK g) : GridOK (init_inner_grid g) := by
  unfold init_inner_grid
  apply foldl_preserve (fun g' => GridOK g') _ _ _ hg
  intro s rc _ hs
  exact gridRect_setCell hs _ _ _

theorem init_inner_grid_evolve {g : Grid} (hg : GridOK g) :
    GridEvolve (fun r c _ new => interiorCell r c ∧ new = .num MAZE_WALL) g
      (init_inner_grid g) := by
  unfold init_inner_grid
  simp only []
  refine gridEvolve_foldl
    (W := fun r c _ new => interiorCell r c ∧ new = .num MAZE_WALL)
    (fun x : Grid => x)
    (fun r c a b d h1 h2 => ⟨h1.1, h2.2⟩)
    (fun (g' : Grid) (rc : Int × Int) => setCell g' rc.1 rc.2 (.num MAZE_WALL)) _ g ?_
  intro s rc hrc
  apply gridEvolve_setCell
  have hmem := mem_prodRange.1 hrc
  have h1 := mem_intRange.1 hmem.1
  have h2 := mem_intRange.1 hmem.2
  rw [gridOK_rows hg] at h1
  rw [gridOK_cols hg] at h2
  exact ⟨⟨h1.1, h1.2, h2.1, h2.2⟩, rfl⟩

theorem randChoice_mem {α : Type} (d : α) {xs : List α} (h : xs ≠ []) (rng : Rng) :
    (randChoice d xs rng).1 ∈ xs := by
  unfold randChoice
  simp only
  have hlen : 0 < xs.length := List.length_pos.2 h
  have hlt : (draw rng).1 % xs.length < xs.length := Nat.mod_lt _ hlen
  rw [List.getD_eq_getElem?_getD, List.getElem?_eq_getElem hlt]
  exact List.getElem_mem hlt

theorem randintI_bounds (a b : Int) (rng : Rng) (h : a ≤ b) :
    a ≤ (randintI a b rng).1 ∧ (randintI a b rng).1 ≤ b := by
  unfold randintI
  have hpos : 0 < (b + 1 - a).toNat := by omega
  have hlt : (draw rng).1 % (b + 1 - a).toNat < (b + 1 - a).toNat := Nat.mod_lt _ hpos
  constructor
  · simp only
    omega
  · simp only
    omega

/-- A cell inside the `width × height` rectangle anchored at
`(start_r, start_c)` (wall ring included). -/
def inRect (start_r start_c width height r c : Int) : Prop :=
  start_r ≤ r ∧ r ≤ start_r + height - 1 ∧ start_c ≤ c ∧ c ≤ start_c + width - 1

def isStrCell (x : Cell) : Prop := ∃ s, x = .str s

/-- Writes of the room carvers: string tiles inside the room rectangle. -/
def WCarve (start_r start_c width height : Int) (r c : Int) (_ new : Cell) : Prop :=
  inRect start_r start_c width height r c ∧ isStrCell new

theorem wTrans_WCarve (start_r start_c width height : Int) :
    WTrans (WCarve start_r start_c width height) :=
  fun _ _ _ _ _ h1 h2 => ⟨h1.1, h2.2⟩

theorem exitLoop_evolve (exits_required : Nat) :
    ∀ (g : Grid) (tiles : List (Int × Int)) (placed : Nat),
      GridEvolve (fun r c _ new => (r, c) ∈ tiles ∧ new = .str TILE_OPEN_SPACE) g
        (exitLoop exits_required g tiles placed)
  | g, [], placed => gridEvolve_refl _ _
  | g, rc :: rest, placed => by
    rw [exitLoop]
    split
    · exact gridEvolve_refl _ _
    · have hstep : GridEvolve
          (fun r c (_ new : Cell) => (r, c) ∈ rc :: rest ∧ new = .str TILE_OPEN_SPACE) g
          (setCell g rc.1 rc.2 (.str TILE_OPEN_SPACE)) :=
        gridEvolve_setCell ⟨by simp, rfl⟩
      have hrest := exitLoop_evolve exits_required
        (setCell g rc.1 rc.2 (.str TILE_OPEN_SPACE)) rest (placed + 1)
      exact gridEvolve_trans (fun _ _ _ _ _ h1 h2 => ⟨h1.1, h2.2⟩) hstep
        (gridEvolve_mono (fun r c a b h => ⟨List.mem_cons_of_mem _ h.1, h.2⟩) hrest)

theorem gridOK_exitLoop (exits_required : Nat) :
    ∀ (g : Grid) (tiles : List (Int × Int)) (placed : Nat), GridOK g →
      GridOK (exitLoop exits_required g tiles placed)
  | g, [], placed, hg => hg
  | g, rc :: rest, placed, hg => by
    rw [exitLoop]
    split
    · exact hg
    · exact gridOK_exitLoop exits_required _ rest (placed + 1) (gridRect_setCell hg _ _ _)

/-- The container kinds written by `place_containers_in_room`. -/
def isContainerCell (x : Cell) : Prop :=
  x = .str TILE_CHEST ∨ x = .str TILE_BARREL ∨ x = .str TILE_CRATE

/-- Writes of `place_containers_in_room`: a container tile over a cell that
was `OpenFloor`, at one of the scanned open tiles. -/
def WCont (tiles : List (Int × Int)) (r c : Int) (old new : Cell) : Prop :=
  (r, c) ∈ tiles ∧ old = .str TILE_OPEN_SPACE ∧ isContainerCell new

theorem wTrans_WCont (tiles : List (Int × Int)) : WTrans (WCont tiles) := by
  intro r c a b d h1 h2
  rcases h2.2.1 with h
  rcases h1.2.2 with h' | h' | h' <;> rw [h'] at h <;> simp [TILE_CHEST, TILE_BARREL,
    TILE_CRATE, TILE_OPEN_SPACE] at h

theorem containerLoop_evolve (kind tile : String)
    (gen : List (String × Nat) → Rng → List Gear × Rng)
    (tier_weights : List (String × Nat)) (open_tiles : List (Int × Int))
    (hnd : open_tiles.Nodup)
    (htile : Cell.str tile = .str TILE_CHEST ∨ Cell.str tile = .str TILE_BARREL ∨
      Cell.str tile = .str TILE_CRATE) :
    ∀ (n : Nat) (g : Grid) (loot : List LootEntry) (rng : Rng) (used : Nat),
      (∀ j, used ≤ j → (hj : j < open_tiles.length) →
        getCell g (open_tiles.get ⟨j, hj⟩).1 (open_tiles.get ⟨j, hj⟩).2 =
          .str TILE_OPEN_SPACE) →
      GridEvolve (WCont open_tiles) g
        (containerLoop kind tile gen tier_weights open_tiles n g loot rng used).1
  | 0, g, loot, rng, used, hopen => gridEvolve_refl _ _
  | n + 1, g, loot, rng, used, hopen => by
    rw [containerLoop]
    split
    case isTrue hlt =>
      have hmem : open_tiles.getD used (0, 0) = open_tiles.get ⟨used, hlt⟩ := by
        simp [List.getD_eq_getElem?_getD, List.getElem?_eq_getElem hlt]
      have hstep : GridEvolve (WCont open_tiles) g
          (setCell g (open_tiles.getD used (0, 0)).1 (open_tiles.getD used (0, 0)).2
            (.str tile)) := by
        apply gridEvolve_setCell
        refine ⟨by rw [hmem]; exact List.get_mem open_tiles used hlt, ?_, htile⟩
        rw [hmem]
        exact hopen used le_rfl hlt
      refine gridEvolve_trans (wTrans_WCont open_tiles) hstep ?_
      apply containerLoop_evolve kind tile gen tier_weights open_tiles hnd htile n
      intro j hj hjlt
      rw [getCell_setCell_ne, hopen j (by omega) hjlt]
      rw [hmem]
      have hne : open_tiles.get ⟨j, hjlt⟩ ≠ open_tiles.get ⟨used, hlt⟩ := by
        intro hcontra
        have := List.Nodup.get_inj_iff hnd |>.1 hcontra
        simp at this
        omega
      by_cases h1 : (open_tiles.get ⟨j, hjlt⟩).1 = (open_tiles.get ⟨used, hlt⟩).1
      · right
        intro h2
        exact hne (Prod.ext h1 h2)
      · exact Or.inl h1
    case isFalse => exact gridEvolve_refl _ _

theorem roomWallTiles_subset_rect {start_r start_c width height : Int} {rc : Int × Int}
    (hw : 1 ≤ width) (hh : 1 ≤ height)
    (h : rc ∈ roomWallTiles start_r start_c width height) :
    inRect start_r start_c width height rc.1 rc.2 := by
  unfold roomWallTiles at h
  rcases List.mem_append.1 h with h | h <;>
    · rcases List.mem_flatMap.1 h with ⟨v, hv, hmem⟩
      have hb := mem_intRange.1 hv
      simp only [List.mem_cons, List.not_mem_nil, or_false] at hmem
      rcases hmem with rfl | rfl <;>
        exact ⟨by omega, by omega, by omega, by omega⟩

/-- The perimeter-carving pass stays inside the rectangle and writes
string tiles. -/
theorem carvePerimeter_evolve (start_r start_c width height : Int) (g : Grid) :
    GridEvolve (WCarve start_r start_c width height) g
      ((prodRange (intRange start_r (start_r + height))
        (intRange start_c (start_c + width))).foldl
        (carvePerimeterCell start_r start_c (start_r + height - 1)
          (start_c + width - 1)) g) := by
  refine gridEvolve_foldl (fun x : Grid => x) (wTrans_WCarve _ _ _ _) _ _ g ?_
  intro s rc hrc
  have hmem := mem_prodRange.1 hrc
  have h1 := mem_intRange.1 hmem.1
  have h2 := mem_intRange.1 hmem.2
  have hin : inRect start_r start_c width height rc.1 rc.2 :=
    ⟨by omega, by omega, by omega, by omega⟩
  unfold carvePerimeterCell
  simp only []
  split
  · split
    · exact gridEvolve_setCell ⟨hin, _, rfl⟩
    · split
      · exact gridEvolve_setCell ⟨hin, _, rfl⟩
      · split
        · exact gridEvolve_setCell ⟨hin, _, rfl⟩
        · exact gridEvolve_setCell ⟨hin, _, rfl⟩
  · split
    · split
      · exact gridEvolve_setCell ⟨hin, _, rfl⟩
      · split
        · exact gridEvolve_setCell ⟨hin, _, rfl⟩
        · split
          · exact gridEvolve_setCell ⟨hin, _, rfl⟩
          · exact gridEvolve_setCell ⟨hin, _, rfl⟩
    · exact gridEvolve_setCell ⟨hin, _, rfl⟩

theorem gridOK_carvePerimeter (start_r start_c width height : Int) {g : Grid}
    (hg : GridOK g) :
    GridOK ((prodRange (intRange start_r (start_r + height))
      (intRange start_c (start_c + width))).foldl
      (carvePerimeterCell start_r start_c (start_r + height - 1)
        (start_c + width - 1)) g) := by
  apply foldl_preserve (fun g' => GridOK g') _ _ _ hg
  intro s rc _ hs
  unfold carvePerimeterCell
  simp only []
  split
  · split
    · exact gridRect_setCell hs _ _ _
    · split
      · exact gridRect_setCell hs _ _ _
      · split
        · exact gridRect_setCell hs _ _ _
        · exact gridRect_setCell hs _ _ _
  · split
    · split
      · exact gridRect_setCell hs _ _ _
      · split
        · exact gridRect_setCell hs _ _ _
        · split
          · exact gridRect_setCell hs _ _ _
          · exact gridRect_setCell hs _ _ _
    · exact gridRect_setCell hs _ _ _

/-- The open tiles scanned by `place_containers_in_room`: strictly inside
the rectangle and currently `OpenFloor`. -/
theorem open_tiles_spec {g : Grid} {start_r start_c width height : Int} {rc : Int × Int}
    (h : rc ∈ (prodRange (intRange (start_r + 1) (start_r + height - 1))
      (intRange (start_c + 1) (start_c + width - 1))).filter
      (fun rc => getCell g rc.1 rc.2 = .str TILE_OPEN_SPACE)) :
    (start_r + 1 ≤ rc.1 ∧ rc.1 ≤ start_r + height - 2 ∧
      start_c + 1 ≤ rc.2 ∧ rc.2 ≤ start_c + width - 2) ∧
    getCell g rc.1 rc.2 = .str TILE_OPEN_SPACE := by
  have hmem := List.mem_of_mem_filter h
  have hprop := List.of_mem_filter h
  have h1 := mem_intRange.1 (mem_prodRange.1 hmem).1
  have h2 := mem_intRange.1 (mem_prodRange.1 hmem).2
  exact ⟨⟨by omega, by omega, by omega, by omega⟩, by simpa using hprop⟩

theorem chestPlacePhase_evolve (g : Grid) (open_tiles : List (Int × Int))
    (room_type : String) (tier_weights : List (String × Nat))
    (loot : List LootEntry) (rng : Rng)
    (hopen : ∀ j, 0 ≤ j → (hj : j < open_tiles.length) →
      getCell g (open_tiles.get ⟨j, hj⟩).1 (open_tiles.get ⟨j, hj⟩).2 =
        .str TILE_OPEN_SPACE) :
    GridEvolve (WCont open_tiles) g
      (chestPlacePhase g open_tiles room_type tier_weights loot rng).1 := by
  unfold chestPlacePhase
  split
  · simp only []
    split
    · split
      case isTrue hlen =>
        have hmem : open_tiles.getD 0 (0, 0) = open_tiles.get ⟨0, hlen⟩ := by
          simp [List.getD_eq_getElem?_getD, List.getElem?_eq_getElem hlen]
        apply gridEvolve_setCell
        refine ⟨by rw [hmem]; exact List.get_mem open_tiles 0 hlen, ?_, Or.inl rfl⟩
        rw [hmem]
        exact hopen 0 le_rfl hlen
      case isFalse => exact gridEvolve_refl _ _
    · exact gridEvolve_refl _ _
  · exact gridEvolve_refl _ _

theorem chestPlacePhase_open_after (g : Grid) (open_tiles : List (Int × Int))
    (room_type : String) (tier_weights : List (String × Nat))
    (loot : List LootEntry) (rng : Rng) (hnd : open_tiles.Nodup)
    (hopen : ∀ j, 0 ≤ j → (hj : j < open_tiles.length) →
      getCell g (open_tiles.get ⟨j, hj⟩).1 (open_tiles.get ⟨j, hj⟩).2 =
        .str TILE_OPEN_SPACE) :
    ∀ j, (chestPlacePhase g open_tiles room_type tier_weights loot rng).2.2.2 ≤ j →
      (hj : j < open_tiles.length) →
      getCell (chestPlacePhase g open_tiles room_type tier_weights loot rng).1
        (open_tiles.get ⟨j, hj⟩).1 (open_tiles.get ⟨j, hj⟩).2 =
        .str TILE_OPEN_SPACE := by
  unfold chestPlacePhase
  split
  · simp only []
    split
    · split
      case isTrue hlen =>
        intro j hj hjlt
        simp only [] at hj
        have hmem : open_tiles.getD 0 (0, 0) = open_tiles.get ⟨0, hlen⟩ := by
          simp [List.getD_eq_getElem?_getD, List.getElem?_eq_getElem hlen]
        rw [getCell_setCell_ne, hopen j (by omega) hjlt]
        rw [hmem]
        have hne : open_tiles.get ⟨j, hjlt⟩ ≠ open_tiles.get ⟨0, hlen⟩ := by
          intro hcontra
          have := List.Nodup.get_inj_iff hnd |>.1 hcontra
          simp at this
          omega
        by_cases h1 : (open_tiles.get ⟨j, hjlt⟩).1 = (open_tiles.get ⟨0, hlen⟩).1
        · exact Or.inr (fun h2 => hne (Prod.ext h1 h2))
        · exact Or.inl h1
      case isFalse => exact fun j hj hjlt => hopen j (by omega) hjlt
    · exact fun j hj hjlt => hopen j (by omega) hjlt
  · exact fun j hj hjlt => hopen j (by omega) hjlt

theorem containerLoop_open_after (kind tile : String)
    (gen : List (String × Nat) → Rng → List Gear × Rng)
    (tier_weights : List (String × Nat)) (open_tiles : List (Int × Int))
    (hnd : open_tiles.Nodup) :
    ∀ (n : Nat) (g : Grid) (loot : List LootEntry) (rng : Rng) (used : Nat),
      (∀ j, used ≤ j → (hj : j < open_tiles.length) →
        getCell g (open_tiles.get ⟨j, hj⟩).1 (open_tiles.get ⟨j, hj⟩).2 =
          .str TILE_OPEN_SPACE) →
      used ≤ (containerLoop kind tile gen tier_weights open_tiles n g loot rng used).2.2.2 ∧
      ∀ j, (containerLoop kind tile gen tier_weights open_tiles n g loot rng used).2.2.2 ≤ j →
        (hj : j < open_tiles.length) →
        getCell (containerLoop kind tile gen tier_weights open_tiles n g loot rng used).1
          (open_tiles.get ⟨j, hj⟩).1 (open_tiles.get ⟨j, hj⟩).2 =
          .str TILE_OPEN_SPACE
  | 0, g, loot, rng, used, hopen => ⟨le_rfl, fun j hj hjlt => hopen j hj hjlt⟩
  | n + 1, g, loot, rng, used, hopen => by
    rw [containerLoop]
    split
    case isTrue hlt =>
      have hmem : open_tiles.getD used (0, 0) = open_tiles.get ⟨used, hlt⟩ := by
        simp [List.getD_eq_getElem?_getD, List.getElem?_eq_getElem hlt]
      have hopen2 : ∀ j, used + 1 ≤ j → (hj : j < open_tiles.length) →
          getCell (setCell g (open_tiles.getD used (0, 0)).1
            (open_tiles.getD used (0, 0)).2 (.str tile))
            (open_tiles.get ⟨j, hj⟩).1 (open_tiles.get ⟨j, hj⟩).2 =
            .str TILE_OPEN_SPACE := by
        intro j hj hjlt
        rw [getCell_setCell_ne, hopen j (by omega) hjlt]
        rw [hmem]
        have hne : open_tiles.get ⟨j, hjlt⟩ ≠ open_tiles.get ⟨used, hlt⟩ := by
          intro hcontra
          have := List.Nodup.get_inj_iff hnd |>.1 hcontra
          simp at this
          omega
        by_cases h1 : (open_tiles.get ⟨j, hjlt⟩).1 = (open_tiles.get ⟨used, hlt⟩).1
        · exact Or.inr (fun h2 => hne (Prod.ext h1 h2))
        · exact Or.inl h1
      have ih := containerLoop_open_after kind tile gen tier_weights open_tiles hnd n
        (setCell g (open_tiles.getD used (0, 0)).1 (open_tiles.getD used (0, 0)).2
          (.str tile))
        (loot ++ [⟨kind, (open_tiles.getD used (0, 0)).1,
          (open_tiles.getD used (0, 0)).2,
          (gen tier_weights rng).1⟩]) (gen tier_weights rng).2 (used + 1) hopen2
      exact ⟨le_trans (Nat.le_succ used) ih.1, ih.2⟩
    case isFalse => exact ⟨le_rfl, fun j hj hjlt => hopen j hj hjlt⟩

theorem place_containers_evolve (g : Grid) (start_r start_c width height : Int)
    (room_type : String) (tier_weights : List (String × Nat))
    (loot : List LootEntry) (rng : Rng) :
    GridEvolve (fun r c old new =>
        (start_r + 1 ≤ r ∧ r ≤ start_r + height - 2 ∧
          start_c + 1 ≤ c ∧ c ≤ start_c + width - 2) ∧
        old = .str TILE_OPEN_SPACE ∧ isContainerCell new) g
      (place_containers_in_room g start_r start_c width height room_type
        tier_weights loot rng).1 := by
  unfold place_containers_in_room
  simp only []
  set ot0 := (prodRange (intRange (start_r + 1) (start_r + height - 1))
    (intRange (start_c + 1) (start_c + width - 1))).filter
    (fun rc => getCell g rc.1 rc.2 = .str TILE_OPEN_SPACE) with hot0
  set ot := (shuffle ot0 rng).1 with hot
  have hnd : ot.Nodup :=
    shuffle_nodup ((nodup_prodRange nodup_intRange nodup_intRange).filter _)
  have hopen0 : ∀ j, 0 ≤ j → (hj : j < ot.length) →
      getCell g (ot.get ⟨j, hj⟩).1 (ot.get ⟨j, hj⟩).2 = .str TILE_OPEN_SPACE := by
    intro j _ hj
    have hmem : ot.get ⟨j, hj⟩ ∈ ot0 := shuffle_mem.1 (List.get_mem ot j hj)
    exact (open_tiles_spec hmem).2
  have hWt : WTrans (WCont ot) := wTrans_WCont ot
  set st1 := chestPlacePhase g ot room_type tier_weights loot (shuffle ot0 rng).2
    with hst1
  have he1 : GridEvolve (WCont ot) g st1.1 :=
    chestPlacePhase_evolve g ot room_type tier_weights loot (shuffle ot0 rng).2 hopen0
  have hopen1 : ∀ j, st1.2.2.2 ≤ j → (hj : j < ot.length) →
      getCell st1.1 (ot.get ⟨j, hj⟩).1 (ot.get ⟨j, hj⟩).2 = .str TILE_OPEN_SPACE :=
    chestPlacePhase_open_after g ot room_type tier_weights loot (shuffle ot0 rng).2
      hnd hopen0
  set nb := (randint BARREL_COUNT_MIN
    (if 1 < BARREL_COUNT_MAX then BARREL_COUNT_MAX / 2 else 1) st1.2.2.1).1 with hnb
  set st2 := containerLoop "Barrel" TILE_BARREL lootBarrel_generate_loot tier_weights
    ot nb st1.1 st1.2.1
    (randint BARREL_COUNT_MIN
      (if 1 < BARREL_COUNT_MAX then BARREL_COUNT_MAX / 2 else 1) st1.2.2.1).2
    st1.2.2.2 with hst2
  have he2 : GridEvolve (WCont ot) st1.1 st2.1 :=
    containerLoop_evolve "Barrel" TILE_BARREL lootBarrel_generate_loot tier_weights
      ot hnd (Or.inr (Or.inl rfl)) nb st1.1 st1.2.1
      (randint BARREL_COUNT_MIN
        (if 1 < BARREL_COUNT_MAX then BARREL_COUNT_MAX / 2 else 1) st1.2.2.1).2
      st1.2.2.2 hopen1
  have hopen2 := containerLoop_open_after "Barrel" TILE_BARREL lootBarrel_generate_loot
    tier_weights ot hnd nb st1.1 st1.2.1
    (randint BARREL_COUNT_MIN
      (if 1 < BARREL_COUNT_MAX then BARREL_COUNT_MAX / 2 else 1) st1.2.2.1).2
    st1.2.2.2 hopen1
  set nc := (randint CRATE_COUNT_MIN
    (if 1 < CRATE_COUNT_MAX then CRATE_COUNT_MAX / 2 else 1) st2.2.2.1).1 with hnc
  have he3 : GridEvolve (WCont ot) st2.1
      (containerLoop "Crate" TILE_CRATE lootCrate_generate_loot tier_weights ot nc
        st2.1 st2.2.1
        (randint CRATE_COUNT_MIN
          (if 1 < CRATE_COUNT_MAX then CRATE_COUNT_MAX / 2 else 1) st2.2.2.1).2
        st2.2.2.2).1 :=
    containerLoop_evolve "Crate" TILE_CRATE lootCrate_generate_loot tier_weights
      ot hnd (Or.inr (Or.inr rfl)) nc st2.1 st2.2.1
      (randint CRATE_COUNT_MIN
        (if 1 < CRATE_COUNT_MAX then CRATE_COUNT_MAX / 2 else 1) st2.2.2.1).2
      st2.2.2.2 hopen2.2
  have hall : GridEvolve (WCont ot) g
      (containerLoop "Crate" TILE_CRATE lootCrate_generate_loot tier_weights ot nc
        st2.1 st2.2.1
        (randint CRATE_COUNT_MIN
          (if 1 < CRATE_COUNT_MAX then CRATE_COUNT_MAX / 2 else 1) st2.2.2.1).2
        st2.2.2.2).1 :=
    gridEvolve_trans hWt (gridEvolve_trans hWt he1 he2) he3
  refine gridEvolve_mono ?_ hall
  intro r c a b h
  have hmem : (r, c) ∈ ot0 := shuffle_mem.1 h.1
  have := open_tiles_spec hmem
  exact ⟨this.1, h.2.1, h.2.2⟩

theorem gridOK_containerLoop (kind tile : String)
    (gen : List (String × Nat) → Rng → List Gear × Rng)
    (tier_weights : List (String × Nat)) (open_tiles : List (Int × Int)) :
    ∀ (n : Nat) (g : Grid) (loot : List LootEntry) (rng : Rng) (used : Nat),
      GridOK g →
      GridOK (containerLoop kind tile gen tier_weights open_tiles n g loot rng used).1
  | 0, g, loot, rng, used, hg => hg
  | n + 1, g, loot, rng, used, hg => by
    rw [containerLoop]
    split
    · exact gridOK_containerLoop kind tile gen tier_weights open_tiles n _ _ _ _
        (gridRect_setCell hg _ _ _)
    · exact hg

theorem gridOK_chestPlacePhase (g : Grid) (open_tiles : List (Int × Int))
    (room_type : String) (tier_weights : List (String × Nat))
    (loot : List LootEntry) (rng : Rng) (hg : GridOK g) :
    GridOK (chestPlacePhase g open_tiles room_type tier_weights loot rng).1 := by
  unfold chestPlacePhase
  split
  · simp only []
    split
    · split
      · exact gridRect_setCell hg _ _ _
      · exact hg
    · exact hg
  · exact hg

theorem gridOK_place_containers (g : Grid) (start_r start_c width height : Int)
    (room_type : String) (tier_weights : List (String × Nat))
    (loot : List LootEntry) (rng : Rng) (hg : GridOK g) :
    GridOK (place_containers_in_room g start_r start_c width height room_type
      tier_weights loot rng).1 := by
  unfold place_containers_in_room
  simp only []
  apply gridOK_containerLoop
  apply gridOK_containerLoop
  apply gridOK_chestPlacePhase
  exact hg

/-- The write discipline of the interior-partition loop: hallway tiles
over `OpenFloor` cells, inside the inner rectangle. -/
def WIWall (inner_start_r inner_start_c inner_width inner_height : Int)
    (r c : Int) (old new : Cell) : Prop :=
  (inner_start_r ≤ r ∧ r ≤ inner_start_r + inner_height - 1 ∧
    inner_start_c ≤ c ∧ c ≤ inner_start_c + inner_width - 1) ∧
  old = .str TILE_OPEN_SPACE ∧
  (new = .str TILE_HALLWAY_HORZ ∨ new = .str TILE_HALLWAY_VERT)

theorem wTrans_WIWall (ir ic iw ih : Int) : WTrans (WIWall ir ic iw ih) := by
  intro r c a b d h1 h2
  rcases h1.2.2 with h' | h' <;> rw [h'] at h2 <;>
    · exfalso
      have := h2.2.1
      simp [TILE_HALLWAY_HORZ, TILE_HALLWAY_VERT, TILE_OPEN_SPACE] at this

theorem interiorWallLoop_evolve (ir ic iw ih : Int) (hiw : 1 ≤ iw) (hih : 1 ≤ ih) :
    ∀ (n : Nat) (g : Grid) (rng : Rng),
      GridEvolve (WIWall ir ic iw ih) g (interiorWallLoop ir ic iw ih n g rng).1
  | 0, g, rng => gridEvolve_refl _ _
  | n + 1, g, rng => by
    rcases hch : randChoice true [true, false] rng with ⟨ishor, rng1⟩
    rw [interiorWallLoop, hch]
    rcases ishor with _ | _
    · -- vertical wall
      rcases hri : randintI ic (ic + iw - 1) rng1 with ⟨wc, rng2⟩
      dsimp only
      rw [if_neg (by simp), hri]
      refine gridEvolve_trans (wTrans_WIWall ir ic iw ih) ?_
        (interiorWallLoop_evolve ir ic iw ih hiw hih n _ _)
      refine gridEvolve_foldl (fun x : Grid => x) (wTrans_WIWall ir ic iw ih) _ _ g ?_
      intro s r hr
      have hrb := mem_intRange.1 hr
      split
      case isTrue hopen =>
        have hb : ic ≤ wc ∧ wc ≤ ic + iw - 1 := by
          have := randintI_bounds ic (ic + iw - 1) rng1 (by omega)
          rw [hri] at this
          exact this
        exact gridEvolve_setCell
          ⟨⟨by omega, by omega, by omega, by omega⟩, hopen, Or.inr rfl⟩
      case isFalse => exact gridEvolve_refl _ _
    · -- horizontal wall
      rcases hri : randintI ir (ir + ih - 1) rng1 with ⟨wr, rng2⟩
      dsimp only
      rw [if_pos rfl, hri]
      refine gridEvolve_trans (wTrans_WIWall ir ic iw ih) ?_
        (interiorWallLoop_evolve ir ic iw ih hiw hih n _ _)
      refine gridEvolve_foldl (fun x : Grid => x) (wTrans_WIWall ir ic iw ih) _ _ g ?_
      intro s c hc
      have hcb := mem_intRange.1 hc
      split
      case isTrue hopen =>
        have hb : ir ≤ wr ∧ wr ≤ ir + ih - 1 := by
          have := randintI_bounds ir (ir + ih - 1) rng1 (by omega)
          rw [hri] at this
          exact this
        exact gridEvolve_setCell
          ⟨⟨by omega, by omega, by omega, by omega⟩, hopen, Or.inl rfl⟩
      case isFalse => exact gridEvolve_refl _ _

theorem gridOK_interiorWallLoop (ir ic iw ih : Int) :
    ∀ (n : Nat) (g : Grid) (rng : Rng), GridOK g →
      GridOK (interiorWallLoop ir ic iw ih n g rng).1
  | 0, g, rng, hg => hg
  | n + 1, g, rng, hg => by
    rcases hch : randChoice true [true, false] rng with ⟨ishor, rng1⟩
    rw [interiorWallLoop, hch]
    rcases ishor with _ | _
    · rcases hri : randintI ic (ic + iw - 1) rng1 with ⟨wc, rng2⟩
      dsimp only
      rw [if_neg (by simp), hri]
      apply gridOK_interiorWallLoop
      apply foldl_preserve (fun g' => GridOK g') _ _ _ hg
      intro s r _ hs
      split
      · exact gridRect_setCell hs _ _ _
      · exact hs
    · rcases hri : randintI ir (ir + ih - 1) rng1 with ⟨wr, rng2⟩
      dsimp only
      rw [if_pos rfl, hri]
      apply gridOK_interiorWallLoop
      apply foldl_preserve (fun g' => GridOK g') _ _ _ hg
      intro s c _ hs
      split
      · exact gridRect_setCell hs _ _ _
      · exact hs

theorem isStrCell_container {x : Cell} (h : isContainerCell x) : isStrCell x := by
  rcases h with h | h | h <;> exact ⟨_, h⟩

/-- `gridEvolve_trans` with the intermediate grid explicit. -/
theorem gridEvolve_trans3 {W : Int → Int → Cell → Cell → Prop} (hW : WTrans W)
    (g1 g2 g3 : Grid) (h12 : GridEvolve W g1 g2) (h23 : GridEvolve W g2 g3) :
    GridEvolve W g1 g3 := gridEvolve_trans hW h12 h23

theorem carve_small_room_evolve (g : Grid) (start_r start_c width height : Int)
    (exits_required : Nat) (tier_weights : List (String × Nat))
    (loot : List LootEntry) (rng : Rng) (hw : 1 ≤ width) (hh : 1 ≤ height) :
    GridEvolve (WCarve start_r start_c width height) g
      (carve_small_room g start_r start_c width height exits_required
        tier_weights loot rng).1 := by
  unfold carve_small_room
  simp only []
  have hWt := wTrans_WCarve start_r start_c width height
  refine gridEvolve_trans hWt (carvePerimeter_evolve start_r start_c width height g) ?_
  refine gridEvolve_trans3 hWt _
    (exitLoop exits_required
      ((prodRange (intRange start_r (start_r + height))
        (intRange start_c (start_c + width))).foldl
        (carvePerimeterCell start_r start_c (start_r + height - 1)
          (start_c + width - 1)) g)
      (shuffle (roomWallTiles start_r start_c width height) rng).1 0) _ ?_ ?_
  · refine gridEvolve_mono ?_ (exitLoop_evolve exits_required _
      (shuffle (roomWallTiles start_r start_c width height) rng).1 0)
    intro r c a b h
    refine ⟨roomWallTiles_subset_rect hw hh (shuffle_mem.1 h.1), _, h.2⟩
  · refine gridEvolve_mono ?_ (place_containers_evolve _ start_r start_c width height
      "Small" tier_weights loot (shuffle (roomWallTiles start_r start_c width height)
        rng).2)
    intro r c a b h
    exact ⟨⟨by omega, by omega, by omega, by omega⟩, isStrCell_container h.2.2⟩

theorem gridOK_carve_small (g : Grid) (start_r start_c width height : Int)
    (exits_required : Nat) (tier_weights : List (String × Nat))
    (loot : List LootEntry) (rng : Rng) (hg : GridOK g) :
    GridOK (carve_small_room g start_r start_c width height exits_required
      tier_weights loot rng).1 := by
  unfold carve_small_room
  simp only []
  apply gridOK_place_containers
  apply gridOK_exitLoop
  exact gridOK_carvePerimeter start_r start_c width height hg

theorem carve_medium_room_evolve (g : Grid) (start_r start_c width height : Int)
    (exits_required : Nat) (tier_weights : List (String × Nat))
    (loot : List LootEntry) (rng : Rng) (hw : 1 ≤ width) (hh : 1 ≤ height) :
    GridEvolve (WCarve start_r start_c width height) g
      (carve_medium_room g start_r start_c width height exits_required
        tier_weights loot rng).1 := by
  have hWt := wTrans_WCarve start_r start_c width height
  rcases h1 : carve_small_room g start_r start_c width height exits_required
    tier_weights loot rng with ⟨g1, loot1, rng1⟩
  have e1 : GridEvolve (WCarve start_r start_c width height) g g1 := by
    have := carve_small_room_evolve g start_r start_c width height exits_required
      tier_weights loot rng hw hh
    rw [h1] at this
    exact this
  rw [carve_medium_room, h1]
  dsimp only
  split
  case isTrue hcond =>
    rcases h2 : randint 1 3 rng1 with ⟨nw, rng2⟩
    dsimp only
    rcases h3 : interiorWallLoop (start_r + 1) (start_c + 1) (width - 2) (height - 2)
      nw g1 rng2 with ⟨g2, rng3⟩
    dsimp only
    have e2 : GridEvolve (WCarve start_r start_c width height) g1 g2 := by
      have := interiorWallLoop_evolve (start_r + 1) (start_c + 1) (width - 2)
        (height - 2) (by omega) (by omega) nw g1 rng2
      rw [h3] at this
      refine gridEvolve_mono ?_ this
      intro r c a b h
      unfold WIWall at h
      obtain ⟨⟨hb1, hb2, hb3, hb4⟩, hold, hnew⟩ := h
      exact ⟨⟨by omega, by omega, by omega, by omega⟩,
        by rcases hnew with h' | h' <;> exact ⟨_, h'⟩⟩
    have e3 : GridEvolve (WCarve start_r start_c width height) g2
        (place_containers_in_room g2 start_r start_c width height "Medium"
          tier_weights loot1 rng3).1 := by
      refine gridEvolve_mono ?_ (place_containers_evolve g2 start_r start_c width
        height "Medium" tier_weights loot1 rng3)
      intro r c a b h
      exact ⟨⟨by omega, by omega, by omega, by omega⟩, isStrCell_container h.2.2⟩
    exact gridEvolve_trans hWt (gridEvolve_trans hWt e1 e2) e3
  case isFalse =>
    have e3 : GridEvolve (WCarve start_r start_c width height) g1
        (place_containers_in_room g1 start_r start_c width height "Medium"
          tier_weights loot1 rng1).1 := by
      refine gridEvolve_mono ?_ (place_containers_evolve g1 start_r start_c width
        height "Medium" tier_weights loot1 rng1)
      intro r c a b h
      exact ⟨⟨by omega, by omega, by omega, by omega⟩, isStrCell_container h.2.2⟩
    exact gridEvolve_trans hWt e1 e3

theorem subRoomPhase_evolve (g : Grid) (start_r start_c width height : Int)
    (tier_weights : List (String × Nat)) (loot : List LootEntry) (rng : Rng) :
    GridEvolve (WCarve start_r start_c width height) g
      (subRoomPhase g start_r start_c width height tier_weights loot rng).1 := by
  unfold subRoomPhase
  rcases hcd : randChoice (0, 0) ROOM_DIMENSIONS_SMALL rng with ⟨subdim, rng4⟩
  dsimp only
  rcases hsh : shuffle (prodRange
      (intRange (start_r + 1) (start_r + 1 + (height - 2) - subdim.2 + 1))
      (intRange (start_c + 1) (start_c + 1 + (width - 2) - subdim.1 + 1)))
      rng4 with ⟨starts, rng5⟩
  dsimp only
  split
  case h_1 rc hfind =>
    have hdim : subdim ∈ ROOM_DIMENSIONS_SMALL := by
      have := randChoice_mem (0, 0) (by decide : ROOM_DIMENSIONS_SMALL ≠ []) rng
      rw [hcd] at this
      exact this
    have hdims : 1 ≤ subdim.1 ∧ subdim.1 ≤ 3 ∧ 1 ≤ subdim.2 ∧ subdim.2 ≤ 3 := by
      have hd3 : subdim = ((2 : Int), (2 : Int)) ∨ subdim = (2, 3) ∨ subdim = (3, 2) := by
        simpa [ROOM_DIMENSIONS_SMALL] using hdim
      rcases hd3 with rfl | rfl | rfl <;> norm_num
    have hrc : rc ∈ starts := List.mem_of_find?_eq_some hfind
    have hrc0 : rc ∈ prodRange
        (intRange (start_r + 1) (start_r + 1 + (height - 2) - subdim.2 + 1))
        (intRange (start_c + 1) (start_c + 1 + (width - 2) - subdim.1 + 1)) := by
      have hperm := shuffle_perm (prodRange
        (intRange (start_r + 1) (start_r + 1 + (height - 2) - subdim.2 + 1))
        (intRange (start_c + 1) (start_c + 1 + (width - 2) - subdim.1 + 1))) rng4
      rw [hsh] at hperm
      exact hperm.mem_iff.1 hrc
    have hb1 := mem_intRange.1 (mem_prodRange.1 hrc0).1
    have hb2 := mem_intRange.1 (mem_prodRange.1 hrc0).2
    refine gridEvolve_mono ?_ (carve_small_room_evolve g rc.1 rc.2 subdim.1
      subdim.2 1 tier_weights loot rng5 (by omega) (by omega))
    intro r c a b h
    obtain ⟨⟨q1, q2, q3, q4⟩, hs⟩ := h
    exact ⟨⟨by omega, by omega, by omega, by omega⟩, hs⟩
  case h_2 hfind => exact gridEvolve_refl _ _

theorem gridOK_subRoomPhase (g : Grid) (start_r start_c width height : Int)
    (tier_weights : List (String × Nat)) (loot : List LootEntry) (rng : Rng)
    (hg : GridOK g) :
    GridOK (subRoomPhase g start_r start_c width height tier_weights loot rng).1 := by
  unfold subRoomPhase
  rcases hcd : randChoice (0, 0) ROOM_DIMENSIONS_SMALL rng with ⟨subdim, rng4⟩
  dsimp only
  rcases hsh : shuffle (prodRange
      (intRange (start_r + 1) (start_r + 1 + (height - 2) - subdim.2 + 1))
      (intRange (start_c + 1) (start_c + 1 + (width - 2) - subdim.1 + 1)))
      rng4 with ⟨starts, rng5⟩
  dsimp only
  split
  · exact gridOK_carve_small _ _ _ _ _ _ _ _ _ hg
  · exact hg

theorem carve_large_room_evolve (g : Grid) (start_r start_c width height : Int)
    (exits_required : Nat) (tier_weights : List (String × Nat))
    (loot : List LootEntry) (rng : Rng) (hw : 1 ≤ width) (hh : 1 ≤ height) :
    GridEvolve (WCarve start_r start_c width height) g
      (carve_large_room g start_r start_c width height exits_required
        tier_weights loot rng).1 := by
  have hWt := wTrans_WCarve start_r start_c width height
  rcases h1 : carve_small_room g start_r start_c width height exits_required
    tier_weights loot rng with ⟨g1, loot1, rng1⟩
  have e1 : GridEvolve (WCarve start_r start_c width height) g g1 := by
    have := carve_small_room_evolve g start_r start_c width height exits_required
      tier_weights loot rng hw hh
    rw [h1] at this
    exact this
  rw [carve_large_room, h1]
  dsimp only
  have hconts : ∀ (g' : Grid) (loot' : List LootEntry) (rng' : Rng),
      GridEvolve (WCarve start_r start_c width height) g'
        (place_containers_in_room g' start_r start_c width height "Large"
          tier_weights loot' rng').1 := by
    intro g' loot' rng'
    refine gridEvolve_mono ?_ (place_containers_evolve g' start_r start_c width
      height "Large" tier_weights loot' rng')
    intro r c a b h
    exact ⟨⟨by omega, by omega, by omega, by omega⟩, isStrCell_container h.2.2⟩
  split
  case isTrue hcond =>
    rcases h2 : randint 1 3 rng1 with ⟨nw, rng2⟩
    dsimp only
    rcases h3 : interiorWallLoop (start_r + 1) (start_c + 1) (width - 2) (height - 2)
      nw g1 rng2 with ⟨g2, rng3⟩
    dsimp only
    have e2 : GridEvolve (WCarve start_r start_c width height) g1 g2 := by
      have := interiorWallLoop_evolve (start_r + 1) (start_c + 1) (width - 2)
        (height - 2) (by omega) (by omega) nw g1 rng2
      rw [h3] at this
      refine gridEvolve_mono ?_ this
      intro r c a b h
      unfold WIWall at h
      obtain ⟨⟨hb1, hb2, hb3, hb4⟩, hold, hnew⟩ := h
      exact ⟨⟨by omega, by omega, by omega, by omega⟩,
        by rcases hnew with h' | h' <;> exact ⟨_, h'⟩⟩
    rcases h4 : subRoomPhase g2 start_r start_c width height tier_weights loot1 rng3
      with ⟨g3, loot2, rng6⟩
    dsimp only
    have e3 : GridEvolve (WCarve start_r start_c width height) g2 g3 := by
      have := subRoomPhase_evolve g2 start_r start_c width height tier_weights
        loot1 rng3
      rw [h4] at this
      exact this
    exact gridEvolve_trans hWt (gridEvolve_trans hWt (gridEvolve_trans hWt e1 e2) e3)
      (hconts g3 loot2 rng6)
  case isFalse =>
    rcases h4 : subRoomPhase g1 start_r start_c width height tier_weights loot1 rng1
      with ⟨g3, loot2, rng6⟩
    dsimp only
    have e3 : GridEvolve (WCarve start_r start_c width height) g1 g3 := by
      have := subRoomPhase_evolve g1 start_r start_c width height tier_weights
        loot1 rng1
      rw [h4] at this
      exact this
    exact gridEvolve_trans hWt (gridEvolve_trans hWt e1 e3) (hconts g3 loot2 rng6)

theorem gridOK_carve_medium (g : Grid) (start_r start_c width height : Int)
    (exits_required : Nat) (tier_weights : List (String × Nat))
    (loot : List LootEntry) (rng : Rng) (hg : GridOK g) :
    GridOK (carve_medium_room g start_r start_c width height exits_required
      tier_weights loot rng).1 := by
  rcases h1 : carve_small_room g start_r start_c width height exits_required
    tier_weights loot rng with ⟨g1, loot1, rng1⟩
  have hg1 : GridOK g1 := by
    have := gridOK_carve_small g start_r start_c width height exits_required
      tier_weights loot rng hg
    rw [h1] at this
    exact this
  rw [carve_medium_room, h1]
  dsimp only
  split
  · rcases h2 : randint 1 3 rng1 with ⟨nw, rng2⟩
    dsimp only
    rcases h3 : interiorWallLoop (start_r + 1) (start_c + 1) (width - 2) (height - 2)
      nw g1 rng2 with ⟨g2, rng3⟩
    dsimp only
    apply gridOK_place_containers
    have := gridOK_interiorWallLoop (start_r + 1) (start_c + 1) (width - 2)
      (height - 2) nw g1 rng2 hg1
    rw [h3] at this
    exact this
  · exact gridOK_place_containers _ _ _ _ _ _ _ _ _ hg1

theorem gridOK_carve_large (g : Grid) (start_r start_c width height : Int)
    (exits_required : Nat) (tier_weights : List (String × Nat))
    (loot : List LootEntry) (rng : Rng) (hg : GridOK g) :
    GridOK (carve_large_room g start_r start_c width height exits_required
      tier_weights loot rng).1 := by
  rcases h1 : carve_small_room g start_r start_c width height exits_required
    tier_weights loot rng with ⟨g1, loot1, rng1⟩
  have hg1 : GridOK g1 := by
    have := gridOK_carve_small g start_r start_c width height exits_required
      tier_weights loot rng hg
    rw [h1] at this
    exact this
  rw [carve_large_room, h1]
  dsimp only
  split
  · rcases h2 : randint 1 3 rng1 with ⟨nw, rng2⟩
    dsimp only
    rcases h3 : interiorWallLoop (start_r + 1) (start_c + 1) (width - 2) (height - 2)
      nw g1 rng2 with ⟨g2, rng3⟩
    dsimp only
    rcases h4 : subRoomPhase g2 start_r start_c width height tier_weights loot1 rng3
      with ⟨g3, loot2, rng6⟩
    dsimp only
    apply gridOK_place_containers
    have hg2 : GridOK g2 := by
      have := gridOK_interiorWallLoop (start_r + 1) (start_c + 1) (width - 2)
        (height - 2) nw g1 rng2 hg1
      rw [h3] at this
      exact this
    have := gridOK_subRoomPhase g2 start_r start_c width height tier_weights
      loot1 rng3 hg2
    rw [h4] at this
    exact this
  · rcases h4 : subRoomPhase g1 start_r start_c width height tier_weights loot1 rng1
      with ⟨g3, loot2, rng6⟩
    dsimp only
    apply gridOK_place_containers
    have := gridOK_subRoomPhase g1 start_r start_c width height tier_weights
      loot1 rng1 hg1
    rw [h4] at this
    exact this

/-- Writes of `connect_rooms_to_hallways`: `Carved` over `Unvisited`,
inside the interior. -/
def WConn (r c : Int) (old new : Cell) : Prop :=
  interiorCell r c ∧ old = .num MAZE_WALL ∧ new = .num MAZE_PASSAGE

theorem wTrans_WConn : WTrans WConn := by
  intro r c a b d h1 h2
  rw [h1.2.2] at h2
  exact absurd h2.2.1 (by simp [MAZE_WALL, MAZE_PASSAGE])

theorem connectCore_evolve (g : Grid) (cr cc : Int) :
    GridEvolve WConn g
      (if 1 ≤ cr ∧ cr < (GRID_ROWS : Int) - 1 ∧ 1 ≤ cc ∧ cc < (GRID_COLUMNS : Int) - 1
        then
          if getCell g cr cc = .num MAZE_WALL then setCell g cr cc (.num MAZE_PASSAGE)
          else g
        else g) := by
  split
  case isTrue h0 =>
    split
    case isTrue hz =>
      exact gridEvolve_setCell ⟨⟨h0.1, h0.2.1, h0.2.2.1, h0.2.2.2⟩, hz, rfl⟩
    case isFalse => exact gridEvolve_refl _ _
  case isFalse => exact gridEvolve_refl _ _

theorem connectCell_evolve (start_r start_c end_r end_c : Int) (g : Grid)
    (rc : Int × Int) :
    GridEvolve WConn g (connectCell start_r start_c end_r end_c g rc) := by
  unfold connectCell
  dsimp only
  split
  · exact connectCore_evolve g _ _
  · exact gridEvolve_refl _ _

theorem connect_rooms_evolve (g : Grid) (rooms : List RoomData) :
    GridEvolve WConn g (connect_rooms_to_hallways g rooms) := by
  unfold connect_rooms_to_hallways
  refine gridEvolve_foldl (fun x : Grid => x) wTrans_WConn _ _ g ?_
  intro s room _
  split
  · exact gridEvolve_refl _ _
  · refine gridEvolve_foldl (fun x : Grid => x) wTrans_WConn _ _ s ?_
    intro s' rc _
    exact connectCell_evolve _ _ _ _ s' rc

theorem gridOK_connect (g : Grid) (rooms : List RoomData) (hg : GridOK g) :
    GridOK (connect_rooms_to_hallways g rooms) := by
  unfold connect_rooms_to_hallways
  apply foldl_preserve (fun g' => GridOK g') _ _ _ hg
  intro s room _ hs
  split
  · exact hs
  · apply foldl_preserve (fun g' => GridOK g') _ _ _ hs
    intro s' rc _ hs'
    unfold connectCell
    dsimp only
    split
    · have hcore : ∀ (cr cc : Int), GridOK
          (if 1 ≤ cr ∧ cr < (GRID_ROWS : Int) - 1 ∧ 1 ≤ cc ∧
              cc < (GRID_COLUMNS : Int) - 1 then
            if getCell s' cr cc = .num MAZE_WALL then
              setCell s' cr cc (.num MAZE_PASSAGE)
            else s'
          else s') := by
        intro cr cc
        split
        · split
          · exact gridRect_setCell hs' _ _ _
          · exact hs'
        · exact hs'
      exact hcore _ _
    · exact hs'

/-- Weak write discipline of the maze carver: `Carved` markers inside the
interior. -/
def WMaze (r c : Int) (_ new : Cell) : Prop :=
  interiorCell r c ∧ new = .num MAZE_PASSAGE

theorem wTrans_WMaze : WTrans WMaze := fun _ _ _ _ _ h1 h2 => ⟨h1.1, h2.2⟩

theorem maze_evolve :
    ∀ (fuel : Nat) (g : Grid) (r c : Int) (rng : Rng),
      interiorCell r c →
      GridEvolve WMaze g (recursive_backtracking_maze_generator fuel g r c rng).1
  | 0, g, r, c, rng, hin => gridEvolve_refl _ _
  | fuel + 1, g, r, c, rng, hin => by
    rw [recursive_backtracking_maze_generator]
    rcases hsh : shuffle mazeDirections rng with ⟨dirs, rng1⟩
    dsimp only
    have hdirs : ∀ d ∈ dirs, d ∈ mazeDirections := by
      intro d hd
      have := shuffle_perm mazeDirections rng
      rw [hsh] at this
      exact this.mem_iff.1 hd
    have hstart : GridEvolve WMaze g (setCell g r c (.num MAZE_PASSAGE)) :=
      gridEvolve_setCell ⟨hin, rfl⟩
    refine gridEvolve_trans wTrans_WMaze hstart ?_
    refine gridEvolve_foldl (fun st : Grid × Rng => st.1) wTrans_WMaze _ dirs
      (setCell g r c (.num MAZE_PASSAGE), rng1) ?_
    intro st d hd
    dsimp only
    split
    case isTrue hb =>
      split
      case isTrue h0 =>
        have hmid : interiorCell (r + d.1 / 2) (c + d.2 / 2) := by
          have hd4 : d = ((0 : Int), (2 : Int)) ∨ d = (0, -2) ∨ d = (2, 0) ∨
              d = (-2, 0) := by
            simpa [mazeDirections] using hdirs d hd
          unfold interiorCell at hin ⊢
          rcases hd4 with rfl | rfl | rfl | rfl <;>
            · norm_num at hb ⊢
              omega
        have hnext : interiorCell (r + d.1) (c + d.2) :=
          ⟨hb.1, hb.2.1, hb.2.2.1, hb.2.2.2⟩
        refine gridEvolve_trans wTrans_WMaze
          (gridEvolve_setCell ⟨hmid, rfl⟩) ?_
        exact maze_evolve fuel _ (r + d.1) (c + d.2) _ hnext
      case isFalse => exact gridEvolve_refl _ _
    case isFalse => exact gridEvolve_refl _ _

theorem gridOK_maze :
    ∀ (fuel : Nat) (g : Grid) (r c : Int) (rng : Rng), GridOK g →
      GridOK (recursive_backtracking_maze_generator fuel g r c rng).1
  | 0, g, r, c, rng, hg => hg
  | fuel + 1, g, r, c, rng, hg => by
    rw [recursive_backtracking_maze_generator]
    rcases hsh : shuffle mazeDirections rng with ⟨dirs, rng1⟩
    dsimp only
    refine foldl_preserve (fun st : Grid × Rng => GridOK st.1) _ dirs _
      (gridRect_setCell hg _ _ _) ?_
    intro st d hd hst
    dsimp only
    split
    · split
      · exact gridOK_maze fuel _ _ _ _ (gridRect_setCell hst _ _ _)
      · exact hst
    · exact hst

/-- Writes of the hallway resolution pass: string floor/hallway tiles over
integer maze markers, inside the interior. -/
def WResolve (r c : Int) (old new : Cell) : Prop :=
  interiorCell r c ∧ (∃ n, old = .num n) ∧
  (new = .str TILE_OPEN_SPACE ∨ new = .str TILE_HALLWAY_VERT ∨
    new = .str TILE_HALLWAY_HORZ)

theorem wTrans_WResolve : WTrans WResolve := by
  intro r c a b d h1 h2
  obtain ⟨n, hn⟩ := h2.2.1
  rcases h1.2.2 with h' | h' | h' <;> rw [h'] at hn <;> cases hn

theorem resolveMazeCell_evolve (rows cols : Int) (g : Grid) (rc : Int × Int)
    (hin : interiorCell rc.1 rc.2) :
    GridEvolve WResolve g (resolveMazeCell rows cols g rc) := by
  unfold resolveMazeCell
  dsimp only
  split
  · exact gridEvolve_refl _ _
  case h_2 n heq =>
    split
    · exact gridEvolve_setCell ⟨hin, ⟨n, heq⟩, Or.inl rfl⟩
    · split
      · split
        · exact gridEvolve_setCell ⟨hin, ⟨n, heq⟩, Or.inr (Or.inl rfl)⟩
        · split
          · exact gridEvolve_setCell ⟨hin, ⟨n, heq⟩, Or.inr (Or.inr rfl)⟩
          · exact gridEvolve_setCell ⟨hin, ⟨n, heq⟩, Or.inl rfl⟩
      · exact gridEvolve_refl _ _

theorem resolvePass_evolve (rows cols : Int) (g : Grid) (hg : GridOK g)
    (hrows : rows = (g.length : Int)) (hcols : cols = ((g.getD 0 []).length : Int)) :
    GridEvolve WResolve g
      ((prodRange (intRange 1 (rows - 1)) (intRange 1 (cols - 1))).foldl
        (resolveMazeCell rows cols) g) := by
  refine gridEvolve_foldl (fun x : Grid => x) wTrans_WResolve _ _ g ?_
  intro s rc hrc
  have h1 := mem_intRange.1 (mem_prodRange.1 hrc).1
  have h2 := mem_intRange.1 (mem_prodRange.1 hrc).2
  apply resolveMazeCell_evolve
  rw [hrows, gridOK_rows hg] at h1
  rw [hcols, gridOK_cols hg] at h2
  exact ⟨h1.1, h1.2, h2.1, h2.2⟩

theorem gridOK_resolvePass (rows cols : Int) (g : Grid) (hg : GridOK g) :
    GridOK ((prodRange (intRange 1 (rows - 1)) (intRange 1 (cols - 1))).foldl
      (resolveMazeCell rows cols) g) := by
  apply foldl_preserve (fun g' => GridOK g') _ _ _ hg
  intro s rc _ hs
  unfold resolveMazeCell
  dsimp only
  split
  · exact hs
  · split
    · exact gridRect_setCell hs _ _ _
    · split
      · split
        · exact gridRect_setCell hs _ _ _
        · split
          · exact gridRect_setCell hs _ _ _
          · exact gridRect_setCell hs _ _ _
      · exact hs

/-- Writes of `generate_hallways_in_remaining_space`: `Carved` markers or
resolved floor/hallway strings, inside the interior. -/
def WHallways (r c : Int) (_ new : Cell) : Prop :=
  interiorCell r c ∧
  (new = .num MAZE_PASSAGE ∨ new = .str TILE_OPEN_SPACE ∨
    new = .str TILE_HALLWAY_VERT ∨ new = .str TILE_HALLWAY_HORZ)

theorem wTrans_WHallways : WTrans WHallways :=
  fun _ _ _ _ _ h1 h2 => ⟨h1.1, h2.2⟩

theorem mem_intRange2_bounds {a b x : Int} (h : x ∈ intRange2 a b) :
    a ≤ x ∧ x < b := by
  unfold intRange2 at h
  simp only [List.mem_map, List.mem_range] at h
  obtain ⟨i, hi, rfl⟩ := h
  omega

theorem hallways_evolve (g : Grid) (rng : Rng) (hg : GridOK g) :
    GridEvolve WHallways g (generate_hallways_in_remaining_space g rng).1 := by
  unfold generate_hallways_in_remaining_space
  dsimp only
  have hresolve : ∀ (g' : Grid),
      GridEvolve WResolve g'
        ((prodRange (intRange 1 ((g.length : Int) - 1))
          (intRange 1 (((g.getD 0 []).length : Int) - 1))).foldl
          (resolveMazeCell (g.length : Int) ((g.getD 0 []).length : Int)) g') := by
    intro g'
    refine gridEvolve_foldl (fun x : Grid => x) wTrans_WResolve _ _ g' ?_
    intro s rc hrc
    have h1 := mem_intRange.1 (mem_prodRange.1 hrc).1
    have h2 := mem_intRange.1 (mem_prodRange.1 hrc).2
    apply resolveMazeCell_evolve
    rw [gridOK_rows hg] at h1
    rw [gridOK_cols hg] at h2
    exact ⟨h1.1, h1.2, h2.1, h2.2⟩
  have hmonoR : ∀ g1 g2, GridEvolve WResolve g1 g2 → GridEvolve WHallways g1 g2 := by
    intro g1 g2 h
    refine gridEvolve_mono ?_ h
    intro r c a b hw
    refine ⟨hw.1, ?_⟩
    rcases hw.2.2 with h' | h' | h'
    · exact Or.inr (Or.inl h')
    · exact Or.inr (Or.inr (Or.inl h'))
    · exact Or.inr (Or.inr (Or.inr h'))
  split
  case isTrue => exact hmonoR _ _ (hresolve g)
  case isFalse hne =>
    rcases hch : randChoice (-1, -1)
      ((prodRange (intRange2 1 ((g.length : Int) - 1))
        (intRange2 1 (((g.getD 0 []).length : Int) - 1))).filter
        (fun rc => decide (getCell g rc.1 rc.2 = .num MAZE_WALL))) rng
      with ⟨st, rng1⟩
    dsimp only
    rcases hmz : recursive_backtracking_maze_generator
      (g.length * (g.getD 0 []).length + 1) g st.1 st.2 rng1 with ⟨g2, rng2⟩
    dsimp only
    have hstmem : st ∈ (prodRange (intRange2 1 ((g.length : Int) - 1))
        (intRange2 1 (((g.getD 0 []).length : Int) - 1))).filter
        (fun rc => decide (getCell g rc.1 rc.2 = .num MAZE_WALL)) := by
      have := randChoice_mem (-1, -1) hne rng
      rw [hch] at this
      exact this
    have hstin : interiorCell st.1 st.2 := by
      have hmem := List.mem_of_mem_filter hstmem
      have h1 := mem_intRange2_bounds (mem_prodRange.1 hmem).1
      have h2 := mem_intRange2_bounds (mem_prodRange.1 hmem).2
      rw [gridOK_rows hg] at h1
      rw [gridOK_cols hg] at h2
      exact ⟨h1.1, by omega, h2.1, by omega⟩
    have e1 : GridEvolve WHallways g g2 := by
      have := maze_evolve (g.length * (g.getD 0 []).length + 1) g st.1 st.2 rng1 hstin
      rw [hmz] at this
      refine gridEvolve_mono ?_ this
      intro r c a b hw
      exact ⟨hw.1, Or.inl hw.2⟩
    exact gridEvolve_trans wTrans_WHallways e1 (hmonoR _ _ (hresolve g2))

theorem gridOK_hallways (g : Grid) (rng : Rng) (hg : GridOK g) :
    GridOK (generate_hallways_in_remaining_space g rng).1 := by
  unfold generate_hallways_in_remaining_space
  dsimp only
  split
  · exact gridOK_resolvePass _ _ g hg
  · rcases hch : randChoice (-1, -1)
      ((prodRange (intRange2 1 ((g.length : Int) - 1))
        (intRange2 1 (((g.getD 0 []).length : Int) - 1))).filter
        (fun rc => decide (getCell g rc.1 rc.2 = .num MAZE_WALL))) rng
      with ⟨st, rng1⟩
    dsimp only
    rcases hmz : recursive_backtracking_maze_generator
      (g.length * (g.getD 0 []).length + 1) g st.1 st.2 rng1 with ⟨g2, rng2⟩
    dsimp only
    apply gridOK_resolvePass
    have := gridOK_maze (g.length * (g.getD 0 []).length + 1) g st.1 st.2 rng1 hg
    rw [hmz] at this
    exact this

/-- Writes of the scene-population stages: spawner/container strings over
floor tiles, inside the interior. -/
def WPopulate (r c : Int) (old new : Cell) : Prop :=
  interiorCell r c ∧ old ∈ validFloorTiles ∧
  (new = .str TILE_SPAWNER ∨ new = .str TILE_BARREL ∨ new = .str TILE_CRATE ∨
    new = .str TILE_CHEST)

theorem wTrans_WPopulate : WTrans WPopulate := by
  intro r c a b d h1 h2
  exfalso
  have hb := h2.2.1
  rcases h1.2.2 with h | h | h | h <;> rw [h] at hb <;>
    simp [validFloorTiles, TILE_SPAWNER, TILE_BARREL, TILE_CRATE, TILE_CHEST,
      TILE_OPEN_SPACE, TILE_HALLWAY_HORZ, TILE_HALLWAY_VERT] at hb

/-- The floor spots scanned by the population stages. -/
theorem populate_spots_spec {g : Grid} (hg : GridOK g) {rc : Int × Int}
    (h : rc ∈ (prodRange (intRange 1 ((g.length : Int) - 1))
      (intRange 1 (((g.getD 0 []).length : Int) - 1))).filter
      (fun rc => getCell g rc.1 rc.2 ∈ validFloorTiles)) :
    interiorCell rc.1 rc.2 ∧ getCell g rc.1 rc.2 ∈ validFloorTiles := by
  have hmem := List.mem_of_mem_filter h
  have hprop := List.of_mem_filter h
  have h1 := mem_intRange.1 (mem_prodRange.1 hmem).1
  have h2 := mem_intRange.1 (mem_prodRange.1 hmem).2
  rw [gridOK_rows hg] at h1
  rw [gridOK_cols hg] at h2
  exact ⟨⟨h1.1, h1.2, h2.1, h2.2⟩, by simpa using hprop⟩

theorem spawnerLoop_evolve (spawner_count : Nat) :
    ∀ (spots : List (Int × Int)) (g : Grid) (locs : List SpawnerLoc) (placed : Nat),
      spots.Nodup →
      (∀ p ∈ spots, interiorCell p.1 p.2 ∧ getCell g p.1 p.2 ∈ validFloorTiles) →
      GridEvolve WPopulate g (spawnerLoop spawner_count spots g locs placed).1
  | [], g, locs, placed, _, _ => gridEvolve_refl _ _
  | rc :: rest, g, locs, placed, hnd, hsp => by
    rw [spawnerLoop]
    split
    · exact gridEvolve_refl _ _
    · have hstep : GridEvolve WPopulate g (setCell g rc.1 rc.2 (.str TILE_SPAWNER)) :=
        gridEvolve_setCell ⟨(hsp rc (by simp)).1, (hsp rc (by simp)).2, Or.inl rfl⟩
      refine gridEvolve_trans wTrans_WPopulate hstep ?_
      apply spawnerLoop_evolve spawner_count rest _ _ _ (List.nodup_cons.1 hnd).2
      intro p hp
      refine ⟨(hsp p (by simp [hp])).1, ?_⟩
      rw [getCell_setCell_ne]
      · exact (hsp p (by simp [hp])).2
      · have hne : p ≠ rc := fun h => (List.nodup_cons.1 hnd).1 (h ▸ hp)
        by_cases h1 : p.1 = rc.1
        · exact Or.inr (fun h2 => hne (Prod.ext h1 h2))
        · exact Or.inl h1

theorem place_enemy_spawners_evolve (g : Grid) (spawner_count : Nat) (rng : Rng)
    (hg : GridOK g) :
    GridEvolve WPopulate g (place_enemy_spawners g spawner_count rng).1 := by
  unfold place_enemy_spawners
  dsimp only
  apply spawnerLoop_evolve spawner_count _ g [] 0
  · exact shuffle_nodup ((nodup_prodRange nodup_intRange nodup_intRange).filter _)
  · intro p hp
    exact populate_spots_spec hg (shuffle_mem.1 hp)

theorem gridOK_spawnerLoop (spawner_count : Nat) :
    ∀ (spots : List (Int × Int)) (g : Grid) (locs : List SpawnerLoc) (placed : Nat),
      GridOK g → GridOK (spawnerLoop spawner_count spots g locs placed).1
  | [], g, locs, placed, hg => hg
  | rc :: rest, g, locs, placed, hg => by
    rw [spawnerLoop]
    split
    · exact hg
    · exact gridOK_spawnerLoop spawner_count rest _ _ _ (gridRect_setCell hg _ _ _)

theorem gridOK_place_enemy_spawners (g : Grid) (spawner_count : Nat) (rng : Rng)
    (hg : GridOK g) : GridOK (place_enemy_spawners g spawner_count rng).1 := by
  unfold place_enemy_spawners
  dsimp only
  exact gridOK_spawnerLoop spawner_count _ g [] 0 hg

theorem outsideLootLoop_evolve (tier_weights : List (String × Nat))
    (num_to_place : Nat) :
    ∀ (spots : List (Int × Int)) (g : Grid) (loot : List LootEntry) (rng : Rng)
      (placed : Nat),
      spots.Nodup →
      (∀ p ∈ spots, interiorCell p.1 p.2 ∧ getCell g p.1 p.2 ∈ validFloorTiles) →
      GridEvolve WPopulate g
        (outsideLootLoop tier_weights num_to_place spots g loot rng placed).1
  | [], g, loot, rng, placed, _, _ => gridEvolve_refl _ _
  | rc :: rest, g, loot, rng, placed, hnd, hsp => by
    rw [outsideLootLoop]
    split
    · exact gridEvolve_refl _ _
    · rcases hct : randChoice "" ["Barrel", "Crate"] rng with ⟨ctype, rng1⟩
      dsimp only
      have htail : ∀ (v : Cell), (v = .str TILE_BARREL ∨ v = .str TILE_CRATE) →
          ∀ (loot2 : List LootEntry) (rng2 : Rng),
          GridEvolve WPopulate g
            (outsideLootLoop tier_weights num_to_place rest
              (setCell g rc.1 rc.2 v) loot2 rng2 (placed + 1)).1 := by
        intro v hv loot2 rng2
        have hstep : GridEvolve WPopulate g (setCell g rc.1 rc.2 v) := by
          refine gridEvolve_setCell ⟨(hsp rc (by simp)).1, (hsp rc (by simp)).2, ?_⟩
          rcases hv with h | h
          · exact Or.inr (Or.inl h)
          · exact Or.inr (Or.inr (Or.inl h))
        refine gridEvolve_trans wTrans_WPopulate hstep ?_
        apply outsideLootLoop_evolve tier_weights num_to_place rest _ _ _ _
          (List.nodup_cons.1 hnd).2
        intro p hp
        refine ⟨(hsp p (by simp [hp])).1, ?_⟩
        rw [getCell_setCell_ne]
        · exact (hsp p (by simp [hp])).2
        · have hne : p ≠ rc := fun h => (List.nodup_cons.1 hnd).1 (h ▸ hp)
          by_cases h1 : p.1 = rc.1
          · exact Or.inr (fun h2 => hne (Prod.ext h1 h2))
          · exact Or.inl h1
      split
      · exact htail _ (Or.inl rfl) _ _
      · exact htail _ (Or.inr rfl) _ _

theorem place_outside_loot_evolve (g : Grid) (tier_weights : List (String × Nat))
    (loot : List LootEntry) (rng : Rng) (hg : GridOK g) :
    GridEvolve WPopulate g (place_outside_loot g tier_weights loot rng).1 := by
  unfold place_outside_loot
  dsimp only
  apply outsideLootLoop_evolve tier_weights _ _ g loot _ 0
  · exact shuffle_nodup ((nodup_prodRange nodup_intRange nodup_intRange).filter _)
  · intro p hp
    exact populate_spots_spec hg (shuffle_mem.1 hp)

theorem gridOK_outsideLootLoop (tier_weights : List (String × Nat))
    (num_to_place : Nat) :
    ∀ (spots : List (Int × Int)) (g : Grid) (loot : List LootEntry) (rng : Rng)
      (placed : Nat), GridOK g →
      GridOK (outsideLootLoop tier_weights num_to_place spots g loot rng placed).1
  | [], g, loot, rng, placed, hg => hg
  | rc :: rest, g, loot, rng, placed, hg => by
    rw [outsideLootLoop]
    split
    · exact hg
    · rcases hct : randChoice "" ["Barrel", "Crate"] rng with ⟨ctype, rng1⟩
      dsimp only
      split
      · exact gridOK_outsideLootLoop tier_weights num_to_place rest _ _ _ _
          (gridRect_setCell hg _ _ _)
      · exact gridOK_outsideLootLoop tier_weights num_to_place rest _ _ _ _
          (gridRect_setCell hg _ _ _)

theorem gridOK_place_outside_loot (g : Grid) (tier_weights : List (String × Nat))
    (loot : List LootEntry) (rng : Rng) (hg : GridOK g) :
    GridOK (place_outside_loot g tier_weights loot rng).1 := by
  unfold place_outside_loot
  dsimp only
  exact gridOK_outsideLootLoop tier_weights _ _ g loot _ 0 hg

theorem stray_chest_evolve (g : Grid) (tier_weights : List (String × Nat))
    (loot : List LootEntry) (rng : Rng) (hg : GridOK g) :
    GridEvolve WPopulate g
      (spawn_stray_chest_if_lucky g tier_weights loot rng).1 := by
  unfold spawn_stray_chest_if_lucky
  dsimp only
  split
  · split
    case isTrue => exact gridEvolve_refl _ _
    case isFalse hne =>
      have hmem := randChoice_mem ((0 : Int), (0 : Int)) hne (randPct rng).2
      have hspec := populate_spots_spec hg hmem
      exact gridEvolve_setCell ⟨hspec.1, hspec.2, Or.inr (Or.inr (Or.inr rfl))⟩
  · exact gridEvolve_refl _ _

theorem gridOK_stray_chest (g : Grid) (tier_weights : List (String × Nat))
    (loot : List LootEntry) (rng : Rng) (hg : GridOK g) :
    GridOK (spawn_stray_chest_if_lucky g tier_weights loot rng).1 := by
  unfold spawn_stray_chest_if_lucky
  dsimp only
  split
  · split
    · exact hg
    · exact gridRect_setCell hg _ _ _
  · exact hg

-- --- ROOM PLACEMENT: clearance specs and stage evolution ---

theorem is_area_clear_bounds {g : Grid} {start_r start_c width height : Int}
    (h : is_area_clear g start_r start_c width height = true) :
    1 ≤ start_r ∧ 1 ≤ start_c ∧ start_r + height ≤ (g.length : Int) - 1 ∧
      start_c + width ≤ ((g.getD 0 []).length : Int) - 1 := by
  unfold is_area_clear at h
  dsimp only at h
  split at h
  · exact absurd h (by simp)
  case isFalse hn =>
    push_neg at hn
    omega

theorem is_area_clear_cells {g : Grid} {start_r start_c width height : Int}
    (h : is_area_clear g start_r start_c width height = true)
    {r c : Int} (hr : start_r ≤ r) (hr2 : r < start_r + height)
    (hc : start_c ≤ c) (hc2 : c < start_c + width) :
    getCell g r c = .num MAZE_WALL := by
  unfold is_area_clear at h
  dsimp only at h
  split at h
  · exact absurd h (by simp)
  · have hmem : (r, c) ∈ prodRange (intRange start_r (start_r + height))
        (intRange start_c (start_c + width)) :=
      mem_prodRange.2 ⟨mem_intRange.2 ⟨hr, hr2⟩, mem_intRange.2 ⟨hc, hc2⟩⟩
    exact of_decide_eq_true (List.all_eq_true.1 h _ hmem)

/-- A non-sentinel `find_clear_area` result points at an all-clear area. -/
theorem find_clear_area_spec (g : Grid) (room_width room_height : Int) (rng : Rng)
    (hne : (find_clear_area g room_width room_height rng).1.1 ≠ -1) :
    is_area_clear g (find_clear_area g room_width room_height rng).1.1
      (find_clear_area g room_width room_height rng).1.2 room_width room_height
      = true := by
  unfold find_clear_area at hne ⊢
  dsimp only at hne ⊢
  rcases hf : ((shuffle (prodRange (intRange 1 ((g.length : Int) - room_height))
        (intRange 1 (((g.getD 0 []).length : Int) - room_width))) rng).1).find?
      (fun rc => is_area_clear g rc.1 rc.2 room_width room_height) with _ | rc
  · rw [hf] at hne
    exact absurd rfl hne
  · rw [hf]
    dsimp only
    simpa using List.find?_some hf

/-- Writes of the room-placement stage: string tiles in the interior. -/
def WRooms (r c : Int) (_ new : Cell) : Prop := interiorCell r c ∧ isStrCell new

theorem wTrans_WRooms : WTrans WRooms := fun _ _ _ _ _ h1 h2 => ⟨h1.1, h2.2⟩

theorem placeRoomStep_evolve (tier_weights : List (String × Nat))
    (st : Grid × List RoomData × List LootEntry × Rng) (room : RoomData)
    (hg : GridOK st.1) (hw : 1 ≤ room.width) (hh : 1 ≤ room.height) :
    GridEvolve WRooms st.1 (placeRoomStep tier_weights st room).1 ∧
      GridOK (placeRoomStep tier_weights st room).1 := by
  rcases st with ⟨g, rooms_out, loot, rng⟩
  unfold placeRoomStep
  dsimp only at hg ⊢
  split
  case isTrue hne =>
    have hclear := find_clear_area_spec g room.width room.height rng hne
    have hb := is_area_clear_bounds hclear
    rw [gridOK_rows hg, gridOK_cols hg] at hb
    have hmono : ∀ r c a b,
        WCarve (find_clear_area g room.width room.height rng).1.1
          (find_clear_area g room.width room.height rng).1.2
          room.width room.height r c a b → WRooms r c a b := by
      intro r c a b hcv
      unfold WCarve inRect at hcv
      exact ⟨⟨by omega, by omega, by omega, by omega⟩, hcv.2⟩
    dsimp only
    split
    · exact ⟨gridEvolve_mono hmono (carve_small_room_evolve g _ _ _ _ _ _ _ _ hw hh),
        gridOK_carve_small g _ _ _ _ _ _ _ _ hg⟩
    · split
      · exact ⟨gridEvolve_mono hmono (carve_medium_room_evolve g _ _ _ _ _ _ _ _ hw hh),
          gridOK_carve_medium g _ _ _ _ _ _ _ _ hg⟩
      · split
        · exact ⟨gridEvolve_mono hmono (carve_large_room_evolve g _ _ _ _ _ _ _ _ hw hh),
            gridOK_carve_large g _ _ _ _ _ _ _ _ hg⟩
        · exact ⟨gridEvolve_refl _ _, hg⟩
  case isFalse => exact ⟨gridEvolve_refl _ _, hg⟩

theorem place_rooms_evolve (rooms : List RoomData) (g : Grid)
    (tier_weights : List (String × Nat)) (loot : List LootEntry) (rng : Rng)
    (hg : GridOK g) (hdims : ∀ room ∈ rooms, 1 ≤ room.width ∧ 1 ≤ room.height) :
    GridEvolve WRooms g (place_rooms_in_dungeon g rooms tier_weights loot rng).1 ∧
      GridOK (place_rooms_in_dungeon g rooms tier_weights loot rng).1 := by
  unfold place_rooms_in_dungeon
  apply foldl_preserve
    (fun st : Grid × List RoomData × List LootEntry × Rng =>
      GridEvolve WRooms g st.1 ∧ GridOK st.1)
    (placeRoomStep tier_weights) rooms (g, [], loot, rng)
    ⟨gridEvolve_refl _ _, hg⟩
  intro s room hroom hs
  have hstep := placeRoomStep_evolve tier_weights s room hs.2 (hdims room hroom).1
    (hdims room hroom).2
  exact ⟨gridEvolve_trans wTrans_WRooms hs.1 hstep.1, hstep.2⟩

theorem dims_ge_one :
    ∀ d ∈ ROOM_DIMENSIONS_SMALL ++ ROOM_DIMENSIONS_MEDIUM ++ ROOM_DIMENSIONS_LARGE,
      (1 : Int) ≤ d.1 ∧ (1 : Int) ≤ d.2 := by decide

/-- All generated room blueprints have width and height at least 1 (their
dimensions come from the fixed dimension tables). -/
theorem generate_rooms_data_dims (rng : Rng) :
    ∀ room ∈ (generate_rooms_data rng).1, 1 ≤ room.width ∧ 1 ≤ room.height := by
  unfold generate_rooms_data
  dsimp only
  apply foldl_preserve
    (fun st : List RoomData × Rng => ∀ room ∈ st.1, 1 ≤ room.width ∧ 1 ≤ room.height)
  · simp
  intro s i _ hs
  dsimp only
  intro room hroom
  rcases List.mem_append.1 hroom with hmem | hmem
  · exact hs room hmem
  · rw [List.mem_singleton] at hmem
    subst hmem
    dsimp only
    split
    · exact dims_ge_one _ (List.mem_append_left _ (List.mem_append_left _
        (randChoice_mem ((0 : Int), (0 : Int)) (by decide) (randPct s.2).2)))
    · split
      · exact dims_ge_one _ (List.mem_append_left _ (List.mem_append_right _
          (randChoice_mem ((0 : Int), (0 : Int)) (by decide) (randPct s.2).2)))
      · exact dims_ge_one _ (List.mem_append_right _
          (randChoice_mem ((0 : Int), (0 : Int)) (by decide) (randPct s.2).2))

-- --- FRAME: non-interior cells never change ---

/-- A `W`-evolution whose writes are all interior leaves every
non-interior cell untouched. -/
theorem gridEvolve_frame {W : Int → Int → Cell → Cell → Prop}
    (hW : ∀ r c a b, W r c a b → interiorCell r c) {g g' : Grid}
    (he : GridEvolve W g g') {r c : Int} (h : ¬ interiorCell r c) :
    getCell g' r c = getCell g r c := by
  rcases he r c with heq | hw
  · exact heq
  · exact absurd (hW _ _ _ _ hw) h

theorem gridOK_pipelineAfterPlacement (rng : Rng) :
    GridOK (pipelineAfterPlacement rng).grid := by
  unfold pipelineAfterPlacement
  dsimp only
  exact (place_rooms_evolve _ _ GEAR_TIER_WEIGHTS [] _
    (gridOK_init_inner gridOK_box) (generate_rooms_data_dims rng)).2

theorem frame_pipelineAfterPlacement (rng : Rng) {r c : Int}
    (h : ¬ interiorCell r c) :
    getCell (pipelineAfterPlacement rng).grid r c =
      getCell (generate_initial_box_dungeon GRID_ROWS GRID_COLUMNS) r c := by
  unfold pipelineAfterPlacement
  dsimp only
  rw [gridEvolve_frame (fun _ _ _ _ hw => hw.1)
      ((place_rooms_evolve _ _ GEAR_TIER_WEIGHTS [] _
        (gridOK_init_inner gridOK_box) (generate_rooms_data_dims rng)).1) h,
    gridEvolve_frame (fun _ _ _ _ hw => hw.1) (init_inner_grid_evolve gridOK_box) h]

theorem gridOK_pipelineAfterConnect (rng : Rng) :
    GridOK (pipelineAfterConnect rng).grid := by
  unfold pipelineAfterConnect
  dsimp only
  exact gridOK_connect _ _ (gridOK_pipelineAfterPlacement rng)

theorem frame_pipelineAfterConnect (rng : Rng) {r c : Int}
    (h : ¬ interiorCell r c) :
    getCell (pipelineAfterConnect rng).grid r c =
      getCell (pipelineAfterPlacement rng).grid r c := by
  unfold pipelineAfterConnect
  dsimp only
  exact gridEvolve_frame (fun _ _ _ _ hw => hw.1)
    (connect_rooms_evolve (pipelineAfterPlacement rng).grid
      (pipelineAfterPlacement rng).rooms) h

theorem gridOK_pipelineAfterHallways (rng : Rng) :
    GridOK (pipelineAfterHallways rng).grid := by
  unfold pipelineAfterHallways
  dsimp only
  exact gridOK_hallways _ _ (gridOK_pipelineAfterConnect rng)

theorem frame_pipelineAfterHallways (rng : Rng) {r c : Int}
    (h : ¬ interiorCell r c) :
    getCell (pipelineAfterHallways rng).grid r c =
      getCell (pipelineAfterConnect rng).grid r c := by
  unfold pipelineAfterHallways
  dsimp only
  exact gridEvolve_frame (fun _ _ _ _ hw => hw.1)
    (hallways_evolve _ _ (gridOK_pipelineAfterConnect rng)) h

theorem gridOK_pipelineAfterSpawners (rng : Rng) :
    GridOK (pipelineAfterSpawners rng).grid := by
  unfold pipelineAfterSpawners
  dsimp only
  exact gridOK_place_enemy_spawners _ _ _ (gridOK_pipelineAfterHallways rng)

theorem frame_pipelineAfterSpawners (rng : Rng) {r c : Int}
    (h : ¬ interiorCell r c) :
    getCell (pipelineAfterSpawners rng).grid r c =
      getCell (pipelineAfterHallways rng).grid r c := by
  unfold pipelineAfterSpawners
  dsimp only
  exact gridEvolve_frame (fun _ _ _ _ hw => hw.1)
    (place_enemy_spawners_evolve _ _ _ (gridOK_pipelineAfterHallways rng)) h

theorem gridOK_pipelineAfterOutsideLoot (rng : Rng) :
    GridOK (pipelineAfterOutsideLoot rng).grid := by
  unfold pipelineAfterOutsideLoot
  dsimp only
  exact gridOK_place_outside_loot _ _ _ _ (gridOK_pipelineAfterSpawners rng)

theorem frame_pipelineAfterOutsideLoot (rng : Rng) {r c : Int}
    (h : ¬ interiorCell r c) :
    getCell (pipelineAfterOutsideLoot rng).grid r c =
      getCell (pipelineAfterSpawners rng).grid r c := by
  unfold pipelineAfterOutsideLoot
  dsimp only
  exact gridEvolve_frame (fun _ _ _ _ hw => hw.1)
    (place_outside_loot_evolve _ _ _ _ (gridOK_pipelineAfterSpawners rng)) h

theorem gridOK_final (rng : Rng) : GridOK (generate_dungeon_and_loot rng).grid := by
  unfold generate_dungeon_and_loot
  dsimp only
  exact gridOK_stray_chest _ _ _ _ (gridOK_pipelineAfterOutsideLoot rng)

theorem frame_final (rng : Rng) {r c : Int} (h : ¬ interiorCell r c) :
    getCell (generate_dungeon_and_loot rng).grid r c =
      getCell (pipelineAfterOutsideLoot rng).grid r c := by
  unfold generate_dungeon_and_loot
  dsimp only
  exact gridEvolve_frame (fun _ _ _ _ hw => hw.1)
    (stray_chest_evolve _ _ _ _ (gridOK_pipelineAfterOutsideLoot rng)) h

/-- C8: every stage after the initial box writes only to interior cells;
every boundary-ring cell of every stage's grid still holds the tile that
`generate_initial_box_dungeon` assigned to it. -/
theorem claim_C8_boundary_frame (rng : Rng) (r c : Int)
    (h : ¬ interiorCell r c) :
    getCell (pipelineAfterPlacement rng).grid r c =
        getCell (generate_initial_box_dungeon GRID_ROWS GRID_COLUMNS) r c ∧
      getCell (pipelineAfterConnect rng).grid r c =
        getCell (pipelineAfterPlacement rng).grid r c ∧
      getCell (pipelineAfterHallways rng).grid r c =
        getCell (pipelineAfterConnect rng).grid r c ∧
      getCell (pipelineAfterSpawners rng).grid r c =
        getCell (pipelineAfterHallways rng).grid r c ∧
      getCell (pipelineAfterOutsideLoot rng).grid r c =
        getCell (pipelineAfterSpawners rng).grid r c ∧
      getCell (generate_dungeon_and_loot rng).grid r c =
        getCell (generate_initial_box_dungeon GRID_ROWS GRID_COLUMNS) r c :=
  ⟨frame_pipelineAfterPlacement rng h, frame_pipelineAfterConnect rng h,
    frame_pipelineAfterHallways rng h, frame_pipelineAfterSpawners rng h,
    frame_pipelineAfterOutsideLoot rng h,
    ((frame_final rng h).trans (frame_pipelineAfterOutsideLoot rng h)).trans
      ((((frame_pipelineAfterSpawners rng h).trans
        (frame_pipelineAfterHallways rng h)).trans
        (frame_pipelineAfterConnect rng h)).trans
        (frame_pipelineAfterPlacement rng h))⟩

theorem claim_C8_boundary_frame_witness :
    ¬ interiorCell 0 5 ∧
      (getCell (pipelineAfterPlacement []).grid 0 5 =
          getCell (generate_initial_box_dungeon GRID_ROWS GRID_COLUMNS) 0 5 ∧
        getCell (pipelineAfterConnect []).grid 0 5 =
          getCell (pipelineAfterPlacement []).grid 0 5 ∧
        getCell (pipelineAfterHallways []).grid 0 5 =
          getCell (pipelineAfterConnect []).grid 0 5 ∧
        getCell (pipelineAfterSpawners []).grid 0 5 =
          getCell (pipelineAfterHallways []).grid 0 5 ∧
        getCell (pipelineAfterOutsideLoot []).grid 0 5 =
          getCell (pipelineAfterSpawners []).grid 0 5 ∧
        getCell (generate_dungeon_and_loot []).grid 0 5 =
          getCell (generate_initial_box_dungeon GRID_ROWS GRID_COLUMNS) 0 5) :=
  ⟨by unfold interiorCell; decide, claim_C8_boundary_frame [] 0 5 (by unfold interiorCell; decide)⟩

-- --- C1: all transient maze markers are resolved away ---

/-- Boolean classifier for string cells. -/
def isStrB : Cell → Bool
  | .str _ => true
  | .num _ => false

theorem isStrB_iff {x : Cell} : isStrB x = true ↔ isStrCell x := by
  cases x <;> simp [isStrB, isStrCell]

/-- A pipeline cell value before resolution: a string tile or one of the
two transient maze ids. -/
def CellOK (x : Cell) : Prop :=
  isStrCell x ∨ x = .num MAZE_WALL ∨ x = .num MAZE_PASSAGE

/-- Every cell value of the grid (junk reads included) is `CellOK`. -/
def GridCells (g : Grid) : Prop := ∀ r c, CellOK (getCell g r c)

theorem gridCells_evolve {W : Int → Int → Cell → Cell → Prop}
    (hW : ∀ r c a b, W r c a b → CellOK b) {g g' : Grid}
    (he : GridEvolve W g g') (hc : GridCells g) : GridCells g' := by
  intro r c
  rcases he r c with heq | hw
  · rw [heq]
    exact hc r c
  · exact hW _ _ _ _ hw

theorem strPreserve {W : Int → Int → Cell → Cell → Prop}
    (hW : ∀ r c a b, W r c a b → isStrCell b) {g g' : Grid}
    (he : GridEvolve W g g') (h : ∀ r c, isStrCell (getCell g r c)) :
    ∀ r c, isStrCell (getCell g' r c) := by
  intro r c
  rcases he r c with heq | hw
  · rw [heq]
    exact h r c
  · exact hW _ _ _ _ hw

/-- A `getCell` read is either a member of some row or the junk value. -/
theorem getCell_mem_or_junk (g : Grid) (r c : Int) :
    (∃ row ∈ g, getCell g r c ∈ row) ∨ getCell g r c = .str "" := by
  unfold getCell
  split
  case isTrue h =>
    by_cases hr : r.toNat < g.length
    · have hrow : g.getD r.toNat [] = g.get ⟨r.toNat, hr⟩ := by
        simp [List.getD_eq_getElem?_getD, List.getElem?_eq_getElem hr]
      by_cases hc2 : c.toNat < (g.get ⟨r.toNat, hr⟩).length
      · left
        refine ⟨g.get ⟨r.toNat, hr⟩, List.get_mem g r.toNat hr, ?_⟩
        rw [hrow]
        have : (g.get ⟨r.toNat, hr⟩).getD c.toNat (.str "") =
            (g.get ⟨r.toNat, hr⟩).get ⟨c.toNat, hc2⟩ := by
          simp only [List.getD_eq_getElem?_getD, List.get_eq_getElem]
          rw [List.getElem?_eq_getElem (l := g[r.toNat]) (by exact hc2)]
          rfl
        rw [this]
        exact List.get_mem _ c.toNat hc2
      · right
        rw [hrow]
        rw [List.getD_eq_getElem?_getD, List.getElem?_eq_none (by omega),
          Option.getD_none]
    · right
      have hrow : g.getD r.toNat [] = [] := by
        rw [List.getD_eq_getElem?_getD, List.getElem?_eq_none (by omega),
          Option.getD_none]
      rw [hrow]
      rfl
  case isFalse => exact Or.inr rfl

theorem box_all_strB :
    (generate_initial_box_dungeon GRID_ROWS GRID_COLUMNS).all
      (fun row => row.all isStrB) = true := by decide

theorem box_all_str (r c : Int) :
    isStrCell (getCell (generate_initial_box_dungeon GRID_ROWS GRID_COLUMNS) r c) := by
  rcases getCell_mem_or_junk (generate_initial_box_dungeon GRID_ROWS GRID_COLUMNS) r c
    with ⟨row, hrow, hx⟩ | hj
  · exact isStrB_iff.1 (List.all_eq_true.1 (List.all_eq_true.1 box_all_strB row hrow) _ hx)
  · exact ⟨"", hj⟩

theorem gridCells_pipelineAfterConnect (rng : Rng) :
    GridCells (pipelineAfterConnect rng).grid := by
  have hbox : GridCells (generate_initial_box_dungeon GRID_ROWS GRID_COLUMNS) :=
    fun r c => Or.inl (box_all_str r c)
  have h1 : GridCells (init_inner_grid (generate_initial_box_dungeon GRID_ROWS GRID_COLUMNS)) :=
    gridCells_evolve (fun _ _ _ _ hw => Or.inr (Or.inl hw.2))
      (init_inner_grid_evolve gridOK_box) hbox
  have h2 : GridCells (pipelineAfterPlacement rng).grid := by
    unfold pipelineAfterPlacement
    dsimp only
    exact gridCells_evolve (fun _ _ _ _ hw => Or.inl hw.2)
      ((place_rooms_evolve _ _ GEAR_TIER_WEIGHTS [] _
        (gridOK_init_inner gridOK_box) (generate_rooms_data_dims rng)).1) h1
  unfold pipelineAfterConnect
  dsimp only
  exact gridCells_evolve (fun _ _ _ _ hw => Or.inr (Or.inr hw.2.2))
    (connect_rooms_evolve _ _) h2

theorem gridOK_resolveMazeCell (rows cols : Int) {g : Grid} (hg : GridOK g)
    (rc : Int × Int) : GridOK (resolveMazeCell rows cols g rc) := by
  unfold resolveMazeCell
  dsimp only
  split
  · exact hg
  · split
    · exact gridRect_setCell hg _ _ _
    · split
      · split
        · exact gridRect_setCell hg _ _ _
        · split
          · exact gridRect_setCell hg _ _ _
          · exact gridRect_setCell hg _ _ _
      · exact hg

/-- Resolving a `CellOK` in-bounds cell leaves a string tile there. -/
theorem resolveMazeCell_str (rows cols : Int) {g : Grid} (hg : GridOK g)
    {r c : Int} (hcell : CellOK (getCell g r c))
    (hr : 0 ≤ r ∧ r < (GRID_ROWS : Int)) (hc : 0 ≤ c ∧ c < (GRID_COLUMNS : Int)) :
    isStrCell (getCell (resolveMazeCell rows cols g (r, c)) r c) := by
  unfold resolveMazeCell
  dsimp only
  split
  case h_1 x heq => exact ⟨x, heq⟩
  case h_2 n heq =>
    split
    · exact ⟨TILE_OPEN_SPACE, getCell_setCell_self_ok hg hr hc⟩
    case isFalse h1 =>
      split
      case isTrue h0 =>
        split
        · exact ⟨TILE_HALLWAY_VERT, getCell_setCell_self_ok hg hr hc⟩
        · split
          · exact ⟨TILE_HALLWAY_HORZ, getCell_setCell_self_ok hg hr hc⟩
          · exact ⟨TILE_OPEN_SPACE, getCell_setCell_self_ok hg hr hc⟩
      case isFalse h0 =>
        rcases hcell with ⟨t, ht⟩ | hw | hp
        · rw [heq] at ht
          cases ht
        · rw [heq] at hw
          exact absurd (Cell.num.inj hw) h0
        · rw [heq] at hp
          exact absurd (Cell.num.inj hp) h1

/-- Resolving one cell never touches a different cell. -/
theorem resolveMazeCell_ne (rows cols : Int) (g : Grid) (x y : Int × Int)
    (hne : x ≠ y) :
    getCell (resolveMazeCell rows cols g x) y.1 y.2 = getCell g y.1 y.2 := by
  have hd : y.1 ≠ x.1 ∨ y.2 ≠ x.2 := by
    by_cases h1 : y.1 = x.1
    · right
      intro h2
      exact hne (Prod.ext h1.symm h2.symm)
    · exact Or.inl h1
  unfold resolveMazeCell
  dsimp only
  split
  · rfl
  · split
    · exact getCell_setCell_ne hd
    · split
      · split
        · exact getCell_setCell_ne hd
        · split
          · exact getCell_setCell_ne hd
          · exact getCell_setCell_ne hd
      · rfl

/-- After the resolution pass, every visited interior cell holds a string
tile. -/
theorem resolvePass_str (rows cols : Int) (ps : List (Int × Int)) (g : Grid)
    (hnd : ps.Nodup) (hg : GridOK g) (hcells : GridCells g)
    (hbound : ∀ p ∈ ps, interiorCell p.1 p.2) :
    ∀ y ∈ ps, isStrCell (getCell (ps.foldl (resolveMazeCell rows cols) g) y.1 y.2) := by
  refine foldl_establish (fun s => GridOK s ∧ GridCells s)
    (fun s p => isStrCell (getCell s p.1 p.2)) (resolveMazeCell rows cols) ps g hnd
    ⟨hg, hcells⟩ ?_ ?_ ?_
  · intro s x hx hs
    refine ⟨gridOK_resolveMazeCell rows cols hs.1 x, ?_⟩
    refine gridCells_evolve ?_ (resolveMazeCell_evolve rows cols s x (hbound x hx)) hs.2
    intro r c a b hw
    rcases hw.2.2 with h' | h' | h' <;> exact Or.inl ⟨_, h'⟩
  · intro s x hx hs
    obtain ⟨x1, x2⟩ := x
    have hb := hbound _ hx
    unfold interiorCell at hb
    exact resolveMazeCell_str rows cols hs.1 (hs.2 x1 x2)
      ⟨by omega, by omega⟩ ⟨by omega, by omega⟩
  · intro s x y hx hne hs hp
    rw [resolveMazeCell_ne rows cols s x y hne]
    exact hp

/-- After `generate_hallways_in_remaining_space`, every interior cell
holds a string tile (the resolution pass visits each one). -/
theorem hallways_all_str (g : Grid) (rng : Rng) (hg : GridOK g)
    (hcells : GridCells g) :
    ∀ r c : Int, interiorCell r c →
      isStrCell (getCell (generate_hallways_in_remaining_space g rng).1 r c) := by
  intro r c hin
  have hps : (r, c) ∈ prodRange (intRange 1 ((g.length : Int) - 1))
      (intRange 1 (((g.getD 0 []).length : Int) - 1)) := by
    refine mem_prodRange.2 ⟨mem_intRange.2 ⟨hin.1, ?_⟩, mem_intRange.2 ⟨hin.2.2.1, ?_⟩⟩
    · rw [gridOK_rows hg]
      exact hin.2.1
    · rw [gridOK_cols hg]
      exact hin.2.2.2
  have hball : ∀ p ∈ prodRange (intRange 1 ((g.length : Int) - 1))
      (intRange 1 (((g.getD 0 []).length : Int) - 1)), interiorCell p.1 p.2 := by
    intro p hp
    have h1 := mem_intRange.1 (mem_prodRange.1 hp).1
    have h2 := mem_intRange.1 (mem_prodRange.1 hp).2
    rw [gridOK_rows hg] at h1
    rw [gridOK_cols hg] at h2
    exact ⟨h1.1, h1.2, h2.1, h2.2⟩
  have hnd : (prodRange (intRange 1 ((g.length : Int) - 1))
      (intRange 1 (((g.getD 0 []).length : Int) - 1))).Nodup :=
    nodup_prodRange nodup_intRange nodup_intRange
  unfold generate_hallways_in_remaining_space
  dsimp only
  split
  case isTrue =>
    exact resolvePass_str _ _ _ g hnd hg hcells hball (r, c) hps
  case isFalse hne =>
    rcases hch : randChoice (-1, -1)
      ((prodRange (intRange2 1 ((g.length : Int) - 1))
        (intRange2 1 (((g.getD 0 []).length : Int) - 1))).filter
        (fun rc => decide (getCell g rc.1 rc.2 = .num MAZE_WALL))) rng
      with ⟨st, rng1⟩
    dsimp only
    rcases hmz : recursive_backtracking_maze_generator
      (g.length * (g.getD 0 []).length + 1) g st.1 st.2 rng1 with ⟨g2, rng2⟩
    dsimp only
    have hstin : interiorCell st.1 st.2 := by
      have hstmem : st ∈ (prodRange (intRange2 1 ((g.length : Int) - 1))
          (intRange2 1 (((g.getD 0 []).length : Int) - 1))).filter
          (fun rc => decide (getCell g rc.1 rc.2 = .num MAZE_WALL)) := by
        have := randChoice_mem (-1, -1) hne rng
        rw [hch] at this
        exact this
      have hmem := List.mem_of_mem_filter hstmem
      have h1 := mem_intRange2_bounds (mem_prodRange.1 hmem).1
      have h2 := mem_intRange2_bounds (mem_prodRange.1 hmem).2
      rw [gridOK_rows hg] at h1
      rw [gridOK_cols hg] at h2
      exact ⟨h1.1, by omega, h2.1, by omega⟩
    have hg2 : GridOK g2 := by
      have := gridOK_maze (g.length * (g.getD 0 []).length + 1) g st.1 st.2 rng1 hg
      rw [hmz] at this
      exact this
    have hc2 : GridCells g2 := by
      have hevo := maze_evolve (g.length * (g.getD 0 []).length + 1) g st.1 st.2 rng1 hstin
      rw [hmz] at hevo
      exact gridCells_evolve (fun _ _ _ _ hw => Or.inr (Or.inr hw.2)) hevo hcells
    exact resolvePass_str _ _ _ g2 hnd hg2 hc2 hball (r, c) hps

/-- From the hallway stage on, every cell of the pipeline grid (junk reads
included) holds a string tile. -/
theorem allStr_pipelineAfterHallways (rng : Rng) :
    ∀ r c : Int, isStrCell (getCell (pipelineAfterHallways rng).grid r c) := by
  intro r c
  by_cases hin : interiorCell r c
  · unfold pipelineAfterHallways
    dsimp only
    exact hallways_all_str _ _ (gridOK_pipelineAfterConnect rng)
      (gridCells_pipelineAfterConnect rng) r c hin
  · rw [frame_pipelineAfterHallways rng hin, frame_pipelineAfterConnect rng hin,
      frame_pipelineAfterPlacement rng hin]
    exact box_all_str r c

theorem allStr_final (rng : Rng) :
    ∀ r c : Int, isStrCell (getCell (generate_dungeon_and_loot rng).grid r c) := by
  have h1 : ∀ r c : Int, isStrCell (getCell (pipelineAfterSpawners rng).grid r c) := by
    unfold pipelineAfterSpawners
    dsimp only
    exact strPreserve (fun _ _ _ _ hw => by
        rcases hw.2.2 with h' | h' | h' | h' <;> exact ⟨_, h'⟩)
      (place_enemy_spawners_evolve _ _ _ (gridOK_pipelineAfterHallways rng))
      (allStr_pipelineAfterHallways rng)
  have h2 : ∀ r c : Int, isStrCell (getCell (pipelineAfterOutsideLoot rng).grid r c) := by
    unfold pipelineAfterOutsideLoot
    dsimp only
    exact strPreserve (fun _ _ _ _ hw => by
        rcases hw.2.2 with h' | h' | h' | h' <;> exact ⟨_, h'⟩)
      (place_outside_loot_evolve _ _ _ _ (gridOK_pipelineAfterSpawners rng)) h1
  unfold generate_dungeon_and_loot
  dsimp only
  exact strPreserve (fun _ _ _ _ hw => by
      rcases hw.2.2 with h' | h' | h' | h' <;> exact ⟨_, h'⟩)
    (stray_chest_evolve _ _ _ _ (gridOK_pipelineAfterOutsideLoot rng)) h2

/-- In-bounds `getCell` reads are grid entries. -/
theorem getCell_of_getElem {g : Grid} {i j : Nat} (hi : i < g.length)
    (hj : j < (g.get ⟨i, hi⟩).length) :
    getCell g (i : Int) (j : Int) = (g.get ⟨i, hi⟩).get ⟨j, hj⟩ := by
  unfold getCell
  rw [if_pos ⟨Int.natCast_nonneg i, Int.natCast_nonneg j⟩]
  simp only [Int.toNat_natCast]
  have h1 : List.getD g i [] = g.get ⟨i, hi⟩ := by
    rw [List.getD_eq_getElem?_getD, List.getElem?_eq_getElem hi, Option.getD_some,
      List.get_eq_getElem]
  rw [h1, List.getD_eq_getElem?_getD, List.getElem?_eq_getElem hj, Option.getD_some]
  simp [List.get_eq_getElem]

/-- C1: after the full generation pipeline completes, every cell of the
grid holds a terminal string tile variant; no cell holds the transient
maze markers `Unvisited` (`MAZE_WALL = 0`) or `Carved`
(`MAZE_PASSAGE = 1`). -/
theorem claim_C1_no_transient_markers (rng : Rng) :
    ∀ row ∈ (generate_dungeon_and_loot rng).grid, ∀ x ∈ row,
      isStrCell x ∧ x ≠ .num MAZE_WALL ∧ x ≠ .num MAZE_PASSAGE := by
  intro row hrow x hx
  obtain ⟨i, hi, hrow_eq⟩ := List.getElem_of_mem hrow
  subst hrow_eq
  obtain ⟨j, hj, hx_eq⟩ := List.getElem_of_mem hx
  subst hx_eq
  have hstr : isStrCell
      (((generate_dungeon_and_loot rng).grid.get ⟨i, hi⟩).get ⟨j, hj⟩) := by
    rw [← getCell_of_getElem hi hj]
    exact allStr_final rng i j
  obtain ⟨s, hs⟩ := hstr
  have hs2 : (generate_dungeon_and_loot rng).grid[i][j] = Cell.str s := hs
  rw [hs2]
  exact ⟨⟨s, rfl⟩, by simp, by simp⟩

theorem claim_C1_no_transient_markers_witness :
    ((generate_dungeon_and_loot []).grid.getD 0 []) ∈ (generate_dungeon_and_loot []).grid ∧
      (Cell.str TILE_CORNER_TL) ∈ ((generate_dungeon_and_loot []).grid.getD 0 []) ∧
      (isStrCell (Cell.str TILE_CORNER_TL) ∧
        (Cell.str TILE_CORNER_TL) ≠ .num MAZE_WALL ∧
        (Cell.str TILE_CORNER_TL) ≠ .num MAZE_PASSAGE) :=
  ⟨by decide, by decide,
    claim_C1_no_transient_markers []
      ((generate_dungeon_and_loot []).grid.getD 0 []) (by decide)
      (Cell.str TILE_CORNER_TL) (by decide)⟩

-- --- C3: room exits and the room-to-hallway connector ---

theorem intRange_empty {a b : Int} (h : b ≤ a) : intRange a b = [] := by
  unfold intRange
  have h0 : (b - a).toNat = 0 := by omega
  rw [h0]
  rfl

/-- A 2×2 room has no non-corner border cells at all, so its exit pool is
empty and `carve_small_room` can carve no exit for it. -/
theorem roomWallTiles_2x2 (start_r start_c : Int) :
    roomWallTiles start_r start_c 2 2 = [] := by
  unfold roomWallTiles
  dsimp only
  rw [intRange_empty (by omega), intRange_empty (by omega)]
  rfl

/-- C3 counterexample: with the all-zeros oracle, room 0 is placed as a
2×2 room at (1,1) and, after connection, maze generation and resolution,
not one cell of its rectangle is `OpenFloor` — the room has no exit cell
at all, reachable or not. -/
theorem claim_C3_counterexample :
    (pipelineAfterHallways []).rooms.getD 0 ⟨0, "", 0, 0, 0, false, 0, 0⟩ =
      ⟨0, "Small", 2, 2, 1, true, 1, 1⟩ ∧
    (prodRange (intRange 1 3) (intRange 1 3)).all
      (fun rc => decide
        (getCell (pipelineAfterHallways []).grid rc.1 rc.2 ≠ .str TILE_OPEN_SPACE))
      = true := by
  constructor
  · decide
  · decide

/-- The probe offset `connect_rooms_to_hallways` uses for a border cell
(the source's if/elif chain: top edge first, then bottom, left, right). -/
def connectDir (start_r start_c end_r end_c r c : Int) : Int × Int :=
  if r = start_r then (-1, 0)
  else if r = end_r then (1, 0)
  else if c = start_c then (0, -1)
  else if c = end_c then (0, 1)
  else (0, 0)

/-- C3 amended: 2×2 rooms have an empty exit pool (and so never receive an
exit), while the connector step itself is local and exact: when
`connect_rooms_to_hallways` visits a border cell of a placed room that
holds an exit-passable tile, probes the adjacent cell in the direction the
source's if/elif chain selects (up, down, left or right), and finds an
in-interior `Unvisited` cell (`MAZE_WALL`), it converts exactly that cell
to `Carved` (`MAZE_PASSAGE`) and leaves every other cell of the grid
unchanged. -/
theorem claim_C3_connector (start_r start_c end_r end_c r c : Int) (g : Grid)
    (hg : GridOK g)
    (hex : getCell g r c ∈ connectExitTiles)
    (hborder : r = start_r ∨ r = end_r ∨ c = start_c ∨ c = end_c)
    (hbnd : 1 ≤ r + (connectDir start_r start_c end_r end_c r c).1 ∧
      r + (connectDir start_r start_c end_r end_c r c).1 < (GRID_ROWS : Int) - 1 ∧
      1 ≤ c + (connectDir start_r start_c end_r end_c r c).2 ∧
      c + (connectDir start_r start_c end_r end_c r c).2 < (GRID_COLUMNS : Int) - 1)
    (hwall : getCell g (r + (connectDir start_r start_c end_r end_c r c).1)
      (c + (connectDir start_r start_c end_r end_c r c).2) = .num MAZE_WALL) :
    getCell (connectCell start_r start_c end_r end_c g (r, c))
        (r + (connectDir start_r start_c end_r end_c r c).1)
        (c + (connectDir start_r start_c end_r end_c r c).2) = .num MAZE_PASSAGE ∧
    ∀ r' c' : Int,
      r' ≠ r + (connectDir start_r start_c end_r end_c r c).1 ∨
        c' ≠ c + (connectDir start_r start_c end_r end_c r c).2 →
      getCell (connectCell start_r start_c end_r end_c g (r, c)) r' c' =
        getCell g r' c' := by
  unfold connectDir at hbnd hwall ⊢
  unfold connectCell
  dsimp only
  rw [if_pos ⟨hex, hborder⟩]
  by_cases h1 : r = start_r
  · simp only [if_pos h1] at hbnd hwall ⊢
    rw [if_pos hbnd, if_pos hwall]
    refine ⟨getCell_setCell_self_ok hg ⟨by omega, by omega⟩ ⟨by omega, by omega⟩, ?_⟩
    intro r' c' hne
    exact getCell_setCell_ne hne
  · by_cases h2 : r = end_r
    · simp only [if_neg h1, if_pos h2] at hbnd hwall ⊢
      rw [if_pos hbnd, if_pos hwall]
      refine ⟨getCell_setCell_self_ok hg ⟨by omega, by omega⟩ ⟨by omega, by omega⟩, ?_⟩
      intro r' c' hne
      exact getCell_setCell_ne hne
    · by_cases h3 : c = start_c
      · simp only [if_neg h1, if_neg h2, if_pos h3] at hbnd hwall ⊢
        rw [if_pos hbnd, if_pos hwall]
        refine ⟨getCell_setCell_self_ok hg ⟨by omega, by omega⟩ ⟨by omega, by omega⟩, ?_⟩
        intro r' c' hne
        exact getCell_setCell_ne hne
      · by_cases h4 : c = end_c
        · simp only [if_neg h1, if_neg h2, if_neg h3, if_pos h4] at hbnd hwall ⊢
          rw [if_pos hbnd, if_pos hwall]
          refine ⟨getCell_setCell_self_ok hg ⟨by omega, by omega⟩
            ⟨by omega, by omega⟩, ?_⟩
          intro r' c' hne
          exact getCell_setCell_ne hne
        · exfalso
          rcases hborder with h | h | h | h
          · exact h1 h
          · exact h2 h
          · exact h3 h
          · exact h4 h

/-- The concrete grid of the C3 amended witness: the freshly initialised
dungeon with one exit-like `OpenFloor` cell at (2,3). -/
def w3grid : Grid :=
  setCell (init_inner_grid (generate_initial_box_dungeon GRID_ROWS GRID_COLUMNS))
    2 3 (.str TILE_OPEN_SPACE)

theorem claim_C3_connector_witness :
    GridOK w3grid ∧ getCell w3grid 2 3 ∈ connectExitTiles ∧
      ((2 : Int) = 2 ∨ (2 : Int) = 3 ∨ (3 : Int) = 3 ∨ (3 : Int) = 4) ∧
      (1 ≤ 2 + (connectDir 2 3 3 4 2 3).1 ∧
        2 + (connectDir 2 3 3 4 2 3).1 < (GRID_ROWS : Int) - 1 ∧
        1 ≤ 3 + (connectDir 2 3 3 4 2 3).2 ∧
        3 + (connectDir 2 3 3 4 2 3).2 < (GRID_COLUMNS : Int) - 1) ∧
      getCell w3grid (2 + (connectDir 2 3 3 4 2 3).1)
        (3 + (connectDir 2 3 3 4 2 3).2) = .num MAZE_WALL ∧
      (getCell (connectCell 2 3 3 4 w3grid (2, 3))
          (2 + (connectDir 2 3 3 4 2 3).1)
          (3 + (connectDir 2 3 3 4 2 3).2) = .num MAZE_PASSAGE ∧
        ∀ r' c' : Int,
          r' ≠ 2 + (connectDir 2 3 3 4 2 3).1 ∨ c' ≠ 3 + (connectDir 2 3 3 4 2 3).2 →
          getCell (connectCell 2 3 3 4 w3grid (2, 3)) r' c' = getCell w3grid r' c') := by
  refine ⟨⟨by decide, by decide⟩, by decide, by decide, by decide, by decide, ?_⟩
  exact claim_C3_connector 2 3 3 4 2 3 w3grid ⟨by decide, by decide⟩
    (by decide) (by decide) (by decide) (by decide)

-- --- ROOM BORDER ANATOMY AND POINTWISE FRAMES ---

theorem gridEvolve_point_frame {W : Int → Int → Cell → Cell → Prop} {g g' : Grid}
    (he : GridEvolve W g g') {r c : Int} (h : ∀ a b, ¬ W r c a b) :
    getCell g' r c = getCell g r c := by
  rcases he r c with heq | hw
  · exact heq
  · exact absurd hw (h _ _)

theorem gridEvolve_point_frame_old {W : Int → Int → Cell → Cell → Prop} {g g' : Grid}
    (he : GridEvolve W g g') {r c : Int}
    (h : ∀ b, ¬ W r c (getCell g r c) b) :
    getCell g' r c = getCell g r c := by
  rcases he r c with heq | hw
  · exact heq
  · exact absurd hw (h _)

theorem mem_roomWallTiles_border {start_r start_c width height : Int} {y : Int × Int}
    (h : y ∈ roomWallTiles start_r start_c width height) :
    y.1 = start_r ∨ y.1 = start_r + height - 1 ∨
      y.2 = start_c ∨ y.2 = start_c + width - 1 := by
  unfold roomWallTiles at h
  dsimp only at h
  rcases List.mem_append.1 h with h' | h'
  · obtain ⟨cz, _, hy⟩ := List.mem_flatMap.1 h'
    simp only [List.mem_cons, List.mem_singleton, List.not_mem_nil, or_false] at hy
    rcases hy with hy | hy
    · rw [hy]
      exact Or.inl rfl
    · rw [hy]
      exact Or.inr (Or.inl rfl)
  · obtain ⟨rz, _, hy⟩ := List.mem_flatMap.1 h'
    simp only [List.mem_cons, List.mem_singleton, List.not_mem_nil, or_false] at hy
    rcases hy with hy | hy
    · rw [hy]
      exact Or.inr (Or.inr (Or.inl rfl))
    · rw [hy]
      exact Or.inr (Or.inr (Or.inr rfl))

theorem nodup_roomWallTiles {start_r start_c width height : Int}
    (hw : 2 ≤ width) (hh : 2 ≤ height) :
    (roomWallTiles start_r start_c width height).Nodup := by
  unfold roomWallTiles
  dsimp only
  refine List.Nodup.append ?_ ?_ ?_
  · refine List.nodup_flatMap.2 ⟨?_, ?_⟩
    · intro c _
      refine List.nodup_cons.2 ⟨?_, List.nodup_singleton _⟩
      simp only [List.mem_singleton]
      intro hcon
      have := congrArg Prod.fst hcon
      dsimp at this
      omega
    · refine (nodup_intRange).imp ?_
      intro c1 c2 hne
      intro a h1 h2
      simp only [List.mem_cons, List.mem_singleton, List.not_mem_nil, or_false] at h1 h2
      have e1 : a.2 = c1 := by rcases h1 with h1 | h1 <;> rw [h1]
      have e2 : a.2 = c2 := by rcases h2 with h2 | h2 <;> rw [h2]
      exact hne (e1 ▸ e2)
  · refine List.nodup_flatMap.2 ⟨?_, ?_⟩
    · intro r _
      refine List.nodup_cons.2 ⟨?_, List.nodup_singleton _⟩
      simp only [List.mem_singleton]
      intro hcon
      have := congrArg Prod.snd hcon
      dsimp at this
      omega
    · refine (nodup_intRange).imp ?_
      intro r1 r2 hne
      intro a h1 h2
      simp only [List.mem_cons, List.mem_singleton, List.not_mem_nil, or_false] at h1 h2
      have e1 : a.1 = r1 := by rcases h1 with h1 | h1 <;> rw [h1]
      have e2 : a.1 = r2 := by rcases h2 with h2 | h2 <;> rw [h2]
      exact hne (e1 ▸ e2)
  · intro a ha hb
    obtain ⟨cz, hcz, hy⟩ := List.mem_flatMap.1 ha
    obtain ⟨rz, hrz, hy2⟩ := List.mem_flatMap.1 hb
    have hcz' := mem_intRange.1 hcz
    have hrz' := mem_intRange.1 hrz
    simp only [List.mem_cons, List.mem_singleton, List.not_mem_nil, or_false] at hy hy2
    have e2 : a.2 = cz := by rcases hy with h1 | h1 <;> rw [h1]
    have e2' : a.2 = start_c ∨ a.2 = start_c + width - 1 := by
      rcases hy2 with h1 | h1 <;> rw [h1]
      · exact Or.inl rfl
      · exact Or.inr rfl
    omega

theorem carvePerimeterCell_ne (start_r start_c end_r end_c : Int) (g : Grid)
    (x y : Int × Int) (hne : x ≠ y) :
    getCell (carvePerimeterCell start_r start_c end_r end_c g x) y.1 y.2 =
      getCell g y.1 y.2 := by
  have hd : y.1 ≠ x.1 ∨ y.2 ≠ x.2 := by
    by_cases h1 : y.1 = x.1
    · right
      intro h2
      exact hne (Prod.ext h1.symm h2.symm)
    · exact Or.inl h1
  unfold carvePerimeterCell
  dsimp only
  split
  · split
    · exact getCell_setCell_ne hd
    · split
      · exact getCell_setCell_ne hd
      · split
        · exact getCell_setCell_ne hd
        · exact getCell_setCell_ne hd
  · split
    · split
      · exact getCell_setCell_ne hd
      · split
        · exact getCell_setCell_ne hd
        · split
          · exact getCell_setCell_ne hd
          · exact getCell_setCell_ne hd
    · exact getCell_setCell_ne hd

theorem gridOK_carvePerimeterCell (start_r start_c end_r end_c : Int) {g : Grid}
    (hg : GridOK g) (x : Int × Int) :
    GridOK (carvePerimeterCell start_r start_c end_r end_c g x) := by
  unfold carvePerimeterCell
  dsimp only
  split
  · split
    · exact gridRect_setCell hg _ _ _
    · split
      · exact gridRect_setCell hg _ _ _
      · split
        · exact gridRect_setCell hg _ _ _
        · exact gridRect_setCell hg _ _ _
  · split
    · split
      · exact gridRect_setCell hg _ _ _
      · split
        · exact gridRect_setCell hg _ _ _
        · split
          · exact gridRect_setCell hg _ _ _
          · exact gridRect_setCell hg _ _ _
    · exact gridRect_setCell hg _ _ _

theorem carvePerimeterCell_ok (start_r start_c end_r end_c : Int) {g : Grid}
    (hg : GridOK g) {x : Int × Int}
    (hb : 0 ≤ x.1 ∧ x.1 < (GRID_ROWS : Int) ∧ 0 ≤ x.2 ∧ x.2 < (GRID_COLUMNS : Int)) :
    isStrCell (getCell (carvePerimeterCell start_r start_c end_r end_c g x) x.1 x.2) ∧
    ((x.1 = start_r ∨ x.1 = end_r ∨ x.2 = start_c ∨ x.2 = end_c) →
      getCell (carvePerimeterCell start_r start_c end_r end_c g x) x.1 x.2 ≠
        .str TILE_OPEN_SPACE) := by
  have hset : ∀ v : Cell,
      getCell (setCell g x.1 x.2 v) x.1 x.2 = v :=
    fun v => getCell_setCell_self_ok hg ⟨hb.1, hb.2.1⟩ ⟨hb.2.2.1, hb.2.2.2⟩
  unfold carvePerimeterCell
  dsimp only
  split
  case isTrue hcor =>
    split
    · rw [hset]
      exact ⟨⟨_, rfl⟩, fun _ => by simp [TILE_CORNER_TL, TILE_OPEN_SPACE]⟩
    · split
      · rw [hset]
        exact ⟨⟨_, rfl⟩, fun _ => by simp [TILE_CORNER_TR, TILE_OPEN_SPACE]⟩
      · split
        · rw [hset]
          exact ⟨⟨_, rfl⟩, fun _ => by simp [TILE_CORNER_BL, TILE_OPEN_SPACE]⟩
        · rw [hset]
          exact ⟨⟨_, rfl⟩, fun _ => by simp [TILE_CORNER_BR, TILE_OPEN_SPACE]⟩
  case isFalse hcor =>
    split
    case isTrue hbor =>
      split
      · rw [hset]
        exact ⟨⟨_, rfl⟩, fun _ => by simp [TILE_WALL_TOP, TILE_OPEN_SPACE]⟩
      · split
        · rw [hset]
          exact ⟨⟨_, rfl⟩, fun _ => by simp [TILE_WALL_BOTTOM, TILE_OPEN_SPACE]⟩
        · split
          · rw [hset]
            exact ⟨⟨_, rfl⟩, fun _ => by simp [TILE_WALL_LEFT, TILE_OPEN_SPACE]⟩
          · rw [hset]
            exact ⟨⟨_, rfl⟩, fun _ => by simp [TILE_WALL_RIGHT, TILE_OPEN_SPACE]⟩
    case isFalse hbor =>
      rw [hset]
      exact ⟨⟨_, rfl⟩, fun hcon => absurd hcon hbor⟩

/-- The perimeter double loop of `carve_small_room` leaves every rectangle
cell a string tile and every rectangle-edge cell a non-`OpenFloor` wall or
corner tile. -/
theorem carvePerimeter_ok (start_r start_c width height : Int) (g : Grid)
    (hg : GridOK g)
    (hb : 1 ≤ start_r ∧ 1 ≤ start_c ∧ start_r + height ≤ (GRID_ROWS : Int) - 1 ∧
      start_c + width ≤ (GRID_COLUMNS : Int) - 1) :
    GridOK ((prodRange (intRange start_r (start_r + height))
        (intRange start_c (start_c + width))).foldl
      (carvePerimeterCell start_r start_c (start_r + height - 1) (start_c + width - 1)) g) ∧
    ∀ y ∈ prodRange (intRange start_r (start_r + height))
        (intRange start_c (start_c + width)),
      isStrCell (getCell ((prodRange (intRange start_r (start_r + height))
          (intRange start_c (start_c + width))).foldl
        (carvePerimeterCell start_r start_c (start_r + height - 1)
          (start_c + width - 1)) g) y.1 y.2) ∧
      ((y.1 = start_r ∨ y.1 = start_r + height - 1 ∨
          y.2 = start_c ∨ y.2 = start_c + width - 1) →
        getCell ((prodRange (intRange start_r (start_r + height))
            (intRange start_c (start_c + width))).foldl
          (carvePerimeterCell start_r start_c (start_r + height - 1)
            (start_c + width - 1)) g) y.1 y.2 ≠ .str TILE_OPEN_SPACE) := by
  constructor
  · exact foldl_preserve (fun s => GridOK s) _ _ _ hg
      (fun s x _ hs => gridOK_carvePerimeterCell _ _ _ _ hs x)
  · refine foldl_establish (fun s => GridOK s)
      (fun s y => isStrCell (getCell s y.1 y.2) ∧
        ((y.1 = start_r ∨ y.1 = start_r + height - 1 ∨
            y.2 = start_c ∨ y.2 = start_c + width - 1) →
          getCell s y.1 y.2 ≠ .str TILE_OPEN_SPACE))
      (carvePerimeterCell start_r start_c (start_r + height - 1) (start_c + width - 1))
      _ g (nodup_prodRange nodup_intRange nodup_intRange) hg
      (fun s x _ hs => gridOK_carvePerimeterCell _ _ _ _ hs x) ?_ ?_
    · intro s x hx hs
      have h1 := mem_intRange.1 (mem_prodRange.1 hx).1
      have h2 := mem_intRange.1 (mem_prodRange.1 hx).2
      exact carvePerimeterCell_ok start_r start_c (start_r + height - 1)
        (start_c + width - 1) hs ⟨by omega, by omega, by omega, by omega⟩
    · intro s x y _ hne _ hp
      rw [carvePerimeterCell_ne start_r start_c (start_r + height - 1)
        (start_c + width - 1) s x y hne]
      exact hp

-- --- EXIT LOOP: frame and exact count ---

theorem exitLoop_frame (k : Nat) :
    ∀ (ws : List (Int × Int)) (g : Grid) (placed : Nat) (y : Int × Int),
      y ∉ ws → getCell (exitLoop k g ws placed) y.1 y.2 = getCell g y.1 y.2
  | [], g, placed, y, _ => rfl
  | rc :: rest, g, placed, y, hy => by
    rw [exitLoop]
    split
    · rfl
    · have hne : rc ≠ y := fun h => hy (h ▸ List.mem_cons_self rc rest)
      have hd : y.1 ≠ rc.1 ∨ y.2 ≠ rc.2 := by
        by_cases h1 : y.1 = rc.1
        · right
          intro h2
          exact hne (Prod.ext h1.symm h2.symm)
        · exact Or.inl h1
      rw [exitLoop_frame k rest _ (placed + 1) y (fun h => hy (List.mem_cons_of_mem _ h)),
        getCell_setCell_ne hd]

/-- `exitLoop` leaves exactly `min (k - placed) ws.length` of the pool
cells `OpenFloor`, provided none was `OpenFloor` on entry. -/
theorem exitLoop_count (k : Nat) :
    ∀ (ws : List (Int × Int)) (g : Grid) (placed : Nat), ws.Nodup → GridOK g →
      (∀ y ∈ ws, 0 ≤ y.1 ∧ y.1 < (GRID_ROWS : Int) ∧
        0 ≤ y.2 ∧ y.2 < (GRID_COLUMNS : Int)) →
      (∀ y ∈ ws, getCell g y.1 y.2 ≠ .str TILE_OPEN_SPACE) →
      (ws.countP (fun rc =>
          decide (getCell (exitLoop k g ws placed) rc.1 rc.2 = .str TILE_OPEN_SPACE)))
        = min (k - placed) ws.length
  | [], g, placed, _, _, _, _ => by simp
  | rc :: rest, g, placed, hnd, hg, hbnd, hop => by
    rw [exitLoop]
    split
    case isTrue hk =>
      have hzero : (k - placed) = 0 := by omega
      rw [hzero]
      simp only [Nat.zero_min]
      refine List.countP_eq_zero.2 ?_
      intro y hy
      simp only [decide_eq_true_eq]
      exact hop y hy
    case isFalse hk =>
      have hnotmem := (List.nodup_cons.1 hnd).1
      have hrest := (List.nodup_cons.1 hnd).2
      have hbrc := hbnd rc (List.mem_cons_self rc rest)
      have hg' : GridOK (setCell g rc.1 rc.2 (.str TILE_OPEN_SPACE)) :=
        gridRect_setCell hg _ _ _
      rw [List.countP_cons]
      have hhead : getCell (exitLoop k (setCell g rc.1 rc.2 (.str TILE_OPEN_SPACE))
          rest (placed + 1)) rc.1 rc.2 = .str TILE_OPEN_SPACE := by
        rw [exitLoop_frame k rest _ (placed + 1) rc hnotmem]
        exact getCell_setCell_self_ok hg ⟨hbrc.1, hbrc.2.1⟩ ⟨hbrc.2.2.1, hbrc.2.2.2⟩
      rw [if_pos (by simpa using hhead)]
      have htail := exitLoop_count k rest (setCell g rc.1 rc.2 (.str TILE_OPEN_SPACE))
        (placed + 1) hrest hg'
        (fun y hy => hbnd y (List.mem_cons_of_mem _ hy))
        (fun y hy => by
          have hne : rc ≠ y := fun h => hnotmem (h ▸ hy)
          have hd : y.1 ≠ rc.1 ∨ y.2 ≠ rc.2 := by
            by_cases h1 : y.1 = rc.1
            · right
              intro h2
              exact hne (Prod.ext h1.symm h2.symm)
            · exact Or.inl h1
          rw [getCell_setCell_ne hd]
          exact hop y (List.mem_cons_of_mem _ hy))
      rw [htail]
      simp only [List.length_cons]
      omega

-- --- CARVE SPECS: exact exit count, all-string footprint ---

theorem strAt_evolve {W : Int → Int → Cell → Cell → Prop}
    (hW : ∀ r c a b, W r c a b → isStrCell b) {g g' : Grid}
    (he : GridEvolve W g g') {r c : Int}
    (h : isStrCell (getCell g r c)) : isStrCell (getCell g' r c) := by
  rcases he r c with heq | hw
  · rw [heq]
    exact h
  · exact hW _ _ _ _ hw

theorem dims_ge_two :
    ∀ d ∈ ROOM_DIMENSIONS_SMALL ++ ROOM_DIMENSIONS_MEDIUM ++ ROOM_DIMENSIONS_LARGE,
      (2 : Int) ≤ d.1 ∧ (2 : Int) ≤ d.2 := by decide

/-- All generated room blueprints have width and height at least 2. -/
theorem generate_rooms_data_dims2 (rng : Rng) :
    ∀ room ∈ (generate_rooms_data rng).1, 2 ≤ room.width ∧ 2 ≤ room.height := by
  unfold generate_rooms_data
  dsimp only
  apply foldl_preserve
    (fun st : List RoomData × Rng => ∀ room ∈ st.1, 2 ≤ room.width ∧ 2 ≤ room.height)
  · simp
  intro s i _ hs
  dsimp only
  intro room hroom
  rcases List.mem_append.1 hroom with hmem | hmem
  · exact hs room hmem
  · rw [List.mem_singleton] at hmem
    subst hmem
    dsimp only
    split
    · exact dims_ge_two _ (List.mem_append_left _ (List.mem_append_left _
        (randChoice_mem ((0 : Int), (0 : Int)) (by decide) (randPct s.2).2)))
    · split
      · exact dims_ge_two _ (List.mem_append_left _ (List.mem_append_right _
          (randChoice_mem ((0 : Int), (0 : Int)) (by decide) (randPct s.2).2)))
      · exact dims_ge_two _ (List.mem_append_right _
          (randChoice_mem ((0 : Int), (0 : Int)) (by decide) (randPct s.2).2))

/-- Every generated room blueprint is unplaced and one of the three
carvable types. -/
theorem generate_rooms_data_types (rng : Rng) :
    ∀ room ∈ (generate_rooms_data rng).1,
      room.placed = false ∧
        (room.type = "Small" ∨ room.type = "Medium" ∨ room.type = "Large") := by
  unfold generate_rooms_data
  dsimp only
  apply foldl_preserve
    (fun st : List RoomData × Rng => ∀ room ∈ st.1,
      room.placed = false ∧
        (room.type = "Small" ∨ room.type = "Medium" ∨ room.type = "Large"))
  · simp
  intro s i _ hs
  dsimp only
  intro room hroom
  rcases List.mem_append.1 hroom with hmem | hmem
  · exact hs room hmem
  · rw [List.mem_singleton] at hmem
    subst hmem
    dsimp only
    split
    · exact ⟨rfl, Or.inl rfl⟩
    · split
      · exact ⟨rfl, Or.inr (Or.inl rfl)⟩
      · exact ⟨rfl, Or.inr (Or.inr rfl)⟩

/-- The sub-room phase of a Large room writes string tiles strictly inside
the outer room's rectangle. -/
theorem subRoomPhase_evolve_inner (g : Grid) (start_r start_c width height : Int)
    (tier_weights : List (String × Nat)) (loot : List LootEntry) (rng : Rng) :
    GridEvolve (fun r c _ new =>
        (start_r + 1 ≤ r ∧ r ≤ start_r + height - 2 ∧
          start_c + 1 ≤ c ∧ c ≤ start_c + width - 2) ∧ isStrCell new)
      g (subRoomPhase g start_r start_c width height tier_weights loot rng).1 := by
  unfold subRoomPhase
  rcases hcd : randChoice (0, 0) ROOM_DIMENSIONS_SMALL rng with ⟨subdim, rng4⟩
  dsimp only
  rcases hsh : shuffle (prodRange
      (intRange (start_r + 1) (start_r + 1 + (height - 2) - subdim.2 + 1))
      (intRange (start_c + 1) (start_c + 1 + (width - 2) - subdim.1 + 1)))
      rng4 with ⟨starts, rng5⟩
  dsimp only
  split
  case h_1 rc hfind =>
    have hdim : subdim ∈ ROOM_DIMENSIONS_SMALL := by
      have := randChoice_mem (0, 0) (by decide : ROOM_DIMENSIONS_SMALL ≠ []) rng
      rw [hcd] at this
      exact this
    have hdims : 1 ≤ subdim.1 ∧ subdim.1 ≤ 3 ∧ 1 ≤ subdim.2 ∧ subdim.2 ≤ 3 := by
      have hd3 : subdim = ((2 : Int), (2 : Int)) ∨ subdim = (2, 3) ∨ subdim = (3, 2) := by
        simpa [ROOM_DIMENSIONS_SMALL] using hdim
      rcases hd3 with rfl | rfl | rfl <;> norm_num
    have hrc : rc ∈ starts := List.mem_of_find?_eq_some hfind
    have hrc0 : rc ∈ prodRange
        (intRange (start_r + 1) (start_r + 1 + (height - 2) - subdim.2 + 1))
        (intRange (start_c + 1) (start_c + 1 + (width - 2) - subdim.1 + 1)) := by
      have hperm := shuffle_perm (prodRange
        (intRange (start_r + 1) (start_r + 1 + (height - 2) - subdim.2 + 1))
        (intRange (start_c + 1) (start_c + 1 + (width - 2) - subdim.1 + 1))) rng4
      rw [hsh] at hperm
      exact hperm.mem_iff.1 hrc
    have hb1 := mem_intRange.1 (mem_prodRange.1 hrc0).1
    have hb2 := mem_intRange.1 (mem_prodRange.1 hrc0).2
    refine gridEvolve_mono ?_ (carve_small_room_evolve g rc.1 rc.2 subdim.1
      subdim.2 1 tier_weights loot rng5 (by omega) (by omega))
    intro r c a b h
    obtain ⟨⟨q1, q2, q3, q4⟩, hs⟩ := h
    exact ⟨⟨by omega, by omega, by omega, by omega⟩, hs⟩
  case h_2 hfind => exact gridEvolve_refl _ _

theorem carve_small_room_eq (g : Grid) (start_r start_c width height : Int)
    (k : Nat) (tier_weights : List (String × Nat)) (loot : List LootEntry)
    (rng : Rng) :
    carve_small_room g start_r start_c width height k tier_weights loot rng =
      place_containers_in_room
        (exitLoop k
          ((prodRange (intRange start_r (start_r + height))
              (intRange start_c (start_c + width))).foldl
            (carvePerimeterCell start_r start_c (start_r + height - 1)
              (start_c + width - 1)) g)
          (shuffle (roomWallTiles start_r start_c width height) rng).1 0)
        start_r start_c width height "Small" tier_weights loot
        (shuffle (roomWallTiles start_r start_c width height) rng).2 := rfl

/-- `carve_small_room` opens exactly `min k |wall tiles|` border cells and
leaves every cell of the room rectangle a string tile. -/
theorem carve_small_spec (g : Grid) (start_r start_c width height : Int) (k : Nat)
    (tier_weights : List (String × Nat)) (loot : List LootEntry) (rng : Rng)
    (hg : GridOK g) (hw : 2 ≤ width) (hh : 2 ≤ height)
    (hb : 1 ≤ start_r ∧ 1 ≤ start_c ∧ start_r + height ≤ (GRID_ROWS : Int) - 1 ∧
      start_c + width ≤ (GRID_COLUMNS : Int) - 1) :
    ((roomWallTiles start_r start_c width height).countP (fun rc =>
        decide (getCell (carve_small_room g start_r start_c width height k
          tier_weights loot rng).1 rc.1 rc.2 = .str TILE_OPEN_SPACE)))
      = min k (roomWallTiles start_r start_c width height).length ∧
    ∀ r c, inRect start_r start_c width height r c →
      isStrCell (getCell (carve_small_room g start_r start_c width height k
        tier_weights loot rng).1 r c) := by
  rw [carve_small_room_eq]
  set G1 := (prodRange (intRange start_r (start_r + height))
      (intRange start_c (start_c + width))).foldl
    (carvePerimeterCell start_r start_c (start_r + height - 1) (start_c + width - 1)) g
    with hG1
  obtain ⟨hG1ok, hG1cells⟩ := carvePerimeter_ok start_r start_c width height g hg hb
  set pool := roomWallTiles start_r start_c width height with hpool
  set ws := (shuffle pool rng).1 with hws
  set G2 := exitLoop k G1 ws 0 with hG2
  have hperm : ws.Perm pool := shuffle_perm pool rng
  have hG2ok : GridOK G2 := gridOK_exitLoop k G1 ws 0 hG1ok
  have hrect_mem : ∀ y : Int × Int, inRect start_r start_c width height y.1 y.2 →
      y ∈ prodRange (intRange start_r (start_r + height))
        (intRange start_c (start_c + width)) := by
    intro y hy
    unfold inRect at hy
    exact mem_prodRange.2 ⟨mem_intRange.2 ⟨hy.1, by omega⟩,
      mem_intRange.2 ⟨hy.2.2.1, by omega⟩⟩
  have hpool_rect : ∀ y ∈ pool, inRect start_r start_c width height y.1 y.2 :=
    fun y hy => roomWallTiles_subset_rect (by omega) (by omega) hy
  have hws_bnd : ∀ y ∈ ws, 0 ≤ y.1 ∧ y.1 < (GRID_ROWS : Int) ∧
      0 ≤ y.2 ∧ y.2 < (GRID_COLUMNS : Int) := by
    intro y hy
    have hri := hpool_rect y (shuffle_mem.1 hy)
    unfold inRect at hri
    exact ⟨by omega, by omega, by omega, by omega⟩
  have hws_nop : ∀ y ∈ ws, getCell G1 y.1 y.2 ≠ .str TILE_OPEN_SPACE := by
    intro y hy
    have hmem := shuffle_mem.1 hy
    exact (hG1cells y (hrect_mem y (hpool_rect y hmem))).2 (mem_roomWallTiles_border hmem)
  have hcount2 : ws.countP (fun rc =>
      decide (getCell G2 rc.1 rc.2 = .str TILE_OPEN_SPACE)) = min k ws.length := by
    have hcnt := exitLoop_count k ws G1 0 (shuffle_nodup (nodup_roomWallTiles hw hh))
      hG1ok hws_bnd hws_nop
    simpa using hcnt
  have hevoC := place_containers_evolve G2 start_r start_c width height "Small"
    tier_weights loot (shuffle pool rng).2
  constructor
  · have hcongr : pool.countP (fun rc =>
        decide (getCell (place_containers_in_room G2 start_r start_c width height
          "Small" tier_weights loot (shuffle pool rng).2).1 rc.1 rc.2 =
          .str TILE_OPEN_SPACE))
        = pool.countP (fun rc =>
          decide (getCell G2 rc.1 rc.2 = .str TILE_OPEN_SPACE)) := by
      refine List.countP_congr ?_
      intro y hy
      have hfr : getCell (place_containers_in_room G2 start_r start_c width height
          "Small" tier_weights loot (shuffle pool rng).2).1 y.1 y.2 =
          getCell G2 y.1 y.2 := by
        refine gridEvolve_point_frame hevoC ?_
        intro a b hWc
        obtain ⟨⟨q1, q2, q3, q4⟩, _⟩ := hWc
        have hbord := mem_roomWallTiles_border hy
        have hri := hpool_rect y hy
        unfold inRect at hri
        omega
      rw [hfr]
    rw [hcongr, ← hperm.countP_eq, hcount2, hperm.length_eq]
  · intro r c hrc
    have h1 : isStrCell (getCell G1 r c) := (hG1cells (r, c) (hrect_mem (r, c) hrc)).1
    have h2 : isStrCell (getCell G2 r c) :=
      strAt_evolve (fun _ _ _ b hWb => ⟨_, hWb.2⟩) (exitLoop_evolve k G1 ws 0) h1
    exact strAt_evolve (fun _ _ _ b hWb => isStrCell_container hWb.2.2) hevoC h2

/-- Evolutions writing string tiles strictly inside the room rectangle
preserve the border exit count and the all-string footprint. -/
theorem count_str_preserve (start_r start_c width height : Int) (k : Nat)
    {W : Int → Int → Cell → Cell → Prop} {g g' : Grid}
    (hWin : ∀ r c a b, W r c a b →
      start_r + 1 ≤ r ∧ r ≤ start_r + height - 2 ∧
        start_c + 1 ≤ c ∧ c ≤ start_c + width - 2)
    (hWstr : ∀ r c a b, W r c a b → isStrCell b)
    (he : GridEvolve W g g')
    (hw : 2 ≤ width) (hh : 2 ≤ height)
    (hcount : (roomWallTiles start_r start_c width height).countP (fun rc =>
        decide (getCell g rc.1 rc.2 = .str TILE_OPEN_SPACE))
      = min k (roomWallTiles start_r start_c width height).length)
    (hstr : ∀ r c, inRect start_r start_c width height r c →
      isStrCell (getCell g r c)) :
    ((roomWallTiles start_r start_c width height).countP (fun rc =>
        decide (getCell g' rc.1 rc.2 = .str TILE_OPEN_SPACE))
      = min k (roomWallTiles start_r start_c width height).length) ∧
    ∀ r c, inRect start_r start_c width height r c →
      isStrCell (getCell g' r c) := by
  constructor
  · rw [← hcount]
    refine List.countP_congr ?_
    intro y hy
    have hfr : getCell g' y.1 y.2 = getCell g y.1 y.2 := by
      refine gridEvolve_point_frame he ?_
      intro a b hWc
      have hq := hWin _ _ _ _ hWc
      have hbord := mem_roomWallTiles_border hy
      have hri := roomWallTiles_subset_rect (by omega) (by omega) hy
      unfold inRect at hri
      omega
    rw [hfr]
  · intro r c hrc
    exact strAt_evolve hWstr he (hstr r c hrc)

/-- `carve_medium_room` satisfies the same exit-count and footprint spec as
`carve_small_room`. -/
theorem carve_medium_spec (g : Grid) (start_r start_c width height : Int) (k : Nat)
    (tier_weights : List (String × Nat)) (loot : List LootEntry) (rng : Rng)
    (hg : GridOK g) (hw : 2 ≤ width) (hh : 2 ≤ height)
    (hb : 1 ≤ start_r ∧ 1 ≤ start_c ∧ start_r + height ≤ (GRID_ROWS : Int) - 1 ∧
      start_c + width ≤ (GRID_COLUMNS : Int) - 1) :
    ((roomWallTiles start_r start_c width height).countP (fun rc =>
        decide (getCell (carve_medium_room g start_r start_c width height k
          tier_weights loot rng).1 rc.1 rc.2 = .str TILE_OPEN_SPACE)))
      = min k (roomWallTiles start_r start_c width height).length ∧
    ∀ r c, inRect start_r start_c width height r c →
      isStrCell (getCell (carve_medium_room g start_r start_c width height k
        tier_weights loot rng).1 r c) := by
  rcases h1 : carve_small_room g start_r start_c width height k
    tier_weights loot rng with ⟨g1, loot1, rng1⟩
  have hspec := carve_small_spec g start_r start_c width height k
    tier_weights loot rng hg hw hh hb
  rw [h1] at hspec
  have hg1 : GridOK g1 := by
    have hok := gridOK_carve_small g start_r start_c width height k
      tier_weights loot rng hg
    rw [h1] at hok
    exact hok
  rw [carve_medium_room, h1]
  dsimp only
  split
  case isTrue hcond =>
    rcases h2 : randint 1 3 rng1 with ⟨nw, rng2⟩
    dsimp only
    rcases h3 : interiorWallLoop (start_r + 1) (start_c + 1) (width - 2) (height - 2)
      nw g1 rng2 with ⟨g2, rng3⟩
    dsimp only
    have he12 : GridEvolve (WIWall (start_r + 1) (start_c + 1) (width - 2) (height - 2))
        g1 g2 := by
      have hev := interiorWallLoop_evolve (start_r + 1) (start_c + 1) (width - 2)
        (height - 2) (by omega) (by omega) nw g1 rng2
      rw [h3] at hev
      exact hev
    have hg2 : GridOK g2 := by
      have hok := gridOK_interiorWallLoop (start_r + 1) (start_c + 1) (width - 2)
        (height - 2) nw g1 rng2 hg1
      rw [h3] at hok
      exact hok
    have hspec2 := count_str_preserve start_r start_c width height k
      (fun r c a b hWc => by
        have hq := hWc.1
        exact ⟨by omega, by omega, by omega, by omega⟩)
      (fun r c a b hWc => by
        rcases hWc.2.2 with h' | h' <;> exact ⟨_, h'⟩)
      he12 hw hh hspec.1 hspec.2
    exact count_str_preserve start_r start_c width height k
      (fun r c a b hWc => hWc.1)
      (fun r c a b hWc => isStrCell_container hWc.2.2)
      (place_containers_evolve g2 start_r start_c width height "Medium"
        tier_weights loot1 rng3)
      hw hh hspec2.1 hspec2.2
  case isFalse hcond =>
    dsimp only
    exact count_str_preserve start_r start_c width height k
      (fun r c a b hWc => hWc.1)
      (fun r c a b hWc => isStrCell_container hWc.2.2)
      (place_containers_evolve g1 start_r start_c width height "Medium"
        tier_weights loot1 rng1)
      hw hh hspec.1 hspec.2

/-- `carve_large_room` satisfies the same exit-count and footprint spec as
`carve_small_room`. -/
theorem carve_large_spec (g : Grid) (start_r start_c width height : Int) (k : Nat)
    (tier_weights : List (String × Nat)) (loot : List LootEntry) (rng : Rng)
    (hg : GridOK g) (hw : 2 ≤ width) (hh : 2 ≤ height)
    (hb : 1 ≤ start_r ∧ 1 ≤ start_c ∧ start_r + height ≤ (GRID_ROWS : Int) - 1 ∧
      start_c + width ≤ (GRID_COLUMNS : Int) - 1) :
    ((roomWallTiles start_r start_c width height).countP (fun rc =>
        decide (getCell (carve_large_room g start_r start_c width height k
          tier_weights loot rng).1 rc.1 rc.2 = .str TILE_OPEN_SPACE)))
      = min k (roomWallTiles start_r start_c width height).length ∧
    ∀ r c, inRect start_r start_c width height r c →
      isStrCell (getCell (carve_large_room g start_r start_c width height k
        tier_weights loot rng).1 r c) := by
  rcases h1 : carve_small_room g start_r start_c width height k
    tier_weights loot rng with ⟨g1, loot1, rng1⟩
  have hspec := carve_small_spec g start_r start_c width height k
    tier_weights loot rng hg hw hh hb
  rw [h1] at hspec
  have hg1 : GridOK g1 := by
    have hok := gridOK_carve_small g start_r start_c width height k
      tier_weights loot rng hg
    rw [h1] at hok
    exact hok
  rw [carve_large_room, h1]
  dsimp only
  have hsubstep : ∀ (g2 : Grid) (loot2 : List LootEntry) (rng2 : Rng),
      GridOK g2 →
      ((roomWallTiles start_r start_c width height).countP (fun rc =>
          decide (getCell g2 rc.1 rc.2 = .str TILE_OPEN_SPACE))
        = min k (roomWallTiles start_r start_c width height).length) →
      (∀ r c, inRect start_r start_c width height r c →
        isStrCell (getCell g2 r c)) →
      ((roomWallTiles start_r start_c width height).countP (fun rc =>
          decide (getCell (place_containers_in_room
            (subRoomPhase g2 start_r start_c width height tier_weights loot2 rng2).1
            start_r start_c width height "Large" tier_weights
            (subRoomPhase g2 start_r start_c width height tier_weights loot2 rng2).2.1
            (subRoomPhase g2 start_r start_c width height tier_weights loot2 rng2).2.2).1
          rc.1 rc.2 = .str TILE_OPEN_SPACE)))
        = min k (roomWallTiles start_r start_c width height).length ∧
      ∀ r c, inRect start_r start_c width height r c →
        isStrCell (getCell (place_containers_in_room
          (subRoomPhase g2 start_r start_c width height tier_weights loot2 rng2).1
          start_r start_c width height "Large" tier_weights
          (subRoomPhase g2 start_r start_c width height tier_weights loot2 rng2).2.1
          (subRoomPhase g2 start_r start_c width height tier_weights loot2 rng2).2.2).1
          r c) := by
    intro g2 loot2 rng2 hg2 hcnt hstr
    have hspec3 := count_str_preserve start_r start_c width height k
      (fun r c a b hWc => hWc.1)
      (fun r c a b hWc => hWc.2)
      (subRoomPhase_evolve_inner g2 start_r start_c width height tier_weights
        loot2 rng2)
      hw hh hcnt hstr
    exact count_str_preserve start_r start_c width height k
      (fun r c a b hWc => hWc.1)
      (fun r c a b hWc => isStrCell_container hWc.2.2)
      (place_containers_evolve _ start_r start_c width height "Large"
        tier_weights _ _)
      hw hh hspec3.1 hspec3.2
  split
  case isTrue hcond =>
    rcases h2 : randint 1 3 rng1 with ⟨nw, rng2⟩
    dsimp only
    rcases h3 : interiorWallLoop (start_r + 1) (start_c + 1) (width - 2) (height - 2)
      nw g1 rng2 with ⟨g2, rng3⟩
    dsimp only
    have he12 : GridEvolve (WIWall (start_r + 1) (start_c + 1) (width - 2) (height - 2))
        g1 g2 := by
      have hev := interiorWallLoop_evolve (start_r + 1) (start_c + 1) (width - 2)
        (height - 2) (by omega) (by omega) nw g1 rng2
      rw [h3] at hev
      exact hev
    have hg2 : GridOK g2 := by
      have hok := gridOK_interiorWallLoop (start_r + 1) (start_c + 1) (width - 2)
        (height - 2) nw g1 rng2 hg1
      rw [h3] at hok
      exact hok
    have hspec2 := count_str_preserve start_r start_c width height k
      (fun r c a b hWc => by
        have hq := hWc.1
        exact ⟨by omega, by omega, by omega, by omega⟩)
      (fun r c a b hWc => by
        rcases hWc.2.2 with h' | h' <;> exact ⟨_, h'⟩)
      he12 hw hh hspec.1 hspec.2
    exact hsubstep g2 loot1 rng3 hg2 hspec2.1 hspec2.2
  case isFalse hcond =>
    dsimp only
    exact hsubstep g1 loot1 rng1 hg1 hspec.1 hspec.2

-- --- PROTECTION OF CARVED ROOM FOOTPRINTS THROUGH THE MAZE STAGE ---

/-- The maze carver never touches an all-string rectangle of size at least
2×2: its unconditional midpoint write always has a rectangle endpoint
whose string value fails the carver's `Unvisited` check first. -/
theorem maze_rect_intact (start_r start_c width height : Int)
    (hw : 2 ≤ width) (hh : 2 ≤ height) (g0 : Grid)
    (hstr : ∀ r c, inRect start_r start_c width height r c →
      isStrCell (getCell g0 r c)) :
    ∀ (fuel : Nat) (g : Grid) (r c : Int) (rng : Rng),
      (∀ r' c', inRect start_r start_c width height r' c' →
        getCell g r' c' = getCell g0 r' c') →
      ¬ inRect start_r start_c width height r c →
      ∀ r' c', inRect start_r start_c width height r' c' →
        getCell (recursive_backtracking_maze_generator fuel g r c rng).1 r' c' =
          getCell g0 r' c'
  | 0, g, r, c, rng, hsame, _ => hsame
  | fuel + 1, g, r, c, rng, hsame, hnot => by
    rw [recursive_backtracking_maze_generator]
    rcases hsh : shuffle mazeDirections rng with ⟨dirs, rng1⟩
    dsimp only
    have hdirs : ∀ d ∈ dirs, d ∈ mazeDirections := by
      intro d hd
      have hperm := shuffle_perm mazeDirections rng
      rw [hsh] at hperm
      exact hperm.mem_iff.1 hd
    have hne_of_notmem : ∀ p : Int × Int,
        ¬ inRect start_r start_c width height p.1 p.2 →
        ∀ r' c', inRect start_r start_c width height r' c' →
          (r' ≠ p.1 ∨ c' ≠ p.2) := by
      intro p hp r' c' hin
      by_cases h1 : r' = p.1
      · right
        intro h2
        exact hp (h1 ▸ h2 ▸ hin)
      · exact Or.inl h1
    have hsame1 : ∀ r' c', inRect start_r start_c width height r' c' →
        getCell (setCell g r c (.num MAZE_PASSAGE)) r' c' = getCell g0 r' c' := by
      intro r' c' hin
      rw [getCell_setCell_ne (hne_of_notmem (r, c) hnot r' c' hin)]
      exact hsame r' c' hin
    refine foldl_preserve
      (fun st : Grid × Rng => ∀ r' c', inRect start_r start_c width height r' c' →
        getCell st.1 r' c' = getCell g0 r' c')
      _ dirs (setCell g r c (.num MAZE_PASSAGE), rng1) hsame1 ?_
    intro st d hd hst
    dsimp only
    split
    case isTrue hb =>
      split
      case isTrue h0 =>
        have hnextnot : ¬ inRect start_r start_c width height (r + d.1) (c + d.2) := by
          intro hmem
          obtain ⟨s, hs⟩ := hstr _ _ hmem
          rw [hst _ _ hmem, hs] at h0
          exact absurd h0 (by simp)
        have hd4 : d = ((0 : Int), (2 : Int)) ∨ d = (0, -2) ∨ d = (2, 0) ∨
            d = (-2, 0) := by
          simpa [mazeDirections] using hdirs d hd
        have hmidnot : ¬ inRect start_r start_c width height
            (r + d.1 / 2) (c + d.2 / 2) := by
          intro hmid
          unfold inRect at hmid hnot hnextnot
          rcases hd4 with rfl | rfl | rfl | rfl <;>
            · norm_num at hmid hnextnot
              omega
        have hsame2 : ∀ r' c', inRect start_r start_c width height r' c' →
            getCell (setCell st.1 (r + d.1 / 2) (c + d.2 / 2) (.num MAZE_PASSAGE))
              r' c' = getCell g0 r' c' := by
          intro r' c' hin
          rw [getCell_setCell_ne
            (hne_of_notmem (r + d.1 / 2, c + d.2 / 2) hmidnot r' c' hin)]
          exact hst r' c' hin
        exact maze_rect_intact start_r start_c width height hw hh g0 hstr fuel
          _ (r + d.1) (c + d.2) _ hsame2 hnextnot
      case isFalse => exact hst
    case isFalse => exact hst

/-- The resolution pass leaves the cells of an all-string region
untouched. -/
theorem resolveMazeCell_rect_intact (rows cols : Int) {g0 : Grid}
    (start_r start_c width height : Int)
    (hstr : ∀ r c, inRect start_r start_c width height r c →
      isStrCell (getCell g0 r c))
    (s : Grid) (x : Int × Int)
    (hs : ∀ r c, inRect start_r start_c width height r c →
      getCell s r c = getCell g0 r c) :
    ∀ r c, inRect start_r start_c width height r c →
      getCell (resolveMazeCell rows cols s x) r c = getCell g0 r c := by
  intro r c hin
  by_cases hxy : x = (r, c)
  · subst hxy
    obtain ⟨t, ht⟩ := hstr r c hin
    have hcur : getCell s r c = .str t := by
      rw [hs r c hin]
      exact ht
    unfold resolveMazeCell
    dsimp only
    split
    · exact hs r c hin
    next n heq =>
      rw [hcur] at heq
      exact absurd heq (by simp)
  · have hne : x ≠ (r, c) := hxy
    rw [resolveMazeCell_ne rows cols s x (r, c) hne]
    exact hs r c hin

/-- The whole hallway stage (maze carve plus resolution) leaves an
all-string 2×2-or-larger rectangle pointwise unchanged. -/
theorem hallways_rect_intact (g : Grid) (rng : Rng) (hg : GridOK g)
    (start_r start_c width height : Int) (hw : 2 ≤ width) (hh : 2 ≤ height)
    (hstr : ∀ r c, inRect start_r start_c width height r c →
      isStrCell (getCell g r c)) :
    ∀ r c, inRect start_r start_c width height r c →
      getCell (generate_hallways_in_remaining_space g rng).1 r c =
        getCell g r c := by
  have hres_pres : ∀ (rows cols : Int) (ps : List (Int × Int)) (s : Grid),
      (∀ r c, inRect start_r start_c width height r c →
        getCell s r c = getCell g r c) →
      ∀ r c, inRect start_r start_c width height r c →
        getCell (ps.foldl (resolveMazeCell rows cols) s) r c = getCell g r c := by
    intro rows cols ps s hs
    have hfold := foldl_preserve
      (fun s' : Grid => ∀ r c, inRect start_r start_c width height r c →
        getCell s' r c = getCell g r c)
      (resolveMazeCell rows cols) ps s hs
      (fun s' x _ hs' => resolveMazeCell_rect_intact rows cols start_r start_c
        width height hstr s' x hs')
    exact hfold
  intro r c hin
  unfold generate_hallways_in_remaining_space
  dsimp only
  split
  case isTrue =>
    exact hres_pres _ _ _ g (fun _ _ _ => rfl) r c hin
  case isFalse hne =>
    rcases hch : randChoice (-1, -1)
      ((prodRange (intRange2 1 ((g.length : Int) - 1))
        (intRange2 1 (((g.getD 0 []).length : Int) - 1))).filter
        (fun rc => decide (getCell g rc.1 rc.2 = .num MAZE_WALL))) rng
      with ⟨st, rng1⟩
    dsimp only
    rcases hmz : recursive_backtracking_maze_generator
      (g.length * (g.getD 0 []).length + 1) g st.1 st.2 rng1 with ⟨g2, rng2⟩
    dsimp only
    have hstwall : getCell g st.1 st.2 = .num MAZE_WALL := by
      have hstmem : st ∈ (prodRange (intRange2 1 ((g.length : Int) - 1))
          (intRange2 1 (((g.getD 0 []).length : Int) - 1))).filter
          (fun rc => decide (getCell g rc.1 rc.2 = .num MAZE_WALL)) := by
        have hmem := randChoice_mem (-1, -1) hne rng
        rw [hch] at hmem
        exact hmem
      simpa using List.of_mem_filter hstmem
    have hstnot : ¬ inRect start_r start_c width height st.1 st.2 := by
      intro hmem
      obtain ⟨s, hs⟩ := hstr _ _ hmem
      rw [hs] at hstwall
      exact absurd hstwall (by simp)
    have hmaze : ∀ r' c', inRect start_r start_c width height r' c' →
        getCell g2 r' c' = getCell g r' c' := by
      have hint := maze_rect_intact start_r start_c width height hw hh g hstr
        (g.length * (g.getD 0 []).length + 1) g st.1 st.2 rng1
        (fun _ _ _ => rfl) hstnot
      rw [hmz] at hint
      exact hint
    exact hres_pres _ _ _ g2 hmaze r c hin

-- --- THE PLACEMENT FOLD INVARIANT ---

/-- What `place_rooms_in_dungeon` guarantees for each placed room record:
an in-interior rectangle, an all-string footprint, and exactly
`min exits_required |wall tiles|` `OpenFloor` border cells. -/
def RoomSpec (G : Grid) (room : RoomData) : Prop :=
  room.placed = true →
    2 ≤ room.width ∧ 2 ≤ room.height ∧
    1 ≤ room.start_r ∧ 1 ≤ room.start_c ∧
    room.start_r + room.height ≤ (GRID_ROWS : Int) - 1 ∧
    room.start_c + room.width ≤ (GRID_COLUMNS : Int) - 1 ∧
    (∀ r c, inRect room.start_r room.start_c room.width room.height r c →
      isStrCell (getCell G r c)) ∧
    (roomWallTiles room.start_r room.start_c room.width room.height).countP
      (fun rc => decide (getCell G rc.1 rc.2 = .str TILE_OPEN_SPACE))
      = min room.exits_required
          (roomWallTiles room.start_r room.start_c room.width room.height).length

/-- Two placed rooms' full rectangles share no cell. -/
def RoomsDisjoint (a b : RoomData) : Prop :=
  a.placed = true → b.placed = true →
    ∀ r c, ¬(inRect a.start_r a.start_c a.width a.height r c ∧
      inRect b.start_r b.start_c b.width b.height r c)

/-- `RoomSpec` survives any evolution whose writes avoid the room's
rectangle. -/
theorem roomSpec_frame {G G' : Grid} {room : RoomData}
    {W : Int → Int → Cell → Cell → Prop}
    (he : GridEvolve W G G')
    (hW : room.placed = true → ∀ r c a b, W r c a b →
      ¬ inRect room.start_r room.start_c room.width room.height r c)
    (hspec : RoomSpec G room) : RoomSpec G' room := by
  intro hpl
  obtain ⟨h1, h2, h3, h4, h5, h6, hstr, hcnt⟩ := hspec hpl
  refine ⟨h1, h2, h3, h4, h5, h6, ?_, ?_⟩
  · intro r c hin
    have hfr : getCell G' r c = getCell G r c :=
      gridEvolve_point_frame he (fun a b hw => hW hpl _ _ _ _ hw hin)
    rw [hfr]
    exact hstr r c hin
  · rw [← hcnt]
    refine List.countP_congr ?_
    intro y hy
    have hin := roomWallTiles_subset_rect (by omega) (by omega) hy
    have hfr : getCell G' y.1 y.2 = getCell G y.1 y.2 :=
      gridEvolve_point_frame he (fun a b hw => hW hpl _ _ _ _ hw hin)
    rw [hfr]

/-- A placed room's all-string rectangle cannot meet a rectangle whose
cells are all still `Unvisited`. -/
theorem disjoint_of_clear {g : Grid} {a : RoomData} (ha : RoomSpec g a)
    (hpa : a.placed = true) {sr sc w h : Int}
    (hclear : ∀ r c, sr ≤ r → r < sr + h → sc ≤ c → c < sc + w →
      getCell g r c = .num MAZE_WALL) :
    ∀ r c, inRect a.start_r a.start_c a.width a.height r c →
      ¬ inRect sr sc w h r c := by
  intro r c hina hinn
  obtain ⟨_, _, _, _, _, _, hstr, _⟩ := ha hpa
  obtain ⟨t, ht⟩ := hstr r c hina
  unfold inRect at hinn
  rw [hclear r c (by omega) (by omega) (by omega) (by omega)] at ht
  exact absurd ht (by simp)

theorem placeRoomStep_spec (tier_weights : List (String × Nat))
    (st : Grid × List RoomData × List LootEntry × Rng) (room : RoomData)
    (hg : GridOK st.1) (hall : ∀ rm ∈ st.2.1, RoomSpec st.1 rm)
    (hpw : List.Pairwise RoomsDisjoint st.2.1)
    (hdw : 2 ≤ room.width) (hdh : 2 ≤ room.height)
    (htype : room.type = "Small" ∨ room.type = "Medium" ∨ room.type = "Large")
    (hpl : room.placed = false) :
    GridOK (placeRoomStep tier_weights st room).1 ∧
      (∀ rm ∈ (placeRoomStep tier_weights st room).2.1,
        RoomSpec (placeRoomStep tier_weights st room).1 rm) ∧
      List.Pairwise RoomsDisjoint (placeRoomStep tier_weights st room).2.1 := by
  rcases st with ⟨g, rooms_out, loot, rng⟩
  unfold placeRoomStep
  dsimp only at hg hall hpw ⊢
  split
  case isTrue hne =>
    have hclear := find_clear_area_spec g room.width room.height rng hne
    have hb := is_area_clear_bounds hclear
    rw [gridOK_rows hg, gridOK_cols hg] at hb
    have hcells : ∀ r c,
        (find_clear_area g room.width room.height rng).1.1 ≤ r →
        r < (find_clear_area g room.width room.height rng).1.1 + room.height →
        (find_clear_area g room.width room.height rng).1.2 ≤ c →
        c < (find_clear_area g room.width room.height rng).1.2 + room.width →
        getCell g r c = .num MAZE_WALL :=
      fun r c h1 h2 h3 h4 => is_area_clear_cells hclear h1 h2 h3 h4
    have hdisj : ∀ rm ∈ rooms_out, rm.placed = true →
        ∀ r c, inRect rm.start_r rm.start_c rm.width rm.height r c →
          ¬ inRect (find_clear_area g room.width room.height rng).1.1
            (find_clear_area g room.width room.height rng).1.2
            room.width room.height r c :=
      fun rm hrm hprm => disjoint_of_clear (hall rm hrm) hprm hcells
    -- the common continuation for any carve result satisfying the specs
    have hmain : ∀ (G' : Grid),
        GridOK G' →
        GridEvolve (WCarve (find_clear_area g room.width room.height rng).1.1
          (find_clear_area g room.width room.height rng).1.2
          room.width room.height) g G' →
        ((roomWallTiles (find_clear_area g room.width room.height rng).1.1
            (find_clear_area g room.width room.height rng).1.2
            room.width room.height).countP
          (fun rc => decide (getCell G' rc.1 rc.2 = .str TILE_OPEN_SPACE))
          = min room.exits_required
              (roomWallTiles (find_clear_area g room.width room.height rng).1.1
                (find_clear_area g room.width room.height rng).1.2
                room.width room.height).length) →
        (∀ r c, inRect (find_clear_area g room.width room.height rng).1.1
            (find_clear_area g room.width room.height rng).1.2
            room.width room.height r c → isStrCell (getCell G' r c)) →
        ∀ room' : RoomData,
        room'.width = room.width → room'.height = room.height →
        room'.exits_required = room.exits_required →
        room'.start_r = (find_clear_area g room.width room.height rng).1.1 →
        room'.start_c = (find_clear_area g room.width room.height rng).1.2 →
        GridOK G' ∧
          (∀ rm ∈ rooms_out ++ [room'], RoomSpec G' rm) ∧
          List.Pairwise RoomsDisjoint (rooms_out ++ [room']) := by
      intro G' hG'ok hevo hcnt hstr room' hqw hqh hqe hqr hqc
      refine ⟨hG'ok, ?_, ?_⟩
      · intro rm hrm
        rcases List.mem_append.1 hrm with hmem | hmem
        · refine roomSpec_frame hevo ?_ (hall rm hmem)
          intro hprm r c a b hw hin
          exact hdisj rm hmem hprm r c hin hw.1
        · rw [List.mem_singleton] at hmem
          subst hmem
          intro _
          rw [hqw, hqh, hqe, hqr, hqc]
          exact ⟨hdw, hdh, hb.1, hb.2.1, by omega, by omega, hstr, hcnt⟩
      · rw [List.pairwise_append]
        refine ⟨hpw, List.pairwise_singleton _ _, ?_⟩
        intro a ha b hbm
        rw [List.mem_singleton] at hbm
        subst hbm
        intro hpa _
        rw [hqw, hqh, hqr, hqc]
        intro r c hcon
        exact hdisj a ha hpa r c hcon.1 hcon.2
    dsimp only
    rcases htype with ht | ht | ht
    · rw [ht]
      rw [if_pos rfl]
      have hspec := carve_small_spec g
        (find_clear_area g room.width room.height rng).1.1
        (find_clear_area g room.width room.height rng).1.2
        room.width room.height room.exits_required tier_weights loot
        (find_clear_area g room.width room.height rng).2 hg hdw hdh
        ⟨hb.1, hb.2.1, hb.2.2.1, hb.2.2.2⟩
      exact hmain _ (gridOK_carve_small g _ _ _ _ _ _ _ _ hg)
        (carve_small_room_evolve g _ _ _ _ _ _ _ _ (by omega) (by omega))
        hspec.1 hspec.2 _ rfl rfl rfl rfl rfl
    · rw [ht]
      rw [if_neg (by decide), if_pos rfl]
      have hspec := carve_medium_spec g
        (find_clear_area g room.width room.height rng).1.1
        (find_clear_area g room.width room.height rng).1.2
        room.width room.height room.exits_required tier_weights loot
        (find_clear_area g room.width room.height rng).2 hg hdw hdh
        ⟨hb.1, hb.2.1, hb.2.2.1, hb.2.2.2⟩
      exact hmain _ (gridOK_carve_medium g _ _ _ _ _ _ _ _ hg)
        (carve_medium_room_evolve g _ _ _ _ _ _ _ _ (by omega) (by omega))
        hspec.1 hspec.2 _ rfl rfl rfl rfl rfl
    · rw [ht]
      rw [if_neg (by decide), if_neg (by decide), if_pos rfl]
      have hspec := carve_large_spec g
        (find_clear_area g room.width room.height rng).1.1
        (find_clear_area g room.width room.height rng).1.2
        room.width room.height room.exits_required tier_weights loot
        (find_clear_area g room.width room.height rng).2 hg hdw hdh
        ⟨hb.1, hb.2.1, hb.2.2.1, hb.2.2.2⟩
      exact hmain _ (gridOK_carve_large g _ _ _ _ _ _ _ _ hg)
        (carve_large_room_evolve g _ _ _ _ _ _ _ _ (by omega) (by omega))
        hspec.1 hspec.2 _ rfl rfl rfl rfl rfl
  case isFalse =>
    refine ⟨hg, ?_, ?_⟩
    · intro rm hrm
      rcases List.mem_append.1 hrm with hmem | hmem
      · exact hall rm hmem
      · rw [List.mem_singleton] at hmem
        subst hmem
        intro hcon
        rw [hpl] at hcon
        exact absurd hcon (by simp)
    · rw [List.pairwise_append]
      refine ⟨hpw, List.pairwise_singleton _ _, ?_⟩
      intro a _ b hbm
      rw [List.mem_singleton] at hbm
      subst hbm
      intro _ hcon
      rw [hpl] at hcon
      exact absurd hcon (by simp)

/-- The placement stage establishes `RoomSpec` for every output room and
pairwise disjointness. -/
theorem place_rooms_spec (rooms : List RoomData) (g : Grid)
    (tier_weights : List (String × Nat)) (loot : List LootEntry) (rng : Rng)
    (hg : GridOK g)
    (hrooms : ∀ room ∈ rooms, 2 ≤ room.width ∧ 2 ≤ room.height ∧
      room.placed = false ∧
      (room.type = "Small" ∨ room.type = "Medium" ∨ room.type = "Large")) :
    GridOK (place_rooms_in_dungeon g rooms tier_weights loot rng).1 ∧
      (∀ rm ∈ (place_rooms_in_dungeon g rooms tier_weights loot rng).2.1,
        RoomSpec (place_rooms_in_dungeon g rooms tier_weights loot rng).1 rm) ∧
      List.Pairwise RoomsDisjoint
        (place_rooms_in_dungeon g rooms tier_weights loot rng).2.1 := by
  unfold place_rooms_in_dungeon
  apply foldl_preserve
    (fun st : Grid × List RoomData × List LootEntry × Rng =>
      GridOK st.1 ∧ (∀ rm ∈ st.2.1, RoomSpec st.1 rm) ∧
        List.Pairwise RoomsDisjoint st.2.1)
    (placeRoomStep tier_weights) rooms (g, [], loot, rng)
    ⟨hg, by simp, List.Pairwise.nil⟩
  intro s room hroom hs
  exact placeRoomStep_spec tier_weights s room hs.1 hs.2.1 hs.2.2
    (hrooms room hroom).1 (hrooms room hroom).2.1
    (hrooms room hroom).2.2.2 (hrooms room hroom).2.2.1

/-- `RoomSpec` for every room of the placement-stage pipeline state. -/
theorem roomSpec_pipelineAfterPlacement (rng : Rng) :
    (∀ rm ∈ (pipelineAfterPlacement rng).rooms,
      RoomSpec (pipelineAfterPlacement rng).grid rm) ∧
    List.Pairwise RoomsDisjoint (pipelineAfterPlacement rng).rooms := by
  unfold pipelineAfterPlacement
  dsimp only
  have hspec := place_rooms_spec (generate_rooms_data rng).1
    (init_inner_grid (generate_initial_box_dungeon GRID_ROWS GRID_COLUMNS))
    GEAR_TIER_WEIGHTS [] (generate_rooms_data rng).2
    (gridOK_init_inner gridOK_box)
    (fun room hroom =>
      ⟨(generate_rooms_data_dims2 rng room hroom).1,
        (generate_rooms_data_dims2 rng room hroom).2,
        (generate_rooms_data_types rng room hroom).1,
        (generate_rooms_data_types rng room hroom).2⟩)
  exact ⟨hspec.2.1, hspec.2.2⟩

/-- `RoomSpec` still holds after `connect_rooms_to_hallways`: the
connector writes only over `Unvisited` cells, and room rectangles hold
strings. -/
theorem roomSpec_connect_preserve {g : Grid} {rooms : List RoomData}
    {room : RoomData} (hspec : RoomSpec g room) :
    RoomSpec (connect_rooms_to_hallways g rooms) room := by
  intro hpl
  obtain ⟨h1, h2, h3, h4, h5, h6, hstr, hcnt⟩ := hspec hpl
  have hfr : ∀ r c, inRect room.start_r room.start_c room.width room.height r c →
      getCell (connect_rooms_to_hallways g rooms) r c = getCell g r c := by
    intro r c hin
    refine gridEvolve_point_frame_old (connect_rooms_evolve g rooms) ?_
    intro b hw
    obtain ⟨t, ht⟩ := hstr r c hin
    rw [ht] at hw
    exact absurd hw.2.1 (by simp)
  refine ⟨h1, h2, h3, h4, h5, h6, ?_, ?_⟩
  · intro r c hin
    rw [hfr r c hin]
    exact hstr r c hin
  · rw [← hcnt]
    refine List.countP_congr ?_
    intro y hy
    rw [hfr y.1 y.2 (roomWallTiles_subset_rect (by omega) (by omega) hy)]

/-- `RoomSpec` still holds after the hallway stage: the maze carver and
the resolution pass never touch a carved room's rectangle. -/
theorem roomSpec_hallways_preserve {g : Grid} {rng : Rng} (hg : GridOK g)
    {room : RoomData} (hspec : RoomSpec g room) :
    RoomSpec (generate_hallways_in_remaining_space g rng).1 room := by
  intro hpl
  obtain ⟨h1, h2, h3, h4, h5, h6, hstr, hcnt⟩ := hspec hpl
  have hfr := hallways_rect_intact g rng hg room.start_r room.start_c
    room.width room.height h1 h2 hstr
  refine ⟨h1, h2, h3, h4, h5, h6, ?_, ?_⟩
  · intro r c hin
    rw [hfr r c hin]
    exact hstr r c hin
  · rw [← hcnt]
    refine List.countP_congr ?_
    intro y hy
    rw [hfr y.1 y.2 (roomWallTiles_subset_rect (by omega) (by omega) hy)]

theorem roomSpec_pipelineAfterHallways (rng : Rng) :
    ∀ rm ∈ (pipelineAfterHallways rng).rooms,
      RoomSpec (pipelineAfterHallways rng).grid rm := by
  have hconn : ∀ rm ∈ (pipelineAfterConnect rng).rooms,
      RoomSpec (pipelineAfterConnect rng).grid rm := by
    unfold pipelineAfterConnect
    dsimp only
    intro rm hrm
    exact roomSpec_connect_preserve
      ((roomSpec_pipelineAfterPlacement rng).1 rm hrm)
  unfold pipelineAfterHallways
  dsimp only
  intro rm hrm
  exact roomSpec_hallways_preserve (gridOK_pipelineAfterConnect rng)
    (hconn rm hrm)

-- --- C2 and C6: claims ---

/-- C2: every room marked placed by `place_rooms_in_dungeon` has its full
rectangle (1-cell perimeter included) inside the interior bound, and the
rectangles of distinct placed rooms are pairwise disjoint. -/
theorem claim_C2_room_disjointness (rng : Rng) :
    (∀ room ∈ (pipelineAfterPlacement rng).rooms, room.placed = true →
      ∀ r c, inRect room.start_r room.start_c room.width room.height r c →
        interiorCell r c) ∧
    List.Pairwise RoomsDisjoint (pipelineAfterPlacement rng).rooms := by
  refine ⟨?_, (roomSpec_pipelineAfterPlacement rng).2⟩
  intro room hroom hpl r c hin
  obtain ⟨h1, h2, h3, h4, h5, h6, _, _⟩ :=
    (roomSpec_pipelineAfterPlacement rng).1 room hroom hpl
  unfold inRect at hin
  exact ⟨by omega, by omega, by omega, by omega⟩

theorem claim_C2_room_disjointness_witness :
    (⟨0, "Small", 2, 2, 1, true, 1, 1⟩ : RoomData) ∈ (pipelineAfterPlacement []).rooms ∧
      (⟨0, "Small", 2, 2, 1, true, 1, 1⟩ : RoomData).placed = true ∧
      inRect 1 1 2 2 2 2 ∧ interiorCell 2 2 :=
  ⟨by decide, rfl, by unfold inRect; decide,
    (claim_C2_room_disjointness []).1 ⟨0, "Small", 2, 2, 1, true, 1, 1⟩ (by decide)
      rfl 2 2 (by unfold inRect; decide)⟩

/-- C6 counterexample: with this oracle, room 0 is placed as a 2×3 room at
(1,1) and its single required exit is carved, but a later enemy spawner
overwrites the exit cell: in the final generated grid none of its
non-corner border cells is `OpenFloor`, although
`min exits_required (#border cells) = 1`. -/
theorem claim_C6_counterexample :
    (generate_dungeon_and_loot (List.replicate 2 0 ++ [1] ++
        List.replicate 252 0 ++ [7])).rooms.getD 0 ⟨0, "", 0, 0, 0, false, 0, 0⟩ =
      ⟨0, "Small", 2, 3, 1, true, 1, 1⟩ ∧
    (roomWallTiles 1 1 2 3).countP (fun rc =>
      decide (getCell (generate_dungeon_and_loot (List.replicate 2 0 ++ [1] ++
        List.replicate 252 0 ++ [7])).grid rc.1 rc.2 = .str TILE_OPEN_SPACE)) = 0 ∧
    min (1 : Nat) (roomWallTiles 1 1 2 3).length = 1 := by
  refine ⟨?_, ?_, ?_⟩
  · decide
  · decide
  · decide

/-- C6 amended: the exact-exit-count property holds of the grid as it
stands after hallway generation and resolution (before spawner and loot
placement, which may overwrite exits): every placed room then has exactly
`min exits_required (#non-corner border cells)` of its non-corner border
cells `OpenFloor`. -/
theorem claim_C6_exit_count (rng : Rng) :
    ∀ room ∈ (pipelineAfterHallways rng).rooms, room.placed = true →
      (roomWallTiles room.start_r room.start_c room.width room.height).countP
        (fun rc => decide (getCell (pipelineAfterHallways rng).grid rc.1 rc.2 =
          .str TILE_OPEN_SPACE))
        = min room.exits_required
            (roomWallTiles room.start_r room.start_c room.width room.height).length := by
  intro room hroom hpl
  exact ((roomSpec_pipelineAfterHallways rng room hroom) hpl).2.2.2.2.2.2.2

theorem claim_C6_exit_count_witness :
    (⟨0, "Small", 2, 2, 1, true, 1, 1⟩ : RoomData) ∈ (pipelineAfterHallways []).rooms ∧
      (⟨0, "Small", 2, 2, 1, true, 1, 1⟩ : RoomData).placed = true ∧
      (roomWallTiles 1 1 2 2).countP
        (fun rc => decide (getCell (pipelineAfterHallways []).grid rc.1 rc.2 =
          .str TILE_OPEN_SPACE))
        = min 1 (roomWallTiles 1 1 2 2).length :=
  ⟨by decide, rfl,
    claim_C6_exit_count [] ⟨0, "Small", 2, 2, 1, true, 1, 1⟩ (by decide) rfl⟩

-- --- C10: LOOT MANIFEST CONSISTENCY ---

/-- The grid tile recorded for a manifest entry type (`"Chest"`,
`"Barrel"`, `"Crate"`, `"Chest [RARE STRAY CHEST]"`). -/
def lootTile (t : String) : Cell :=
  if t = "Barrel" then .str TILE_BARREL
  else if t = "Crate" then .str TILE_CRATE
  else .str TILE_CHEST

/-- Manifest consistency: the grid holds the matching container tile at
every manifest coordinate, and manifest coordinates are pairwise
distinct. -/
def LootInv (G : Grid) (loot : List LootEntry) : Prop :=
  (∀ e ∈ loot, getCell G e.row e.column = lootTile e.type) ∧
  List.Pairwise (fun a b : LootEntry => (a.row, a.column) ≠ (b.row, b.column)) loot

theorem lootTile_ne_open (t : String) : lootTile t ≠ .str TILE_OPEN_SPACE := by
  unfold lootTile
  split
  · simp [TILE_BARREL, TILE_OPEN_SPACE]
  · split
    · simp [TILE_CRATE, TILE_OPEN_SPACE]
    · simp [TILE_CHEST, TILE_OPEN_SPACE]

theorem lootTile_not_floor (t : String) : lootTile t ∉ validFloorTiles := by
  unfold lootTile
  split
  · simp [validFloorTiles, TILE_BARREL, TILE_OPEN_SPACE, TILE_HALLWAY_HORZ,
      TILE_HALLWAY_VERT]
  · split
    · simp [validFloorTiles, TILE_CRATE, TILE_OPEN_SPACE, TILE_HALLWAY_HORZ,
        TILE_HALLWAY_VERT]
    · simp [validFloorTiles, TILE_CHEST, TILE_OPEN_SPACE, TILE_HALLWAY_HORZ,
        TILE_HALLWAY_VERT]

/-- Appending a fresh container entry at an `OpenFloor` cell keeps the
manifest consistent. -/
theorem lootInv_append {g : Grid} {loot : List LootEntry} (hg : GridOK g)
    (hinv : LootInv g loot) {rc : Int × Int} {kind tile : String}
    (htile : lootTile kind = .str tile)
    (hopen : getCell g rc.1 rc.2 = .str TILE_OPEN_SPACE)
    (hbnd : 0 ≤ rc.1 ∧ rc.1 < (GRID_ROWS : Int) ∧
      0 ≤ rc.2 ∧ rc.2 < (GRID_COLUMNS : Int))
    (ld : List Gear) :
    LootInv (setCell g rc.1 rc.2 (.str tile)) (loot ++ [⟨kind, rc.1, rc.2, ld⟩]) := by
  have hne_coords : ∀ e ∈ loot, (e.row, e.column) ≠ rc := by
    intro e he hcon
    have hv := hinv.1 e he
    rw [show e.row = rc.1 from congrArg Prod.fst hcon,
      show e.column = rc.2 from congrArg Prod.snd hcon, hopen] at hv
    exact absurd hv.symm (lootTile_ne_open e.type)
  constructor
  · intro e he
    rcases List.mem_append.1 he with hmem | hmem
    · have hd : e.row ≠ rc.1 ∨ e.column ≠ rc.2 := by
        by_cases h1 : e.row = rc.1
        · right
          intro h2
          exact hne_coords e hmem (Prod.ext h1 h2)
        · exact Or.inl h1
      rw [getCell_setCell_ne hd]
      exact hinv.1 e hmem
    · rw [List.mem_singleton] at hmem
      subst hmem
      dsimp only
      rw [getCell_setCell_self_ok hg ⟨hbnd.1, hbnd.2.1⟩ ⟨hbnd.2.2.1, hbnd.2.2.2⟩]
      exact htile.symm
  · rw [List.pairwise_append]
    refine ⟨hinv.2, List.pairwise_singleton _ _, ?_⟩
    intro a ha b hbm
    rw [List.mem_singleton] at hbm
    subst hbm
    intro hcon
    exact hne_coords a ha (by
      have h1 := congrArg Prod.fst hcon
      have h2 := congrArg Prod.snd hcon
      dsimp at h1 h2
      exact Prod.ext h1 h2)

/-- The container-placing loop: walking still-open pool positions from
index `used`, it keeps the manifest consistent, keeps every new entry
inside the pool's coordinate set, and leaves positions past the new
`used` index still open. -/
theorem containerLoop_spec (kind tile : String)
    (gen : List (String × Nat) → Rng → List Gear × Rng)
    (tier_weights : List (String × Nat)) (ws : List (Int × Int))
    (htile : lootTile kind = .str tile) (hnd : ws.Nodup)
    (hbnd : ∀ y ∈ ws, 0 ≤ y.1 ∧ y.1 < (GRID_ROWS : Int) ∧
      0 ≤ y.2 ∧ y.2 < (GRID_COLUMNS : Int))
    (P_ent : LootEntry → Prop)
    (hnewent : ∀ y ∈ ws, ∀ ld, P_ent ⟨kind, y.1, y.2, ld⟩) :
    ∀ (n : Nat) (g : Grid) (loot : List LootEntry) (rng : Rng) (used : Nat),
      GridOK g →
      (∀ i (hi : i < ws.length), used ≤ i →
        getCell g (ws.get ⟨i, hi⟩).1 (ws.get ⟨i, hi⟩).2 = .str TILE_OPEN_SPACE) →
      LootInv g loot → (∀ e ∈ loot, P_ent e) →
      GridOK (containerLoop kind tile gen tier_weights ws n g loot rng used).1 ∧
      LootInv (containerLoop kind tile gen tier_weights ws n g loot rng used).1
        (containerLoop kind tile gen tier_weights ws n g loot rng used).2.1 ∧
      (∀ e ∈ (containerLoop kind tile gen tier_weights ws n g loot rng used).2.1,
        P_ent e) ∧
      (∀ i (hi : i < ws.length),
        (containerLoop kind tile gen tier_weights ws n g loot rng used).2.2.2 ≤ i →
        getCell (containerLoop kind tile gen tier_weights ws n g loot rng used).1
          (ws.get ⟨i, hi⟩).1 (ws.get ⟨i, hi⟩).2 = .str TILE_OPEN_SPACE)
  | 0, g, loot, rng, used, hg, hopen, hinv, hent => ⟨hg, hinv, hent, hopen⟩
  | n + 1, g, loot, rng, used, hg, hopen, hinv, hent => by
    rw [containerLoop]
    split
    case isTrue hlt =>
      have hget : ws.getD used (0, 0) = ws.get ⟨used, hlt⟩ := by
        rw [List.getD_eq_getElem?_getD, List.getElem?_eq_getElem hlt]
        rfl
      rw [hget]
      dsimp only
      have hrc_mem : ws.get ⟨used, hlt⟩ ∈ ws := List.get_mem ws used hlt
      have hrc_open := hopen used hlt le_rfl
      have hinv' := lootInv_append hg hinv htile hrc_open (hbnd _ hrc_mem)
        (gen tier_weights rng).1
      have hopen' : ∀ i (hi : i < ws.length), used + 1 ≤ i →
          getCell (setCell g (ws.get ⟨used, hlt⟩).1 (ws.get ⟨used, hlt⟩).2 (.str tile))
            (ws.get ⟨i, hi⟩).1 (ws.get ⟨i, hi⟩).2 = .str TILE_OPEN_SPACE := by
        intro i hi hle
        have hne : ws.get ⟨i, hi⟩ ≠ ws.get ⟨used, hlt⟩ := by
          intro hcon
          have hiu : i = used := Fin.mk_eq_mk.1 ((List.Nodup.get_inj_iff hnd).1 hcon)
          omega
        have hd : (ws.get ⟨i, hi⟩).1 ≠ (ws.get ⟨used, hlt⟩).1 ∨
            (ws.get ⟨i, hi⟩).2 ≠ (ws.get ⟨used, hlt⟩).2 := by
          by_cases h1 : (ws.get ⟨i, hi⟩).1 = (ws.get ⟨used, hlt⟩).1
          · right
            intro h2
            exact hne (Prod.ext h1 h2)
          · exact Or.inl h1
        rw [getCell_setCell_ne hd]
        exact hopen i hi (by omega)
      have hent' : ∀ e ∈ loot ++ [⟨kind, (ws.get ⟨used, hlt⟩).1,
          (ws.get ⟨used, hlt⟩).2, (gen tier_weights rng).1⟩], P_ent e := by
        intro e he
        rcases List.mem_append.1 he with hmem | hmem
        · exact hent e hmem
        · rw [List.mem_singleton] at hmem
          subst hmem
          exact hnewent _ hrc_mem _
      exact containerLoop_spec kind tile gen tier_weights ws htile hnd hbnd P_ent
        hnewent n _ _ (gen tier_weights rng).2 (used + 1)
        (gridRect_setCell hg _ _ _) hopen' hinv' hent'
    case isFalse => exact ⟨hg, hinv, hent, hopen⟩

/-- The chest phase obeys the same contract as the container loop. -/
theorem chestPlacePhase_spec (ws : List (Int × Int)) (room_type : String)
    (tier_weights : List (String × Nat)) (hnd : ws.Nodup)
    (hbnd : ∀ y ∈ ws, 0 ≤ y.1 ∧ y.1 < (GRID_ROWS : Int) ∧
      0 ≤ y.2 ∧ y.2 < (GRID_COLUMNS : Int))
    (P_ent : LootEntry → Prop)
    (hnewent : ∀ y ∈ ws, ∀ ld, P_ent ⟨"Chest", y.1, y.2, ld⟩)
    (g : Grid) (loot : List LootEntry) (rng : Rng)
    (hg : GridOK g)
    (hopen : ∀ i (hi : i < ws.length),
      getCell g (ws.get ⟨i, hi⟩).1 (ws.get ⟨i, hi⟩).2 = .str TILE_OPEN_SPACE)
    (hinv : LootInv g loot) (hent : ∀ e ∈ loot, P_ent e) :
    GridOK (chestPlacePhase g ws room_type tier_weights loot rng).1 ∧
    LootInv (chestPlacePhase g ws room_type tier_weights loot rng).1
      (chestPlacePhase g ws room_type tier_weights loot rng).2.1 ∧
    (∀ e ∈ (chestPlacePhase g ws room_type tier_weights loot rng).2.1, P_ent e) ∧
    (∀ i (hi : i < ws.length),
      (chestPlacePhase g ws room_type tier_weights loot rng).2.2.2 ≤ i →
      getCell (chestPlacePhase g ws room_type tier_weights loot rng).1
        (ws.get ⟨i, hi⟩).1 (ws.get ⟨i, hi⟩).2 = .str TILE_OPEN_SPACE) := by
  unfold chestPlacePhase
  split
  · dsimp only
    split
    · split
      case isTrue hlt =>
        have hget : ws.getD 0 (0, 0) = ws.get ⟨0, hlt⟩ := by
          rw [List.getD_eq_getElem?_getD, List.getElem?_eq_getElem hlt]
          rfl
        rw [hget]
        dsimp only
        have hrc_mem : ws.get ⟨0, hlt⟩ ∈ ws := List.get_mem ws 0 hlt
        have htile : lootTile "Chest" = .str TILE_CHEST := by
          unfold lootTile
          rw [if_neg (by decide), if_neg (by decide)]
        refine ⟨gridRect_setCell hg _ _ _, ?_, ?_, ?_⟩
        · exact lootInv_append hg hinv htile (hopen 0 hlt) (hbnd _ hrc_mem) _
        · intro e he
          rcases List.mem_append.1 he with hmem | hmem
          · exact hent e hmem
          · rw [List.mem_singleton] at hmem
            subst hmem
            exact hnewent _ hrc_mem _
        · intro i hi hle
          have hne : ws.get ⟨i, hi⟩ ≠ ws.get ⟨0, hlt⟩ := by
            intro hcon
            have hiu : i = 0 := Fin.mk_eq_mk.1 ((List.Nodup.get_inj_iff hnd).1 hcon)
            omega
          have hd : (ws.get ⟨i, hi⟩).1 ≠ (ws.get ⟨0, hlt⟩).1 ∨
              (ws.get ⟨i, hi⟩).2 ≠ (ws.get ⟨0, hlt⟩).2 := by
            by_cases h1 : (ws.get ⟨i, hi⟩).1 = (ws.get ⟨0, hlt⟩).1
            · right
              intro h2
              exact hne (Prod.ext h1 h2)
            · exact Or.inl h1
          rw [getCell_setCell_ne hd]
          exact hopen i hi
      case isFalse => exact ⟨hg, hinv, hent, fun i hi _ => hopen i hi⟩
    · exact ⟨hg, hinv, hent, fun i hi _ => hopen i hi⟩
  · exact ⟨hg, hinv, hent, fun i hi _ => hopen i hi⟩

theorem lootTile_barrel : lootTile "Barrel" = .str TILE_BARREL := by
  unfold lootTile
  rw [if_pos rfl]

theorem lootTile_crate : lootTile "Crate" = .str TILE_CRATE := by
  unfold lootTile
  rw [if_neg (by decide), if_pos rfl]

theorem lootTile_chest : lootTile "Chest" = .str TILE_CHEST := by
  unfold lootTile
  rw [if_neg (by decide), if_neg (by decide)]

/-- `place_containers_in_room` keeps the manifest consistent; every new
entry sits strictly inside the room rectangle. -/
theorem place_containers_loot (g : Grid) (start_r start_c width height : Int)
    (room_type : String) (tier_weights : List (String × Nat))
    (loot : List LootEntry) (rng : Rng) (hg : GridOK g)
    (hb : 1 ≤ start_r ∧ 1 ≤ start_c ∧ start_r + height ≤ (GRID_ROWS : Int) - 1 ∧
      start_c + width ≤ (GRID_COLUMNS : Int) - 1)
    (P_ent : LootEntry → Prop)
    (hnewent : ∀ (kind : String) (r c : Int), start_r + 1 ≤ r →
      r ≤ start_r + height - 2 → start_c + 1 ≤ c → c ≤ start_c + width - 2 →
      ∀ ld, P_ent ⟨kind, r, c, ld⟩)
    (hinv : LootInv g loot) (hent : ∀ e ∈ loot, P_ent e) :
    GridOK (place_containers_in_room g start_r start_c width height room_type
      tier_weights loot rng).1 ∧
    LootInv (place_containers_in_room g start_r start_c width height room_type
        tier_weights loot rng).1
      (place_containers_in_room g start_r start_c width height room_type
        tier_weights loot rng).2.1 ∧
    ∀ e ∈ (place_containers_in_room g start_r start_c width height room_type
        tier_weights loot rng).2.1, P_ent e := by
  unfold place_containers_in_room
  simp only []
  set ot0 := (prodRange (intRange (start_r + 1) (start_r + height - 1))
    (intRange (start_c + 1) (start_c + width - 1))).filter
    (fun rc => getCell g rc.1 rc.2 = .str TILE_OPEN_SPACE) with hot0
  set ot := (shuffle ot0 rng).1 with hot
  have hnd : ot.Nodup :=
    shuffle_nodup ((nodup_prodRange nodup_intRange nodup_intRange).filter _)
  have hot_spec : ∀ y ∈ ot,
      (start_r + 1 ≤ y.1 ∧ y.1 ≤ start_r + height - 2 ∧
        start_c + 1 ≤ y.2 ∧ y.2 ≤ start_c + width - 2) ∧
      getCell g y.1 y.2 = .str TILE_OPEN_SPACE :=
    fun y hy => open_tiles_spec (shuffle_mem.1 hy)
  have hbnd : ∀ y ∈ ot, 0 ≤ y.1 ∧ y.1 < (GRID_ROWS : Int) ∧
      0 ≤ y.2 ∧ y.2 < (GRID_COLUMNS : Int) := by
    intro y hy
    have hq := (hot_spec y hy).1
    exact ⟨by omega, by omega, by omega, by omega⟩
  have hopen0 : ∀ i (hi : i < ot.length),
      getCell g (ot.get ⟨i, hi⟩).1 (ot.get ⟨i, hi⟩).2 = .str TILE_OPEN_SPACE :=
    fun i hi => (hot_spec _ (List.get_mem ot i hi)).2
  have hnew : ∀ (kind : String), ∀ y ∈ ot, ∀ ld, P_ent ⟨kind, y.1, y.2, ld⟩ := by
    intro kind y hy ld
    have hq := (hot_spec y hy).1
    exact hnewent kind y.1 y.2 hq.1 hq.2.1 hq.2.2.1 hq.2.2.2 ld
  have hspec1 := chestPlacePhase_spec ot room_type tier_weights hnd hbnd P_ent
    (hnew "Chest") g loot (shuffle ot0 rng).2 hg hopen0 hinv hent
  have hspec2 := containerLoop_spec "Barrel" TILE_BARREL lootBarrel_generate_loot
    tier_weights ot lootTile_barrel hnd hbnd P_ent (hnew "Barrel")
    (randint BARREL_COUNT_MIN
      (if 1 < BARREL_COUNT_MAX then BARREL_COUNT_MAX / 2 else 1)
      (chestPlacePhase g ot room_type tier_weights loot (shuffle ot0 rng).2).2.2.1).1
    (chestPlacePhase g ot room_type tier_weights loot (shuffle ot0 rng).2).1
    (chestPlacePhase g ot room_type tier_weights loot (shuffle ot0 rng).2).2.1
    (randint BARREL_COUNT_MIN
      (if 1 < BARREL_COUNT_MAX then BARREL_COUNT_MAX / 2 else 1)
      (chestPlacePhase g ot room_type tier_weights loot (shuffle ot0 rng).2).2.2.1).2
    (chestPlacePhase g ot room_type tier_weights loot (shuffle ot0 rng).2).2.2.2
    hspec1.1 hspec1.2.2.2 hspec1.2.1 hspec1.2.2.1
  refine ⟨?_, ?_, ?_⟩ <;>
  · first
    | exact (containerLoop_spec "Crate" TILE_CRATE lootCrate_generate_loot
        tier_weights ot lootTile_crate hnd hbnd P_ent (hnew "Crate") _ _ _ _ _
        hspec2.1 hspec2.2.2.2 hspec2.2.1 hspec2.2.2.1).1
    | exact (containerLoop_spec "Crate" TILE_CRATE lootCrate_generate_loot
        tier_weights ot lootTile_crate hnd hbnd P_ent (hnew "Crate") _ _ _ _ _
        hspec2.1 hspec2.2.2.2 hspec2.2.1 hspec2.2.2.1).2.1
    | exact (containerLoop_spec "Crate" TILE_CRATE lootCrate_generate_loot
        tier_weights ot lootTile_crate hnd hbnd P_ent (hnew "Crate") _ _ _ _ _
        hspec2.1 hspec2.2.2.2 hspec2.2.1 hspec2.2.2.1).2.2.1

theorem lootInv_frame {W : Int → Int → Cell → Cell → Prop} {g g' : Grid}
    (he : GridEvolve W g g') {loot : List LootEntry}
    (hW : ∀ e ∈ loot, ∀ a b, ¬ W e.row e.column a b)
    (hinv : LootInv g loot) : LootInv g' loot := by
  constructor
  · intro e he'
    rw [gridEvolve_point_frame he (hW e he')]
    exact hinv.1 e he'
  · exact hinv.2

theorem lootInv_frame_old {W : Int → Int → Cell → Cell → Prop} {g g' : Grid}
    (he : GridEvolve W g g') {loot : List LootEntry}
    (hW : ∀ e ∈ loot, ∀ b, ¬ W e.row e.column (getCell g e.row e.column) b)
    (hinv : LootInv g loot) : LootInv g' loot := by
  constructor
  · intro e he'
    rw [gridEvolve_point_frame_old he (hW e he')]
    exact hinv.1 e he'
  · exact hinv.2

/-- `carve_small_room` keeps the manifest consistent whenever no existing
entry sits inside the new room's rectangle; new entries are strictly
inside it. -/
theorem carve_small_loot (g : Grid) (start_r start_c width height : Int) (k : Nat)
    (tier_weights : List (String × Nat)) (loot : List LootEntry) (rng : Rng)
    (hg : GridOK g) (hw : 2 ≤ width) (hh : 2 ≤ height)
    (hb : 1 ≤ start_r ∧ 1 ≤ start_c ∧ start_r + height ≤ (GRID_ROWS : Int) - 1 ∧
      start_c + width ≤ (GRID_COLUMNS : Int) - 1)
    (P_ent : LootEntry → Prop)
    (hnewent : ∀ (kind : String) (r c : Int), start_r + 1 ≤ r →
      r ≤ start_r + height - 2 → start_c + 1 ≤ c → c ≤ start_c + width - 2 →
      ∀ ld, P_ent ⟨kind, r, c, ld⟩)
    (hinv : LootInv g loot) (hent : ∀ e ∈ loot, P_ent e)
    (hold : ∀ e ∈ loot, ¬ inRect start_r start_c width height e.row e.column) :
    GridOK (carve_small_room g start_r start_c width height k
      tier_weights loot rng).1 ∧
    LootInv (carve_small_room g start_r start_c width height k
        tier_weights loot rng).1
      (carve_small_room g start_r start_c width height k tier_weights loot rng).2.1 ∧
    ∀ e ∈ (carve_small_room g start_r start_c width height k
        tier_weights loot rng).2.1, P_ent e := by
  rw [carve_small_room_eq]
  set G1 := (prodRange (intRange start_r (start_r + height))
      (intRange start_c (start_c + width))).foldl
    (carvePerimeterCell start_r start_c (start_r + height - 1) (start_c + width - 1)) g
    with hG1
  set pool := roomWallTiles start_r start_c width height with hpool
  set ws := (shuffle pool rng).1 with hws
  set G2 := exitLoop k G1 ws 0 with hG2
  have hG1ok : GridOK G1 := (carvePerimeter_ok start_r start_c width height g hg hb).1
  have hG2ok : GridOK G2 := gridOK_exitLoop k G1 ws 0 hG1ok
  have hinv1 : LootInv G1 loot := by
    refine lootInv_frame (carvePerimeter_evolve start_r start_c width height g) ?_ hinv
    intro e he' a b hWc
    exact hold e he' hWc.1
  have hinv2 : LootInv G2 loot := by
    refine lootInv_frame (exitLoop_evolve k G1 ws 0) ?_ hinv1
    intro e he' a b hWc
    exact hold e he'
      (roomWallTiles_subset_rect (by omega) (by omega) (shuffle_mem.1 hWc.1))
  exact place_containers_loot G2 start_r start_c width height "Small" tier_weights
    loot (shuffle pool rng).2 hG2ok hb P_ent hnewent hinv2 hent

theorem isClearForSub_cells {g : Grid} {sub_r sub_c sub_width sub_height : Int}
    (h : isClearForSub g sub_r sub_c sub_width sub_height = true)
    {r c : Int} (hr : sub_r ≤ r) (hr2 : r < sub_r + sub_height)
    (hc : sub_c ≤ c) (hc2 : c < sub_c + sub_width) :
    getCell g r c = .str TILE_OPEN_SPACE := by
  unfold isClearForSub at h
  have hmem : (r, c) ∈ prodRange (intRange sub_r (sub_r + sub_height))
      (intRange sub_c (sub_c + sub_width)) :=
    mem_prodRange.2 ⟨mem_intRange.2 ⟨hr, hr2⟩, mem_intRange.2 ⟨hc, hc2⟩⟩
  exact of_decide_eq_true (List.all_eq_true.1 h _ hmem)

/-- The sub-room phase of a Large room keeps the manifest consistent; its
new entries are strictly inside the outer room's rectangle. -/
theorem subRoomPhase_loot (g : Grid) (start_r start_c width height : Int)
    (tier_weights : List (String × Nat)) (loot : List LootEntry) (rng : Rng)
    (hg : GridOK g)
    (hb : 1 ≤ start_r ∧ 1 ≤ start_c ∧ start_r + height ≤ (GRID_ROWS : Int) - 1 ∧
      start_c + width ≤ (GRID_COLUMNS : Int) - 1)
    (P_ent : LootEntry → Prop)
    (hnewent : ∀ (kind : String) (r c : Int), start_r + 1 ≤ r →
      r ≤ start_r + height - 2 → start_c + 1 ≤ c → c ≤ start_c + width - 2 →
      ∀ ld, P_ent ⟨kind, r, c, ld⟩)
    (hinv : LootInv g loot) (hent : ∀ e ∈ loot, P_ent e) :
    GridOK (subRoomPhase g start_r start_c width height tier_weights loot rng).1 ∧
    LootInv (subRoomPhase g start_r start_c width height tier_weights loot rng).1
      (subRoomPhase g start_r start_c width height tier_weights loot rng).2.1 ∧
    ∀ e ∈ (subRoomPhase g start_r start_c width height tier_weights
        loot rng).2.1, P_ent e := by
  unfold subRoomPhase
  rcases hcd : randChoice (0, 0) ROOM_DIMENSIONS_SMALL rng with ⟨subdim, rng4⟩
  dsimp only
  rcases hsh : shuffle (prodRange
      (intRange (start_r + 1) (start_r + 1 + (height - 2) - subdim.2 + 1))
      (intRange (start_c + 1) (start_c + 1 + (width - 2) - subdim.1 + 1)))
      rng4 with ⟨starts, rng5⟩
  dsimp only
  split
  case h_1 rc hfind =>
    have hdim : subdim ∈ ROOM_DIMENSIONS_SMALL := by
      have := randChoice_mem (0, 0) (by decide : ROOM_DIMENSIONS_SMALL ≠ []) rng
      rw [hcd] at this
      exact this
    have hdims : 2 ≤ subdim.1 ∧ 2 ≤ subdim.2 :=
      dims_ge_two subdim (List.mem_append_left _ (List.mem_append_left _ hdim))
    have hrc : rc ∈ starts := List.mem_of_find?_eq_some hfind
    have hrc0 : rc ∈ prodRange
        (intRange (start_r + 1) (start_r + 1 + (height - 2) - subdim.2 + 1))
        (intRange (start_c + 1) (start_c + 1 + (width - 2) - subdim.1 + 1)) := by
      have hperm := shuffle_perm (prodRange
        (intRange (start_r + 1) (start_r + 1 + (height - 2) - subdim.2 + 1))
        (intRange (start_c + 1) (start_c + 1 + (width - 2) - subdim.1 + 1))) rng4
      rw [hsh] at hperm
      exact hperm.mem_iff.1 hrc
    have hb1 := mem_intRange.1 (mem_prodRange.1 hrc0).1
    have hb2 := mem_intRange.1 (mem_prodRange.1 hrc0).2
    have hclear : isClearForSub g rc.1 rc.2 subdim.1 subdim.2 = true := by
      have := List.find?_some hfind
      simpa using this
    have hold' : ∀ e ∈ loot, ¬ inRect rc.1 rc.2 subdim.1 subdim.2 e.row e.column := by
      intro e he' hin
      unfold inRect at hin
      have hcell := isClearForSub_cells hclear (r := e.row) (c := e.column)
        (by omega) (by omega) (by omega) (by omega)
      rw [hinv.1 e he'] at hcell
      exact absurd hcell (lootTile_ne_open e.type)
    have hnewent' : ∀ (kind : String) (r c : Int), rc.1 + 1 ≤ r →
        r ≤ rc.1 + subdim.2 - 2 → rc.2 + 1 ≤ c → c ≤ rc.2 + subdim.1 - 2 →
        ∀ ld, P_ent ⟨kind, r, c, ld⟩ := by
      intro kind r c q1 q2 q3 q4 ld
      exact hnewent kind r c (by omega) (by omega) (by omega) (by omega) ld
    exact carve_small_loot g rc.1 rc.2 subdim.1 subdim.2 1 tier_weights loot rng5
      hg hdims.1 hdims.2 ⟨by omega, by omega, by omega, by omega⟩ P_ent hnewent'
      hinv hent hold'
  case h_2 hfind => exact ⟨hg, hinv, hent⟩

theorem carve_medium_loot (g : Grid) (start_r start_c width height : Int) (k : Nat)
    (tier_weights : List (String × Nat)) (loot : List LootEntry) (rng : Rng)
    (hg : GridOK g) (hw : 2 ≤ width) (hh : 2 ≤ height)
    (hb : 1 ≤ start_r ∧ 1 ≤ start_c ∧ start_r + height ≤ (GRID_ROWS : Int) - 1 ∧
      start_c + width ≤ (GRID_COLUMNS : Int) - 1)
    (P_ent : LootEntry → Prop)
    (hnewent : ∀ (kind : String) (r c : Int), start_r + 1 ≤ r →
      r ≤ start_r + height - 2 → start_c + 1 ≤ c → c ≤ start_c + width - 2 →
      ∀ ld, P_ent ⟨kind, r, c, ld⟩)
    (hinv : LootInv g loot) (hent : ∀ e ∈ loot, P_ent e)
    (hold : ∀ e ∈ loot, ¬ inRect start_r start_c width height e.row e.column) :
    GridOK (carve_medium_room g start_r start_c width height k
      tier_weights loot rng).1 ∧
    LootInv (carve_medium_room g start_r start_c width height k
        tier_weights loot rng).1
      (carve_medium_room g start_r start_c width height k tier_weights loot rng).2.1 ∧
    ∀ e ∈ (carve_medium_room g start_r start_c width height k
        tier_weights loot rng).2.1, P_ent e := by
  rcases h1 : carve_small_room g start_r start_c width height k
    tier_weights loot rng with ⟨g1, loot1, rng1⟩
  have hspec := carve_small_loot g start_r start_c width height k
    tier_weights loot rng hg hw hh hb P_ent hnewent hinv hent hold
  rw [h1] at hspec
  rw [carve_medium_room, h1]
  dsimp only
  split
  case isTrue hcond =>
    rcases h2 : randint 1 3 rng1 with ⟨nw, rng2⟩
    dsimp only
    rcases h3 : interiorWallLoop (start_r + 1) (start_c + 1) (width - 2) (height - 2)
      nw g1 rng2 with ⟨g2, rng3⟩
    dsimp only
    have he12 : GridEvolve (WIWall (start_r + 1) (start_c + 1) (width - 2) (height - 2))
        g1 g2 := by
      have hev := interiorWallLoop_evolve (start_r + 1) (start_c + 1) (width - 2)
        (height - 2) (by omega) (by omega) nw g1 rng2
      rw [h3] at hev
      exact hev
    have hg2 : GridOK g2 := by
      have hok := gridOK_interiorWallLoop (start_r + 1) (start_c + 1) (width - 2)
        (height - 2) nw g1 rng2 hspec.1
      rw [h3] at hok
      exact hok
    have hinv2 : LootInv g2 loot1 := by
      refine lootInv_frame_old he12 ?_ hspec.2.1
      intro e he' b hWc
      have hv := hspec.2.1.1 e he'
      rw [hv] at hWc
      exact absurd hWc.2.1 (lootTile_ne_open e.type)
    exact place_containers_loot g2 start_r start_c width height "Medium" tier_weights
      loot1 rng3 hg2 hb P_ent hnewent hinv2 hspec.2.2
  case isFalse hcond =>
    dsimp only
    exact place_containers_loot g1 start_r start_c width height "Medium" tier_weights
      loot1 rng1 hspec.1 hb P_ent hnewent hspec.2.1 hspec.2.2

theorem carve_large_loot (g : Grid) (start_r start_c width height : Int) (k : Nat)
    (tier_weights : List (String × Nat)) (loot : List LootEntry) (rng : Rng)
    (hg : GridOK g) (hw : 2 ≤ width) (hh : 2 ≤ height)
    (hb : 1 ≤ start_r ∧ 1 ≤ start_c ∧ start_r + height ≤ (GRID_ROWS : Int) - 1 ∧
      start_c + width ≤ (GRID_COLUMNS : Int) - 1)
    (P_ent : LootEntry → Prop)
    (hnewent : ∀ (kind : String) (r c : Int), start_r + 1 ≤ r →
      r ≤ start_r + height - 2 → start_c + 1 ≤ c → c ≤ start_c + width - 2 →
      ∀ ld, P_ent ⟨kind, r, c, ld⟩)
    (hinv : LootInv g loot) (hent : ∀ e ∈ loot, P_ent e)
    (hold : ∀ e ∈ loot, ¬ inRect start_r start_c width height e.row e.column) :
    GridOK (carve_large_room g start_r start_c width height k
      tier_weights loot rng).1 ∧
    LootInv (carve_large_room g start_r start_c width height k
        tier_weights loot rng).1
      (carve_large_room g start_r start_c width height k tier_weights loot rng).2.1 ∧
    ∀ e ∈ (carve_large_room g start_r start_c width height k
        tier_weights loot rng).2.1, P_ent e := by
  rcases h1 : carve_small_room g start_r start_c width height k
    tier_weights loot rng with ⟨g1, loot1, rng1⟩
  have hspec := carve_small_loot g start_r start_c width height k
    tier_weights loot rng hg hw hh hb P_ent hnewent hinv hent hold
  rw [h1] at hspec
  rw [carve_large_room, h1]
  dsimp only
  split
  case isTrue hcond =>
    rcases h2 : randint 1 3 rng1 with ⟨nw, rng2⟩
    dsimp only
    rcases h3 : interiorWallLoop (start_r + 1) (start_c + 1) (width - 2) (height - 2)
      nw g1 rng2 with ⟨g2, rng3⟩
    dsimp only
    have he12 : GridEvolve (WIWall (start_r + 1) (start_c + 1) (width - 2) (height - 2))
        g1 g2 := by
      have hev := interiorWallLoop_evolve (start_r + 1) (start_c + 1) (width - 2)
        (height - 2) (by omega) (by omega) nw g1 rng2
      rw [h3] at hev
      exact hev
    have hg2 : GridOK g2 := by
      have hok := gridOK_interiorWallLoop (start_r + 1) (start_c + 1) (width - 2)
        (height - 2) nw g1 rng2 hspec.1
      rw [h3] at hok
      exact hok
    have hinv2 : LootInv g2 loot1 := by
      refine lootInv_frame_old he12 ?_ hspec.2.1
      intro e he' b hWc
      have hv := hspec.2.1.1 e he'
      rw [hv] at hWc
      exact absurd hWc.2.1 (lootTile_ne_open e.type)
    rcases h4 : subRoomPhase g2 start_r start_c width height tier_weights loot1 rng3
      with ⟨g3, loot3, rng4⟩
    dsimp only
    have hsub := subRoomPhase_loot g2 start_r start_c width height tier_weights
      loot1 rng3 hg2 hb P_ent hnewent hinv2 hspec.2.2
    rw [h4] at hsub
    exact place_containers_loot g3 start_r start_c width height "Large" tier_weights
      loot3 rng4 hsub.1 hb P_ent hnewent hsub.2.1 hsub.2.2
  case isFalse hcond =>
    dsimp only
    rcases h4 : subRoomPhase g1 start_r start_c width height tier_weights loot1 rng1
      with ⟨g3, loot3, rng4⟩
    dsimp only
    have hsub := subRoomPhase_loot g1 start_r start_c width height tier_weights
      loot1 rng1 hspec.1 hb P_ent hnewent hspec.2.1 hspec.2.2
    rw [h4] at hsub
    exact place_containers_loot g3 start_r start_c width height "Large" tier_weights
      loot3 rng4 hsub.1 hb P_ent hnewent hsub.2.1 hsub.2.2

/-- Every manifest entry placed so far sits strictly inside some placed
room's rectangle. -/
def LootRoomed (rooms : List RoomData) (loot : List LootEntry) : Prop :=
  ∀ e ∈ loot, ∃ rm ∈ rooms, rm.placed = true ∧
    rm.start_r + 1 ≤ e.row ∧ e.row ≤ rm.start_r + rm.height - 2 ∧
    rm.start_c + 1 ≤ e.column ∧ e.column ≤ rm.start_c + rm.width - 2

set_option maxHeartbeats 4000000 in
theorem placeRoomStep_loot (tier_weights : List (String × Nat))
    (st : Grid × List RoomData × List LootEntry × Rng) (room : RoomData)
    (hg : GridOK st.1) (hall : ∀ rm ∈ st.2.1, RoomSpec st.1 rm)
    (hinv : LootInv st.1 st.2.2.1) (hroomed : LootRoomed st.2.1 st.2.2.1)
    (hdw : 2 ≤ room.width) (hdh : 2 ≤ room.height)
    (htype : room.type = "Small" ∨ room.type = "Medium" ∨ room.type = "Large") :
    LootInv (placeRoomStep tier_weights st room).1
      (placeRoomStep tier_weights st room).2.2.1 ∧
    LootRoomed (placeRoomStep tier_weights st room).2.1
      (placeRoomStep tier_weights st room).2.2.1 := by
  rcases st with ⟨g, rooms_out, loot, rng⟩
  unfold placeRoomStep
  dsimp only at hg hall hinv hroomed ⊢
  split
  case isTrue hne =>
    have hclear := find_clear_area_spec g room.width room.height rng hne
    have hb := is_area_clear_bounds hclear
    rw [gridOK_rows hg, gridOK_cols hg] at hb
    have hcells : ∀ r c,
        (find_clear_area g room.width room.height rng).1.1 ≤ r →
        r < (find_clear_area g room.width room.height rng).1.1 + room.height →
        (find_clear_area g room.width room.height rng).1.2 ≤ c →
        c < (find_clear_area g room.width room.height rng).1.2 + room.width →
        getCell g r c = .num MAZE_WALL :=
      fun r c h1 h2 h3 h4 => is_area_clear_cells hclear h1 h2 h3 h4
    have hold : ∀ e ∈ loot,
        ¬ inRect (find_clear_area g room.width room.height rng).1.1
          (find_clear_area g room.width room.height rng).1.2
          room.width room.height e.row e.column := by
      intro e he'
      obtain ⟨rm, hrm, hprm, q1, q2, q3, q4⟩ := hroomed e he'
      have hdisj := disjoint_of_clear (hall rm hrm) hprm hcells
      have hin_rm : inRect rm.start_r rm.start_c rm.width rm.height e.row e.column := by
        unfold inRect
        exact ⟨by omega, by omega, by omega, by omega⟩
      exact hdisj e.row e.column hin_rm
    set P_ent : LootEntry → Prop := fun e =>
      (∃ rm ∈ rooms_out, rm.placed = true ∧
        rm.start_r + 1 ≤ e.row ∧ e.row ≤ rm.start_r + rm.height - 2 ∧
        rm.start_c + 1 ≤ e.column ∧ e.column ≤ rm.start_c + rm.width - 2) ∨
      ((find_clear_area g room.width room.height rng).1.1 + 1 ≤ e.row ∧
        e.row ≤ (find_clear_area g room.width room.height rng).1.1 + room.height - 2 ∧
        (find_clear_area g room.width room.height rng).1.2 + 1 ≤ e.column ∧
        e.column ≤ (find_clear_area g room.width room.height rng).1.2 + room.width - 2)
      with hP
    have hent : ∀ e ∈ loot, P_ent e := fun e he' => Or.inl (hroomed e he')
    have hnewent : ∀ (kind : String) (r c : Int),
        (find_clear_area g room.width room.height rng).1.1 + 1 ≤ r →
        r ≤ (find_clear_area g room.width room.height rng).1.1 + room.height - 2 →
        (find_clear_area g room.width room.height rng).1.2 + 1 ≤ c →
        c ≤ (find_clear_area g room.width room.height rng).1.2 + room.width - 2 →
        ∀ ld, P_ent ⟨kind, r, c, ld⟩ :=
      fun kind r c q1 q2 q3 q4 ld => Or.inr ⟨q1, q2, q3, q4⟩
    have hmain : ∀ (loot' : List LootEntry) (G' : Grid),
        LootInv G' loot' → (∀ e ∈ loot', P_ent e) →
        ∀ room' : RoomData, room'.placed = true →
        room'.width = room.width → room'.height = room.height →
        room'.start_r = (find_clear_area g room.width room.height rng).1.1 →
        room'.start_c = (find_clear_area g room.width room.height rng).1.2 →
        LootInv G' loot' ∧ LootRoomed (rooms_out ++ [room']) loot' := by
      intro loot' G' hinv' hent' room' hq0 hq1 hq2 hq3 hq4
      refine ⟨hinv', ?_⟩
      intro e he'
      rcases hent' e he' with ⟨rm, hrm, hrest⟩ | hbnds
      · exact ⟨rm, List.mem_append_left _ hrm, hrest⟩
      · refine ⟨room', List.mem_append_right _ (List.mem_singleton.2 rfl), hq0, ?_⟩
        rw [hq1, hq2, hq3, hq4]
        exact hbnds
    dsimp only
    rcases htype with ht | ht | ht
    · rw [ht]
      rw [if_pos rfl]
      rcases hc : carve_small_room g
        (find_clear_area g room.width room.height rng).1.1
        (find_clear_area g room.width room.height rng).1.2
        room.width room.height room.exits_required tier_weights loot
        (find_clear_area g room.width room.height rng).2 with ⟨G2, loot2, rng2⟩
      dsimp only
      have hspec := carve_small_loot g
        (find_clear_area g room.width room.height rng).1.1
        (find_clear_area g room.width room.height rng).1.2
        room.width room.height room.exits_required tier_weights loot
        (find_clear_area g room.width room.height rng).2 hg hdw hdh
        ⟨hb.1, hb.2.1, hb.2.2.1, hb.2.2.2⟩ P_ent hnewent hinv hent hold
      rw [hc] at hspec
      exact hmain loot2 G2 hspec.2.1 hspec.2.2 _ rfl rfl rfl rfl rfl
    · rw [ht]
      rw [if_neg (by decide), if_pos rfl]
      rcases hc : carve_medium_room g
        (find_clear_area g room.width room.height rng).1.1
        (find_clear_area g room.width room.height rng).1.2
        room.width room.height room.exits_required tier_weights loot
        (find_clear_area g room.width room.height rng).2 with ⟨G2, loot2, rng2⟩
      dsimp only
      have hspec := carve_medium_loot g
        (find_clear_area g room.width room.height rng).1.1
        (find_clear_area g room.width room.height rng).1.2
        room.width room.height room.exits_required tier_weights loot
        (find_clear_area g room.width room.height rng).2 hg hdw hdh
        ⟨hb.1, hb.2.1, hb.2.2.1, hb.2.2.2⟩ P_ent hnewent hinv hent hold
      rw [hc] at hspec
      exact hmain loot2 G2 hspec.2.1 hspec.2.2 _ rfl rfl rfl rfl rfl
    · rw [ht]
      rw [if_neg (by decide), if_neg (by decide), if_pos rfl]
      rcases hc : carve_large_room g
        (find_clear_area g room.width room.height rng).1.1
        (find_clear_area g room.width room.height rng).1.2
        room.width room.height room.exits_required tier_weights loot
        (find_clear_area g room.width room.height rng).2 with ⟨G2, loot2, rng2⟩
      dsimp only
      have hspec := carve_large_loot g
        (find_clear_area g room.width room.height rng).1.1
        (find_clear_area g room.width room.height rng).1.2
        room.width room.height room.exits_required tier_weights loot
        (find_clear_area g room.width room.height rng).2 hg hdw hdh
        ⟨hb.1, hb.2.1, hb.2.2.1, hb.2.2.2⟩ P_ent hnewent hinv hent hold
      rw [hc] at hspec
      exact hmain loot2 G2 hspec.2.1 hspec.2.2 _ rfl rfl rfl rfl rfl
  case isFalse =>
    refine ⟨hinv, ?_⟩
    intro e he'
    obtain ⟨rm, hrm, hrest⟩ := hroomed e he'
    exact ⟨rm, List.mem_append_left _ hrm, hrest⟩

/-- The placement stage, started with an empty manifest, ends with a
consistent manifest whose entries all sit strictly inside placed rooms. -/
theorem place_rooms_loot (rooms : List RoomData) (g : Grid)
    (tier_weights : List (String × Nat)) (rng : Rng) (hg : GridOK g)
    (hrooms : ∀ room ∈ rooms, 2 ≤ room.width ∧ 2 ≤ room.height ∧
      room.placed = false ∧
      (room.type = "Small" ∨ room.type = "Medium" ∨ room.type = "Large")) :
    LootInv (place_rooms_in_dungeon g rooms tier_weights [] rng).1
      (place_rooms_in_dungeon g rooms tier_weights [] rng).2.2.1 ∧
    LootRoomed (place_rooms_in_dungeon g rooms tier_weights [] rng).2.1
      (place_rooms_in_dungeon g rooms tier_weights [] rng).2.2.1 := by
  unfold place_rooms_in_dungeon
  have hfold := foldl_preserve
    (fun st : Grid × List RoomData × List LootEntry × Rng =>
      (GridOK st.1 ∧ (∀ rm ∈ st.2.1, RoomSpec st.1 rm) ∧
        List.Pairwise RoomsDisjoint st.2.1) ∧
      LootInv st.1 st.2.2.1 ∧ LootRoomed st.2.1 st.2.2.1)
    (placeRoomStep tier_weights) rooms (g, [], [], rng)
    ⟨⟨hg, by simp, List.Pairwise.nil⟩, ⟨by simp, List.Pairwise.nil⟩, by
      intro e he'
      exact absurd he' (List.not_mem_nil e)⟩
    (fun s room hroom hs =>
      ⟨placeRoomStep_spec tier_weights s room hs.1.1 hs.1.2.1 hs.1.2.2
          (hrooms room hroom).1 (hrooms room hroom).2.1
          (hrooms room hroom).2.2.2 (hrooms room hroom).2.2.1,
        placeRoomStep_loot tier_weights s room hs.1.1 hs.1.2.1 hs.2.1 hs.2.2
          (hrooms room hroom).1 (hrooms room hroom).2.1
          (hrooms room hroom).2.2.2⟩)
  exact hfold.2

theorem loot_pipelineAfterPlacement (rng : Rng) :
    LootInv (pipelineAfterPlacement rng).grid (pipelineAfterPlacement rng).loot ∧
    LootRoomed (pipelineAfterPlacement rng).rooms (pipelineAfterPlacement rng).loot := by
  unfold pipelineAfterPlacement
  dsimp only
  exact place_rooms_loot (generate_rooms_data rng).1
    (init_inner_grid (generate_initial_box_dungeon GRID_ROWS GRID_COLUMNS))
    GEAR_TIER_WEIGHTS (generate_rooms_data rng).2
    (gridOK_init_inner gridOK_box)
    (fun room hroom =>
      ⟨(generate_rooms_data_dims2 rng room hroom).1,
        (generate_rooms_data_dims2 rng room hroom).2,
        (generate_rooms_data_types rng room hroom).1,
        (generate_rooms_data_types rng room hroom).2⟩)

theorem lootTile_ne_num (t : String) (n : Nat) : lootTile t ≠ .num n := by
  unfold lootTile
  split
  · simp
  · split
    · simp
    · simp

/-- `lootInv_append` over any walkable floor tile rather than just
`OpenFloor`. -/
theorem lootInv_append_floor {g : Grid} {loot : List LootEntry} (hg : GridOK g)
    (hinv : LootInv g loot) {rc : Int × Int} {kind tile : String}
    (htile : lootTile kind = .str tile)
    (hfloor : getCell g rc.1 rc.2 ∈ validFloorTiles)
    (hbnd : 0 ≤ rc.1 ∧ rc.1 < (GRID_ROWS : Int) ∧
      0 ≤ rc.2 ∧ rc.2 < (GRID_COLUMNS : Int))
    (ld : List Gear) :
    LootInv (setCell g rc.1 rc.2 (.str tile)) (loot ++ [⟨kind, rc.1, rc.2, ld⟩]) := by
  have hne_coords : ∀ e ∈ loot, (e.row, e.column) ≠ rc := by
    intro e he hcon
    have hv := hinv.1 e he
    rw [show e.row = rc.1 from congrArg Prod.fst hcon,
      show e.column = rc.2 from congrArg Prod.snd hcon] at hv
    rw [hv] at hfloor
    exact absurd hfloor (lootTile_not_floor e.type)
  constructor
  · intro e he
    rcases List.mem_append.1 he with hmem | hmem
    · have hd : e.row ≠ rc.1 ∨ e.column ≠ rc.2 := by
        by_cases h1 : e.row = rc.1
        · right
          intro h2
          exact hne_coords e hmem (Prod.ext h1 h2)
        · exact Or.inl h1
      rw [getCell_setCell_ne hd]
      exact hinv.1 e hmem
    · rw [List.mem_singleton] at hmem
      subst hmem
      dsimp only
      rw [getCell_setCell_self_ok hg ⟨hbnd.1, hbnd.2.1⟩ ⟨hbnd.2.2.1, hbnd.2.2.2⟩]
      exact htile.symm
  · rw [List.pairwise_append]
    refine ⟨hinv.2, List.pairwise_singleton _ _, ?_⟩
    intro a ha b hbm
    rw [List.mem_singleton] at hbm
    subst hbm
    intro hcon
    exact hne_coords a ha (by
      have h1 := congrArg Prod.fst hcon
      have h2 := congrArg Prod.snd hcon
      dsimp at h1 h2
      exact Prod.ext h1 h2)

theorem lootInv_connect {g : Grid} {rooms : List RoomData} {loot : List LootEntry}
    (hinv : LootInv g loot) : LootInv (connect_rooms_to_hallways g rooms) loot := by
  refine lootInv_frame_old (connect_rooms_evolve g rooms) ?_ hinv
  intro e he b hw
  have hv := hinv.1 e he
  rw [hv] at hw
  exact absurd hw.2.1 (lootTile_ne_num e.type MAZE_WALL)

theorem lootInv_populate {W : Int → Int → Cell → Cell → Prop} {g g' : Grid}
    (hW : ∀ r c a b, W r c a b → a ∈ validFloorTiles)
    (he : GridEvolve W g g') {loot : List LootEntry}
    (hinv : LootInv g loot) : LootInv g' loot := by
  refine lootInv_frame_old he ?_ hinv
  intro e he' b hw
  have hv := hinv.1 e he'
  rw [hv] at hw
  exact absurd (hW _ _ _ _ hw) (lootTile_not_floor e.type)

theorem loot_pipelineAfterHallways (rng : Rng) :
    LootInv (pipelineAfterHallways rng).grid (pipelineAfterHallways rng).loot := by
  have hpl := loot_pipelineAfterPlacement rng
  have hconn_inv : LootInv (pipelineAfterConnect rng).grid
      (pipelineAfterConnect rng).loot := by
    unfold pipelineAfterConnect
    dsimp only
    exact lootInv_connect hpl.1
  have hconn_spec : ∀ rm ∈ (pipelineAfterConnect rng).rooms,
      RoomSpec (pipelineAfterConnect rng).grid rm := by
    unfold pipelineAfterConnect
    dsimp only
    intro rm hrm
    exact roomSpec_connect_preserve ((roomSpec_pipelineAfterPlacement rng).1 rm hrm)
  have hroomed : LootRoomed (pipelineAfterConnect rng).rooms
      (pipelineAfterConnect rng).loot := by
    unfold pipelineAfterConnect
    dsimp only
    exact hpl.2
  unfold pipelineAfterHallways
  dsimp only
  constructor
  · intro e he
    obtain ⟨rm, hrm, hprm, q1, q2, q3, q4⟩ := hroomed e he
    obtain ⟨h1, h2, _, _, _, _, hstr, _⟩ := hconn_spec rm hrm hprm
    have hfr := hallways_rect_intact (pipelineAfterConnect rng).grid
      (pipelineAfterConnect rng).rng (gridOK_pipelineAfterConnect rng)
      rm.start_r rm.start_c rm.width rm.height h1 h2 hstr e.row e.column
      (by
        unfold inRect
        exact ⟨by omega, by omega, by omega, by omega⟩)
    rw [hfr]
    exact hconn_inv.1 e he
  · exact hconn_inv.2

theorem loot_pipelineAfterSpawners (rng : Rng) :
    LootInv (pipelineAfterSpawners rng).grid (pipelineAfterSpawners rng).loot := by
  unfold pipelineAfterSpawners
  dsimp only
  exact lootInv_populate (fun _ _ _ _ hw => hw.2.1)
    (place_enemy_spawners_evolve _ _ _ (gridOK_pipelineAfterHallways rng))
    (loot_pipelineAfterHallways rng)

theorem lootTile_straychest : lootTile "Chest [RARE STRAY CHEST]" = .str TILE_CHEST := by
  unfold lootTile
  rw [if_neg (by decide), if_neg (by decide)]

/-- The outside-loot loop keeps the manifest consistent. -/
theorem outsideLootLoop_loot (tier_weights : List (String × Nat))
    (num_to_place : Nat) :
    ∀ (spots : List (Int × Int)) (g : Grid) (loot : List LootEntry) (rng : Rng)
      (placed : Nat),
      GridOK g → spots.Nodup →
      (∀ p ∈ spots, interiorCell p.1 p.2 ∧ getCell g p.1 p.2 ∈ validFloorTiles) →
      LootInv g loot →
      GridOK (outsideLootLoop tier_weights num_to_place spots g loot rng placed).1 ∧
      LootInv (outsideLootLoop tier_weights num_to_place spots g loot rng placed).1
        (outsideLootLoop tier_weights num_to_place spots g loot rng placed).2.1
  | [], g, loot, rng, placed, hg, _, _, hinv => ⟨hg, hinv⟩
  | rc :: rest, g, loot, rng, placed, hg, hnd, hsp, hinv => by
    rw [outsideLootLoop]
    split
    · exact ⟨hg, hinv⟩
    · rcases hct : randChoice "" ["Barrel", "Crate"] rng with ⟨ctype, rng1⟩
      dsimp only
      have hmem_ct : ctype = "Barrel" ∨ ctype = "Crate" := by
        have hm := randChoice_mem ""
          (by decide : (["Barrel", "Crate"] : List String) ≠ []) rng
        rw [hct] at hm
        simpa using hm
      have hbnd0 : 0 ≤ rc.1 ∧ rc.1 < (GRID_ROWS : Int) ∧
          0 ≤ rc.2 ∧ rc.2 < (GRID_COLUMNS : Int) := by
        have hq := (hsp rc (by simp)).1
        unfold interiorCell at hq
        exact ⟨by omega, by omega, by omega, by omega⟩
      have htail : ∀ (tile : String), lootTile ctype = .str tile →
          ∀ (ld : List Gear) (rng2 : Rng),
          GridOK (outsideLootLoop tier_weights num_to_place rest
            (setCell g rc.1 rc.2 (.str tile))
            (loot ++ [⟨ctype, rc.1, rc.2, ld⟩]) rng2 (placed + 1)).1 ∧
          LootInv (outsideLootLoop tier_weights num_to_place rest
              (setCell g rc.1 rc.2 (.str tile))
              (loot ++ [⟨ctype, rc.1, rc.2, ld⟩]) rng2 (placed + 1)).1
            (outsideLootLoop tier_weights num_to_place rest
              (setCell g rc.1 rc.2 (.str tile))
              (loot ++ [⟨ctype, rc.1, rc.2, ld⟩]) rng2 (placed + 1)).2.1 := by
        intro tile htile ld rng2
        refine outsideLootLoop_loot tier_weights num_to_place rest _ _ _ _
          (gridRect_setCell hg _ _ _) (List.nodup_cons.1 hnd).2 ?_
          (lootInv_append_floor hg hinv htile (hsp rc (by simp)).2 hbnd0 ld)
        intro p hp
        refine ⟨(hsp p (by simp [hp])).1, ?_⟩
        rw [getCell_setCell_ne]
        · exact (hsp p (by simp [hp])).2
        · have hne : p ≠ rc := fun h => (List.nodup_cons.1 hnd).1 (h ▸ hp)
          by_cases h1 : p.1 = rc.1
          · exact Or.inr (fun h2 => hne (Prod.ext h1 h2))
          · exact Or.inl h1
      split
      case isTrue hbar =>
        subst hbar
        exact htail TILE_BARREL lootTile_barrel _ _
      case isFalse hbar =>
        have hcr : ctype = "Crate" := by
          rcases hmem_ct with h | h
          · exact absurd h hbar
          · exact h
        subst hcr
        exact htail TILE_CRATE lootTile_crate _ _

theorem place_outside_loot_lootinv (g : Grid) (tier_weights : List (String × Nat))
    (loot : List LootEntry) (rng : Rng) (hg : GridOK g) (hinv : LootInv g loot) :
    LootInv (place_outside_loot g tier_weights loot rng).1
      (place_outside_loot g tier_weights loot rng).2.1 := by
  unfold place_outside_loot
  dsimp only
  exact (outsideLootLoop_loot tier_weights _ _ g loot _ 0 hg
    (shuffle_nodup ((nodup_prodRange nodup_intRange nodup_intRange).filter _))
    (fun p hp => populate_spots_spec hg (shuffle_mem.1 hp)) hinv).2

theorem loot_pipelineAfterOutsideLoot (rng : Rng) :
    LootInv (pipelineAfterOutsideLoot rng).grid (pipelineAfterOutsideLoot rng).loot := by
  unfold pipelineAfterOutsideLoot
  dsimp only
  rcases hpo : place_outside_loot (pipelineAfterSpawners rng).grid GEAR_TIER_WEIGHTS
    (pipelineAfterSpawners rng).loot (pipelineAfterSpawners rng).rng
    with ⟨g2, loot2, rng2⟩
  dsimp only
  have hsp := place_outside_loot_lootinv (pipelineAfterSpawners rng).grid
    GEAR_TIER_WEIGHTS (pipelineAfterSpawners rng).loot (pipelineAfterSpawners rng).rng
    (gridOK_pipelineAfterSpawners rng) (loot_pipelineAfterSpawners rng)
  rw [hpo] at hsp
  exact hsp

/-- C10: at the end of the full pipeline, the loot manifest is consistent
with the grid — every entry's coordinate holds the matching container
tile — and manifest coordinates are pairwise distinct. -/
theorem stray_chest_lootinv (g : Grid) (tier_weights : List (String × Nat))
    (loot : List LootEntry) (rng : Rng) (hg : GridOK g) (hinv : LootInv g loot) :
    LootInv (spawn_stray_chest_if_lucky g tier_weights loot rng).1
      (spawn_stray_chest_if_lucky g tier_weights loot rng).2.1 := by
  unfold spawn_stray_chest_if_lucky
  dsimp only
  split
  · split
    case isTrue => exact hinv
    case isFalse hne =>
      have hmem := randChoice_mem ((0 : Int), (0 : Int)) hne (randPct rng).2
      have hspec := populate_spots_spec hg hmem
      have hq := hspec.1
      unfold interiorCell at hq
      exact lootInv_append_floor hg hinv lootTile_straychest hspec.2
        ⟨by omega, by omega, by omega, by omega⟩ _
  · exact hinv

theorem claim_C10_loot_manifest (rng : Rng) :
    (∀ e ∈ (generate_dungeon_and_loot rng).loot,
      getCell (generate_dungeon_and_loot rng).grid e.row e.column = lootTile e.type) ∧
    List.Pairwise (fun a b : LootEntry => (a.row, a.column) ≠ (b.row, b.column))
      (generate_dungeon_and_loot rng).loot := by
  unfold generate_dungeon_and_loot
  dsimp only
  rcases hsc : spawn_stray_chest_if_lucky (pipelineAfterOutsideLoot rng).grid
    GEAR_TIER_WEIGHTS (pipelineAfterOutsideLoot rng).loot
    (pipelineAfterOutsideLoot rng).rng with ⟨g2, loot2, rest2⟩
  dsimp only
  have hsp := stray_chest_lootinv (pipelineAfterOutsideLoot rng).grid
    GEAR_TIER_WEIGHTS (pipelineAfterOutsideLoot rng).loot
    (pipelineAfterOutsideLoot rng).rng
    (gridOK_pipelineAfterOutsideLoot rng) (loot_pipelineAfterOutsideLoot rng)
  rw [hsc] at hsp
  exact hsp

theorem claim_C10_loot_manifest_witness :
    ((generate_dungeon_and_loot []).loot.getD 0 ⟨"", 0, 0, []⟩)
        ∈ (generate_dungeon_and_loot []).loot ∧
      getCell (generate_dungeon_and_loot []).grid
        ((generate_dungeon_and_loot []).loot.getD 0 ⟨"", 0, 0, []⟩).row
        ((generate_dungeon_and_loot []).loot.getD 0 ⟨"", 0, 0, []⟩).column =
        lootTile ((generate_dungeon_and_loot []).loot.getD 0 ⟨"", 0, 0, []⟩).type :=
  ⟨by decide,
    (claim_C10_loot_manifest []).1
      ((generate_dungeon_and_loot []).loot.getD 0 ⟨"", 0, 0, []⟩) (by decide)⟩

-- --- CLAIM C4: the maze carve as a spanning tree of the stride-2 lattice ---

/-- The stride-2 lattice nodes: the candidate cells of `wall_starts` in
`generate_hallways_in_remaining_space` (rows 1,3,5; columns 1,3,…,13). -/
def nodesL : List (Int × Int) :=
  prodRange (intRange2 1 ((GRID_ROWS : Int) - 1)) (intRange2 1 ((GRID_COLUMNS : Int) - 1))

/-- Candidate connector cells sitting between two stride-2 lattice nodes
(exactly one coordinate off-stride by 1). -/
def midsL : List (Int × Int) :=
  prodRange (intRange2 2 ((GRID_ROWS : Int) - 1)) (intRange2 1 ((GRID_COLUMNS : Int) - 1)) ++
    prodRange (intRange2 1 ((GRID_ROWS : Int) - 1)) (intRange2 2 ((GRID_COLUMNS : Int) - 1))

/-- The midpoint cell between two stride-2 neighbours. -/
def midp (a b : Int × Int) : Int × Int := ((a.1 + b.1) / 2, (a.2 + b.2) / 2)

/-- Lattice adjacency: two nodes two cells apart in exactly one coordinate. -/
def NodeAdj (a b : Int × Int) : Prop :=
  a ∈ nodesL ∧ b ∈ nodesL ∧
    ((a.1 = b.1 ∧ (a.2 - b.2 = 2 ∨ b.2 - a.2 = 2)) ∨
      (a.2 = b.2 ∧ (a.1 - b.1 = 2 ∨ b.1 - a.1 = 2)))

instance (a b : Int × Int) : Decidable (NodeAdj a b) := by
  unfold NodeAdj
  infer_instance

/-- Cell `w` of `g` is carved (holds the maze-passage marker). -/
def CarvedAt (g : Grid) (w : Int × Int) : Prop :=
  getCell g w.1 w.2 = .num MAZE_PASSAGE

instance (g : Grid) (w : Int × Int) : Decidable (CarvedAt g w) := by
  unfold CarvedAt
  infer_instance

/-- A carved connector between two adjacent nodes: an edge of the maze
recorded in grid `g`. -/
def MazeEdge (g : Grid) (a b : Int × Int) : Prop :=
  NodeAdj a b ∧ CarvedAt g (midp a b)

/-- Reachability along carved connectors. -/
def MazeReach (g : Grid) (a b : Int × Int) : Prop :=
  Relation.ReflTransGen (MazeEdge g) a b

/-- Reachability along carved connectors when the single connector between
`x` and `y` has been removed. -/
def MazeReachExcept (g : Grid) (x y a b : Int × Int) : Prop :=
  Relation.ReflTransGen
    (fun u w => MazeEdge g u w ∧ ¬((u = x ∧ w = y) ∨ (u = y ∧ w = x))) a b

abbrev MazeEntry := (Int × Int) × (Int × Int)

/-- The fold step of `recursive_backtracking_maze_generator`, as a named
function (verbatim copy of the inner lambda, with the recursive call
abstracted). -/
def mazeStep (rec : Grid → Int → Int → Rng → Grid × Rng) (r c : Int)
    (st : Grid × Rng) (d : Int × Int) : Grid × Rng :=
  let (g, rng) := st
  let next_r := r + d.1
  let next_c := c + d.2
  let wall_r := r + d.1 / 2
  let wall_c := c + d.2 / 2
  if 1 ≤ next_r ∧ next_r < (GRID_ROWS : Int) - 1 ∧
      1 ≤ next_c ∧ next_c < (GRID_COLUMNS : Int) - 1 then
    if getCell g next_r next_c = .num MAZE_WALL then
      let g := setCell g wall_r wall_c (.num MAZE_PASSAGE)
      rec g next_r next_c rng
    else (g, rng)
  else (g, rng)

/-- The same step instrumented with a log of the (parent, child) node pairs
whose connecting wall is knocked down. -/
def mazeLogStep (rec : Grid → Int → Int → Rng → Grid × Rng × List MazeEntry)
    (r c : Int) (st : Grid × Rng × List MazeEntry) (d : Int × Int) :
    Grid × Rng × List MazeEntry :=
  let (g, rng, log) := st
  let next_r := r + d.1
  let next_c := c + d.2
  let wall_r := r + d.1 / 2
  let wall_c := c + d.2 / 2
  if 1 ≤ next_r ∧ next_r < (GRID_ROWS : Int) - 1 ∧
      1 ≤ next_c ∧ next_c < (GRID_COLUMNS : Int) - 1 then
    if getCell g next_r next_c = .num MAZE_WALL then
      let g := setCell g wall_r wall_c (.num MAZE_PASSAGE)
      let (g2, rng2, sub) := rec g next_r next_c rng
      (g2, rng2, log ++ ((r, c), (next_r, next_c)) :: sub)
    else (g, rng, log)
  else (g, rng, log)

/-- `recursive_backtracking_maze_generator`, instrumented with the log of
(parent, child) pairs it connects; proved below to compute the same grid
and rng stream as the source function. -/
def mazeGenLog : Nat → Grid → Int → Int → Rng → Grid × Rng × List MazeEntry
  | 0, grid, _, _, rng => (grid, rng, [])
  | fuel + 1, grid, r, c, rng =>
    let grid := setCell grid r c (.num MAZE_PASSAGE)
    let (dirs, rng) := shuffle mazeDirections rng
    dirs.foldl (mazeLogStep (mazeGenLog fuel) r c) (grid, rng, [])

/-- A carve log is an arborescence over the predicate of already-carved
nodes: each entry hangs a fresh child on an already-carved parent. -/
def ArbP (carved : Int × Int → Prop) : List MazeEntry → Prop
  | [] => True
  | ent :: rest => carved ent.1 ∧ ¬ carved ent.2 ∧
      ArbP (fun w => w = ent.2 ∨ carved w) rest

/-- Depth assignment read off a carve log (root at depth 0). -/
def depthAux : List MazeEntry → ((Int × Int) → Nat) → ((Int × Int) → Nat)
  | [], f => f
  | ent :: rest, f => depthAux rest (fun w => if w = ent.2 then f ent.1 + 1 else f w)

def depthOf (L : List MazeEntry) : (Int × Int) → Nat :=
  depthAux L (fun _ => 0)

/-- A walk along relation `E` starting at a given node and stepping through
the listed nodes in order. -/
def IsWalk (E : (Int × Int) → (Int × Int) → Prop) : (Int × Int) → List (Int × Int) → Prop
  | _, [] => True
  | a, b :: rest => E a b ∧ IsWalk E b rest

/-- The walk from the start through the listed nodes takes the step between
`x` and `y` (in either direction) at some point. -/
def UsesStep (x y : Int × Int) : (Int × Int) → List (Int × Int) → Prop
  | _, [] => False
  | a, b :: rest => (a = x ∧ b = y) ∨ (a = y ∧ b = x) ∨ UsesStep x y b rest

/-- Number of still-uncarved lattice nodes of `g`. -/
def uncNodes (g : Grid) : Nat :=
  nodesL.countP (fun w => !(decide (getCell g w.1 w.2 = Cell.num MAZE_PASSAGE)))

theorem gridRowsInt : (GRID_ROWS : Int) = 8 := by decide

theorem gridColsInt : (GRID_COLUMNS : Int) = 15 := by decide

theorem mem_intRange2 {a b x : Int} :
    x ∈ intRange2 a b ↔ a ≤ x ∧ x < a + 2 * (((b - a) + 1) / 2) ∧ (x - a) % 2 = 0 := by
  unfold intRange2
  simp only [List.mem_map, List.mem_range]
  constructor
  · rintro ⟨i, hi, rfl⟩
    omega
  · rintro ⟨h1, h2, h3⟩
    exact ⟨((x - a) / 2).toNat, by omega, by omega⟩

theorem nodup_intRange2 {a b : Int} : (intRange2 a b).Nodup := by
  unfold intRange2
  exact (List.nodup_range _).map (fun i j hij => by omega)

theorem mem_nodesL {p : Int × Int} :
    p ∈ nodesL ↔ 1 ≤ p.1 ∧ p.1 ≤ 5 ∧ p.1 % 2 = 1 ∧
      1 ≤ p.2 ∧ p.2 ≤ 13 ∧ p.2 % 2 = 1 := by
  unfold nodesL
  rw [mem_prodRange, mem_intRange2, mem_intRange2, gridRowsInt, gridColsInt]
  omega

theorem mem_midsL {p : Int × Int} :
    p ∈ midsL ↔ (2 ≤ p.1 ∧ p.1 ≤ 6 ∧ p.1 % 2 = 0 ∧
        1 ≤ p.2 ∧ p.2 ≤ 13 ∧ p.2 % 2 = 1) ∨
      (1 ≤ p.1 ∧ p.1 ≤ 5 ∧ p.1 % 2 = 1 ∧
        2 ≤ p.2 ∧ p.2 ≤ 12 ∧ p.2 % 2 = 0) := by
  unfold midsL
  rw [List.mem_append, mem_prodRange, mem_prodRange, mem_intRange2, mem_intRange2,
    mem_intRange2, mem_intRange2, gridRowsInt, gridColsInt]
  omega

theorem nodesL_nodup : nodesL.Nodup :=
  nodup_prodRange nodup_intRange2 nodup_intRange2

theorem nodes_mids_disjoint {p : Int × Int} (hn : p ∈ nodesL) : p ∉ midsL := by
  intro hm
  have h1 := mem_nodesL.1 hn
  have h2 := mem_midsL.1 hm
  omega

theorem nodesL_interior {p : Int × Int} (h : p ∈ nodesL) : interiorCell p.1 p.2 := by
  have h1 := mem_nodesL.1 h
  unfold interiorCell
  rw [gridRowsInt, gridColsInt]
  omega

theorem midsL_interior {p : Int × Int} (h : p ∈ midsL) : interiorCell p.1 p.2 := by
  have h1 := mem_midsL.1 h
  unfold interiorCell
  rw [gridRowsInt, gridColsInt]
  omega

theorem mazeDirections_cases {d : Int × Int} (hd : d ∈ mazeDirections) :
    d = ((0 : Int), (2 : Int)) ∨ d = (0, -2) ∨ d = (2, 0) ∨ d = (-2, 0) := by
  simpa [mazeDirections] using hd

theorem nodesL_step {v d : Int × Int} (hv : v ∈ nodesL) (hd : d ∈ mazeDirections)
    (hb : 1 ≤ v.1 + d.1 ∧ v.1 + d.1 < (GRID_ROWS : Int) - 1 ∧
      1 ≤ v.2 + d.2 ∧ v.2 + d.2 < (GRID_COLUMNS : Int) - 1) :
    (v.1 + d.1, v.2 + d.2) ∈ nodesL ∧ NodeAdj v (v.1 + d.1, v.2 + d.2) := by
  have hv' := mem_nodesL.1 hv
  rw [gridRowsInt, gridColsInt] at hb
  have hmem : (v.1 + d.1, v.2 + d.2) ∈ nodesL := by
    rw [mem_nodesL]
    dsimp only
    rcases mazeDirections_cases hd with rfl | rfl | rfl | rfl <;>
      · dsimp only at hb
        omega
  refine ⟨hmem, hv, hmem, ?_⟩
  rcases mazeDirections_cases hd with rfl | rfl | rfl | rfl <;>
    · dsimp only
      omega

theorem midp_step {v d : Int × Int} (hd : d ∈ mazeDirections) :
    midp v (v.1 + d.1, v.2 + d.2) = (v.1 + d.1 / 2, v.2 + d.2 / 2) := by
  rcases mazeDirections_cases hd with rfl | rfl | rfl | rfl <;>
    · unfold midp
      refine Prod.ext_iff.2 ⟨?_, ?_⟩ <;>
        · dsimp only
          omega

theorem midp_mem_midsL {a b : Int × Int} (h : NodeAdj a b) : midp a b ∈ midsL := by
  have ha := mem_nodesL.1 h.1
  have hb := mem_nodesL.1 h.2.1
  rw [mem_midsL]
  unfold midp
  dsimp only
  rcases h.2.2 with ⟨he, h2⟩ | ⟨he, h2⟩
  · right
    omega
  · left
    omega

theorem nodeAdj_symm {a b : Int × Int} (h : NodeAdj a b) : NodeAdj b a := by
  refine ⟨h.2.1, h.1, ?_⟩
  rcases h.2.2 with ⟨he, h2⟩ | ⟨he, h2⟩
  · left
    omega
  · right
    omega

theorem midp_comm (a b : Int × Int) : midp a b = midp b a := by
  unfold midp
  rw [Int.add_comm a.1 b.1, Int.add_comm a.2 b.2]

theorem nodeAdj_ne {a b : Int × Int} (h : NodeAdj a b) : a ≠ b := by
  intro he
  rcases h.2.2 with ⟨_, h2⟩ | ⟨_, h2⟩ <;>
    · rw [he] at h2
      omega

theorem midp_inj {a b a' b' : Int × Int} (h : NodeAdj a b) (h' : NodeAdj a' b')
    (he : midp a b = midp a' b') : (a = a' ∧ b = b') ∨ (a = b' ∧ b = a') := by
  have ha := mem_nodesL.1 h.1
  have hb := mem_nodesL.1 h.2.1
  have ha' := mem_nodesL.1 h'.1
  have hb' := mem_nodesL.1 h'.2.1
  unfold midp at he
  rw [Prod.mk.injEq] at he
  obtain ⟨he1, he2⟩ := he
  have hgoal : (a.1 = a'.1 ∧ a.2 = a'.2 ∧ b.1 = b'.1 ∧ b.2 = b'.2) ∨
      (a.1 = b'.1 ∧ a.2 = b'.2 ∧ b.1 = a'.1 ∧ b.2 = a'.2) := by
    rcases h.2.2 with ⟨q1, q2⟩ | ⟨q1, q2⟩ <;> rcases h'.2.2 with ⟨q1', q2'⟩ | ⟨q1', q2'⟩ <;>
      omega
  rcases hgoal with ⟨e1, e2, e3, e4⟩ | ⟨e1, e2, e3, e4⟩
  · exact Or.inl ⟨Prod.ext_iff.2 ⟨e1, e2⟩, Prod.ext_iff.2 ⟨e3, e4⟩⟩
  · exact Or.inr ⟨Prod.ext_iff.2 ⟨e1, e2⟩, Prod.ext_iff.2 ⟨e3, e4⟩⟩

theorem nodeAdj_dir {v u : Int × Int} (h : NodeAdj v u) :
    ∃ d ∈ mazeDirections, u.1 = v.1 + d.1 ∧ u.2 = v.2 + d.2 := by
  rcases h.2.2 with ⟨he, h2 | h2⟩ | ⟨he, h2 | h2⟩
  · exact ⟨(0, -2), by simp [mazeDirections], by omega, by omega⟩
  · exact ⟨(0, 2), by simp [mazeDirections], by omega, by omega⟩
  · exact ⟨(-2, 0), by simp [mazeDirections], by omega, by omega⟩
  · exact ⟨(2, 0), by simp [mazeDirections], by omega, by omega⟩

theorem maze_gen_eq_fold (fuel : Nat) (g : Grid) (r c : Int) (rng : Rng) :
    recursive_backtracking_maze_generator (fuel + 1) g r c rng =
      (shuffle mazeDirections rng).1.foldl
        (mazeStep (recursive_backtracking_maze_generator fuel) r c)
        (setCell g r c (.num MAZE_PASSAGE), (shuffle mazeDirections rng).2) := by
  rw [recursive_backtracking_maze_generator]
  rcases hsh : shuffle mazeDirections rng with ⟨dirs, rng1⟩
  rfl

theorem mazeGenLog_eq : ∀ (fuel : Nat) (g : Grid) (r c : Int) (rng : Rng),
    (mazeGenLog fuel g r c rng).1 =
      (recursive_backtracking_maze_generator fuel g r c rng).1 ∧
    (mazeGenLog fuel g r c rng).2.1 =
      (recursive_backtracking_maze_generator fuel g r c rng).2
  | 0, _, _, _, _ => ⟨rfl, rfl⟩
  | fuel + 1, g, r, c, rng => by
    rw [mazeGenLog, maze_gen_eq_fold]
    rcases hsh : shuffle mazeDirections rng with ⟨dirs, rng1⟩
    dsimp only
    have hfold : ∀ (ds : List (Int × Int)) (s1 : Grid × Rng × List MazeEntry)
        (s2 : Grid × Rng), s1.1 = s2.1 → s1.2.1 = s2.2 →
        (ds.foldl (mazeLogStep (mazeGenLog fuel) r c) s1).1 =
          (ds.foldl (mazeStep (recursive_backtracking_maze_generator fuel) r c) s2).1 ∧
        (ds.foldl (mazeLogStep (mazeGenLog fuel) r c) s1).2.1 =
          (ds.foldl (mazeStep (recursive_backtracking_maze_generator fuel) r c) s2).2 := by
      intro ds
      induction ds with
      | nil => exact fun s1 s2 h1 h2 => ⟨h1, h2⟩
      | cons d rest ih =>
        intro s1 s2 h1 h2
        rcases s1 with ⟨g1, rngA, log1⟩
        rcases s2 with ⟨g2, rngB⟩
        dsimp only at h1 h2
        subst h1
        subst h2
        simp only [List.foldl_cons]
        have hstep1 : (mazeLogStep (mazeGenLog fuel) r c (g1, rngA, log1) d).1 =
            (mazeStep (recursive_backtracking_maze_generator fuel) r c (g1, rngA) d).1 ∧
            (mazeLogStep (mazeGenLog fuel) r c (g1, rngA, log1) d).2.1 =
            (mazeStep (recursive_backtracking_maze_generator fuel) r c (g1, rngA) d).2 := by
          unfold mazeLogStep mazeStep
          dsimp only
          split
          case isTrue hbnd =>
            split
            case isTrue h0 =>
              rcases hrec : mazeGenLog fuel (setCell g1 (r + d.1 / 2) (c + d.2 / 2)
                  (.num MAZE_PASSAGE)) (r + d.1) (c + d.2) rngA with ⟨gm, rm, lm⟩
              dsimp only
              have heq := mazeGenLog_eq fuel (setCell g1 (r + d.1 / 2) (c + d.2 / 2)
                (.num MAZE_PASSAGE)) (r + d.1) (c + d.2) rngA
              rw [hrec] at heq
              exact heq
            case isFalse => exact ⟨rfl, rfl⟩
          case isFalse => exact ⟨rfl, rfl⟩
        exact ih _ _ hstep1.1 hstep1.2
    exact hfold dirs (setCell g r c (.num MAZE_PASSAGE), rng1, [])
      (setCell g r c (.num MAZE_PASSAGE), rng1) rfl rfl

theorem pair_ne_cases {w p : Int × Int} (h : w ≠ p) : w.1 ≠ p.1 ∨ w.2 ≠ p.2 := by
  by_contra hcon
  push_neg at hcon
  exact h (Prod.ext_iff.2 ⟨hcon.1, hcon.2⟩)

/-- Writing a passage at interior cell `p` carves exactly `p` and leaves
every other cell's carved status unchanged. -/
theorem carvedAt_setCell_iff {g : Grid} (hg : GridOK g) {p : Int × Int}
    (hp : interiorCell p.1 p.2) (w : Int × Int) :
    CarvedAt (setCell g p.1 p.2 (.num MAZE_PASSAGE)) w ↔ (CarvedAt g w ∨ w = p) := by
  unfold CarvedAt
  by_cases hw : w = p
  · subst hw
    unfold interiorCell at hp
    rw [getCell_setCell_self_ok hg ⟨by omega, by omega⟩ ⟨by omega, by omega⟩]
    exact ⟨fun _ => Or.inr rfl, fun _ => rfl⟩
  · rw [getCell_setCell_ne (pair_ne_cases hw)]
    constructor
    · exact Or.inl
    · rintro (h | h)
      · exact h
      · exact absurd h hw

theorem carvedAt_setCell_ne {g : Grid} {p : Int × Int} {v : Cell} {w : Int × Int}
    (hw : w ≠ p) : CarvedAt (setCell g p.1 p.2 v) w ↔ CarvedAt g w := by
  unfold CarvedAt
  rw [getCell_setCell_ne (pair_ne_cases hw)]

theorem countP_le_of_imp {α : Type} (l : List α) (p q : α → Bool)
    (h : ∀ a ∈ l, p a = true → q a = true) : l.countP p ≤ l.countP q := by
  induction l with
  | nil => simp
  | cons x xs ih =>
    rw [List.countP_cons, List.countP_cons]
    have hxs := ih (fun a ha hpa => h a (List.mem_cons_of_mem x ha) hpa)
    by_cases hp : p x = true
    · rw [if_pos hp, if_pos (h x (List.mem_cons_self x xs) hp)]
      omega
    · rw [if_neg hp]
      split <;> omega

theorem countP_flip {l : List (Int × Int)} (hnd : l.Nodup) {p : Int × Int} (hp : p ∈ l)
    (f f' : (Int × Int) → Bool)
    (hc : f p = true) (hc' : f' p = false)
    (hsame : ∀ w ∈ l, w ≠ p → f w = f' w) :
    l.countP f = l.countP f' + 1 := by
  induction l with
  | nil => cases hp
  | cons x xs ih =>
    rw [List.countP_cons, List.countP_cons]
    rcases List.mem_cons.1 hp with rfl | hpx
    · rw [if_pos hc, if_neg (by rw [hc']; intro hfalse; cases hfalse)]
      have hx : ∀ w ∈ xs, f w = true ↔ f' w = true := fun w hw => by
        rw [hsame w (List.mem_cons_of_mem _ hw)
          (by rintro rfl; exact (List.nodup_cons.1 hnd).1 hw)]
      have hcongr := List.countP_congr hx
      omega
    · have hxp : x ≠ p := by
        rintro rfl
        exact (List.nodup_cons.1 hnd).1 hpx
      rw [hsame x (List.mem_cons_self _ _) hxp]
      have hrec := ih (List.nodup_cons.1 hnd).2 hpx
        (fun w hw hwp => hsame w (List.mem_cons_of_mem _ hw) hwp)
      omega

/-- Carving an uncarved node decrements the uncarved-node count. -/
theorem uncNodes_setCell_carve {g : Grid} (hg : GridOK g) {p : Int × Int}
    (hp : p ∈ nodesL) (hold : ¬ CarvedAt g p) :
    uncNodes g = uncNodes (setCell g p.1 p.2 (.num MAZE_PASSAGE)) + 1 := by
  unfold uncNodes
  refine countP_flip nodesL_nodup hp _ _ ?_ ?_ ?_
  · unfold CarvedAt at hold
    simp [hold]
  · have hcar : CarvedAt (setCell g p.1 p.2 (.num MAZE_PASSAGE)) p :=
      (carvedAt_setCell_iff hg (nodesL_interior hp) p).2 (Or.inr rfl)
    unfold CarvedAt at hcar
    simp [hcar]
  · intro w hw hwp
    have := carvedAt_setCell_ne (g := g) (p := p) (v := .num MAZE_PASSAGE) hwp
    unfold CarvedAt at this
    by_cases hcw : getCell g w.1 w.2 = Cell.num MAZE_PASSAGE
    · simp [hcw, this.2 hcw]
    · have : ¬ getCell (setCell g p.1 p.2 (.num MAZE_PASSAGE)) w.1 w.2 =
          Cell.num MAZE_PASSAGE := fun hq => hcw (this.1 hq)
      simp [hcw, this]

/-- A write off the node set leaves the uncarved-node count unchanged. -/
theorem uncNodes_setCell_other {g : Grid} {p : Int × Int} {v : Cell}
    (hp : p ∉ nodesL) :
    uncNodes (setCell g p.1 p.2 v) = uncNodes g := by
  unfold uncNodes
  refine List.countP_congr ?_
  intro w hw
  have hwp : w ≠ p := by
    rintro rfl
    exact hp hw
  rw [getCell_setCell_ne (pair_ne_cases hwp)]

theorem uncNodes_le_of_mono {g g' : Grid}
    (h : ∀ w ∈ nodesL, CarvedAt g w → CarvedAt g' w) : uncNodes g' ≤ uncNodes g := by
  unfold uncNodes
  refine countP_le_of_imp _ _ _ ?_
  intro w hw hq
  unfold CarvedAt at h
  by_cases hc : getCell g w.1 w.2 = Cell.num MAZE_PASSAGE
  · have := h w hw hc
    simp [this] at hq
  · simp [hc]

theorem uncNodes_pos {g : Grid} {p : Int × Int} (hp : p ∈ nodesL)
    (hold : ¬ CarvedAt g p) : 1 ≤ uncNodes g := by
  unfold uncNodes
  have hppred : (!(decide (getCell g p.1 p.2 = Cell.num MAZE_PASSAGE))) = true := by
    unfold CarvedAt at hold
    simp [hold]
  have hpos : 0 < nodesL.countP
      (fun w => !(decide (getCell g w.1 w.2 = Cell.num MAZE_PASSAGE))) :=
    List.countP_pos_iff.2 ⟨p, hp, hppred⟩
  omega

theorem not_carved_of_wall {g : Grid} {w : Int × Int}
    (h : getCell g w.1 w.2 = .num MAZE_WALL) : ¬ CarvedAt g w := by
  unfold CarvedAt
  rw [h]
  decide

theorem carved_setCell_pass {g : Grid} (hg : GridOK g) {p : Int × Int}
    (hp : interiorCell p.1 p.2) (w : Int × Int) (h : CarvedAt g w) :
    CarvedAt (setCell g p.1 p.2 (.num MAZE_PASSAGE)) w :=
  (carvedAt_setCell_iff hg hp w).2 (Or.inl h)

theorem carved_setCell_self {g : Grid} (hg : GridOK g) {p : Int × Int}
    (hp : interiorCell p.1 p.2) :
    CarvedAt (setCell g p.1 p.2 (.num MAZE_PASSAGE)) p :=
  (carvedAt_setCell_iff hg hp p).2 (Or.inr rfl)

theorem mazeReach_mono {g g' : Grid} (h : ∀ w, CarvedAt g w → CarvedAt g' w)
    {a b : Int × Int} (hr : MazeReach g a b) : MazeReach g' a b := by
  unfold MazeReach at hr ⊢
  refine Relation.ReflTransGen.mono ?_ hr
  intro x y hxy
  exact ⟨hxy.1, h _ hxy.2⟩

theorem ArbP_congr : ∀ (l : List MazeEntry) (P Q : (Int × Int) → Prop),
    (∀ w, P w ↔ Q w) → ArbP P l → ArbP Q l
  | [], _, _, _, _ => trivial
  | ent :: rest, P, Q, h, ha =>
    ⟨(h ent.1).1 ha.1, fun hq => ha.2.1 ((h ent.2).2 hq),
      ArbP_congr rest _ _ (fun w => or_congr Iff.rfl (h w)) ha.2.2⟩

theorem ArbP_congr_on : ∀ (l : List MazeEntry) (S P Q : (Int × Int) → Prop),
    (∀ ent ∈ l, S ent.1 ∧ S ent.2) → (∀ w, S w → (P w ↔ Q w)) → ArbP P l → ArbP Q l
  | [], _, _, _, _, _, _ => trivial
  | ent :: rest, S, P, Q, hS, h, ha => by
    have hSe := hS ent (List.mem_cons_self _ _)
    refine ⟨(h ent.1 hSe.1).1 ha.1, fun hq => ha.2.1 ((h ent.2 hSe.2).2 hq), ?_⟩
    exact ArbP_congr_on rest S _ _ (fun e he => hS e (List.mem_cons_of_mem _ he))
      (fun w hw => or_congr Iff.rfl (h w hw)) ha.2.2

theorem ArbP_append : ∀ (l1 l2 : List MazeEntry) (P : (Int × Int) → Prop),
    ArbP P l1 → ArbP (fun w => w ∈ l1.map Prod.snd ∨ P w) l2 → ArbP P (l1 ++ l2)
  | [], l2, P, _, h2 =>
    ArbP_congr l2 _ _ (fun w => by simp) h2
  | ent :: rest, l2, P, h1, h2 => by
    refine ⟨h1.1, h1.2.1, ?_⟩
    have h2' : ArbP (fun w => w ∈ rest.map Prod.snd ∨ (w = ent.2 ∨ P w)) l2 :=
      ArbP_congr l2 _ _ (fun w => by
        simp only [List.map_cons, List.mem_cons]
        tauto) h2
    exact ArbP_append rest l2 _ h1.2.2 h2'

/-- Every node of a carve log is fresh: the children are distinct and never
satisfy the initial carved predicate. -/
theorem ArbP_fresh : ∀ (l : List MazeEntry) (P : (Int × Int) → Prop), ArbP P l →
    (l.map Prod.snd).Nodup ∧ ∀ w ∈ l.map Prod.snd, ¬ P w
  | [], _, _ => ⟨List.nodup_nil, by simp⟩
  | ent :: rest, P, ha => by
    have hrec := ArbP_fresh rest _ ha.2.2
    constructor
    · rw [List.map_cons]
      refine List.nodup_cons.2 ⟨?_, hrec.1⟩
      intro hmem
      exact hrec.2 _ hmem (Or.inl rfl)
    · intro w hw
      rw [List.map_cons] at hw
      rcases List.mem_cons.1 hw with rfl | hw'
      · exact ha.2.1
      · intro hP
        exact hrec.2 w hw' (Or.inr hP)

/-- Every parent in a carve log is the root or an earlier child; stated
loosely: it satisfies the final accumulated predicate's base. -/
theorem ArbP_parent : ∀ (l : List MazeEntry) (P : (Int × Int) → Prop), ArbP P l →
    ∀ ent ∈ l, P ent.1 ∨ ent.1 ∈ l.map Prod.snd
  | [], _, _ => by simp
  | e :: rest, P, ha => by
    intro ent hent
    rcases List.mem_cons.1 hent with rfl | hent'
    · exact Or.inl ha.1
    · rcases ArbP_parent rest _ ha.2.2 ent hent' with h | h
      · rcases h with h | h
        · refine Or.inr ?_
          rw [List.map_cons, h]
          exact List.mem_cons_self _ _
        · exact Or.inl h
      · refine Or.inr ?_
        rw [List.map_cons]
        exact List.mem_cons_of_mem _ h

/-- The depth function assigns parents strictly smaller depths than their
children, and is stable on already-carved nodes. -/
theorem ArbP_depth : ∀ (l : List MazeEntry) (P : (Int × Int) → Prop)
    (f : (Int × Int) → Nat), ArbP P l →
    (∀ w, P w → depthAux l f w = f w) ∧
    (∀ ent ∈ l, depthAux l f ent.1 < depthAux l f ent.2)
  | [], _, _, _ => ⟨fun _ _ => rfl, by simp⟩
  | ent :: rest, P, f, ha => by
    have hrec := ArbP_depth rest (fun w => w = ent.2 ∨ P w)
      (fun w => if w = ent.2 then f ent.1 + 1 else f w) ha.2.2
    have hstep : ∀ w, depthAux (ent :: rest) f w =
        depthAux rest (fun u => if u = ent.2 then f ent.1 + 1 else f u) w :=
      fun w => rfl
    constructor
    · intro w hP
      rw [hstep, hrec.1 w (Or.inr hP)]
      have hne : w ≠ ent.2 := by
        rintro rfl
        exact ha.2.1 hP
      dsimp only
      rw [if_neg hne]
    · intro e he
      rcases List.mem_cons.1 he with rfl | he'
      · rw [hstep, hstep, hrec.1 e.1 (Or.inr ha.1), hrec.1 e.2 (Or.inl rfl)]
        dsimp only
        rw [if_pos rfl]
        have hne : e.1 ≠ e.2 := by
          rintro hq
          exact ha.2.1 (hq ▸ ha.1)
        rw [if_neg hne]
        omega
      · rw [hstep, hstep]
        exact hrec.2 e he'

/-- Lattice nodes hold only maze ids (wall or passage). -/
def NodesBinary (g : Grid) : Prop :=
  ∀ w ∈ nodesL, getCell g w.1 w.2 = .num MAZE_WALL ∨
    getCell g w.1 w.2 = .num MAZE_PASSAGE

/-- Postcondition of one instrumented maze call entered at node `v` on
grid `g`: `res` is the returned (grid, rng, log) triple. -/
def MazePost (g : Grid) (v : Int × Int) (res : Grid × Rng × List MazeEntry) : Prop :=
  GridOK res.1 ∧ NodesBinary res.1 ∧
  (∀ w, CarvedAt g w → CarvedAt res.1 w) ∧
  CarvedAt res.1 v ∧
  (∀ w ∈ nodesL, CarvedAt res.1 w ↔
    (CarvedAt g w ∨ w = v ∨ w ∈ res.2.2.map Prod.snd)) ∧
  (∀ m ∈ midsL, CarvedAt res.1 m ↔
    (CarvedAt g m ∨ ∃ ent ∈ res.2.2, m = midp ent.1 ent.2)) ∧
  (∀ ent ∈ res.2.2, NodeAdj ent.1 ent.2) ∧
  ArbP (fun w => CarvedAt g w ∨ w = v) res.2.2 ∧
  (∀ w ∈ nodesL, (w = v ∨ w ∈ res.2.2.map Prod.snd) →
    ∀ u, NodeAdj w u → CarvedAt res.1 u) ∧
  (∀ w ∈ nodesL, CarvedAt res.1 w → CarvedAt g w ∨ MazeReach res.1 v w)

/-- Invariant of the direction fold inside one instrumented maze call:
`g` is the grid at entry, `g1` the grid right after the entry cell `v` was
carved, `st` the fold state. -/
def MazeFoldInv (g g1 : Grid) (v : Int × Int) (st : Grid × Rng × List MazeEntry) :
    Prop :=
  GridOK st.1 ∧ NodesBinary st.1 ∧
  (∀ w, CarvedAt g1 w → CarvedAt st.1 w) ∧
  (∀ w ∈ nodesL, CarvedAt st.1 w ↔
    (CarvedAt g1 w ∨ w ∈ st.2.2.map Prod.snd)) ∧
  (∀ m ∈ midsL, CarvedAt st.1 m ↔
    (CarvedAt g1 m ∨ ∃ ent ∈ st.2.2, m = midp ent.1 ent.2)) ∧
  (∀ ent ∈ st.2.2, NodeAdj ent.1 ent.2) ∧
  ArbP (fun w => CarvedAt g w ∨ w = v) st.2.2 ∧
  (∀ w ∈ nodesL, w ∈ st.2.2.map Prod.snd → ∀ u, NodeAdj w u → CarvedAt st.1 u) ∧
  (∀ w ∈ nodesL, CarvedAt st.1 w → CarvedAt g1 w ∨ MazeReach st.1 v w)

set_option maxHeartbeats 4000000 in
theorem mazeFold_spec (fuel : Nat) (g g1 : Grid) (v : Int × Int)
    (hIH : ∀ (g' : Grid) (v' : Int × Int) (rng' : Rng),
      GridOK g' → NodesBinary g' → v' ∈ nodesL →
      getCell g' v'.1 v'.2 = .num MAZE_WALL → uncNodes g' ≤ fuel →
      MazePost g' v' (mazeGenLog fuel g' v'.1 v'.2 rng'))
    (hv : v ∈ nodesL)
    (hg1iff : ∀ w, CarvedAt g1 w ↔ (CarvedAt g w ∨ w = v))
    (hunc : uncNodes g1 ≤ fuel) :
    ∀ (ds : List (Int × Int)) (st : Grid × Rng × List MazeEntry),
      (∀ d ∈ ds, d ∈ mazeDirections) →
      MazeFoldInv g g1 v st →
      MazeFoldInv g g1 v (ds.foldl (mazeLogStep (mazeGenLog fuel) v.1 v.2) st) ∧
      (∀ w, CarvedAt st.1 w →
        CarvedAt (ds.foldl (mazeLogStep (mazeGenLog fuel) v.1 v.2) st).1 w) ∧
      (∀ d ∈ ds, (v.1 + d.1, v.2 + d.2) ∈ nodesL →
        CarvedAt (ds.foldl (mazeLogStep (mazeGenLog fuel) v.1 v.2) st).1
          (v.1 + d.1, v.2 + d.2)) := by
  intro ds
  induction ds with
  | nil =>
    intro st _ hinv
    exact ⟨hinv, fun w h => h, by simp⟩
  | cons d rest ih =>
    intro st hds hinv
    have hd : d ∈ mazeDirections := hds d (List.mem_cons_self _ _)
    have hrest : ∀ d' ∈ rest, d' ∈ mazeDirections :=
      fun d' hd' => hds d' (List.mem_cons_of_mem _ hd')
    simp only [List.foldl_cons]
    rcases st with ⟨gs, rngs, logs⟩
    obtain ⟨hok, hbin, hmono1, hnodeiff, hmidiff, hadj, harb, hproc, hreach⟩ := hinv
    dsimp only at hok hbin hmono1 hnodeiff hmidiff hadj harb hproc hreach
    have hstep : MazeFoldInv g g1 v
          (mazeLogStep (mazeGenLog fuel) v.1 v.2 (gs, rngs, logs) d) ∧
        (∀ w, CarvedAt gs w →
          CarvedAt (mazeLogStep (mazeGenLog fuel) v.1 v.2 (gs, rngs, logs) d).1 w) ∧
        ((v.1 + d.1, v.2 + d.2) ∈ nodesL →
          CarvedAt (mazeLogStep (mazeGenLog fuel) v.1 v.2 (gs, rngs, logs) d).1
            (v.1 + d.1, v.2 + d.2)) := by
      unfold mazeLogStep
      dsimp only
      split
      case isTrue hbnd =>
        split
        case isTrue h0 =>
          have hnode := nodesL_step hv hd ⟨hbnd.1, hbnd.2.1, hbnd.2.2.1, hbnd.2.2.2⟩
          have hmidmem : (v.1 + d.1 / 2, v.2 + d.2 / 2) ∈ midsL := by
            have hq := midp_mem_midsL hnode.2
            rw [midp_step hd] at hq
            exact hq
          have hmidint := midsL_interior hmidmem
          have hmidnotnode : (v.1 + d.1 / 2, v.2 + d.2 / 2) ∉ nodesL :=
            fun hn => nodes_mids_disjoint hn hmidmem
          have hok2 : GridOK (setCell gs (v.1 + d.1 / 2) (v.2 + d.2 / 2)
              (.num MAZE_PASSAGE)) := gridRect_setCell hok _ _ _
          have hmidne : ∀ w : Int × Int, w ∈ nodesL →
              w ≠ (v.1 + d.1 / 2, v.2 + d.2 / 2) := by
            intro w hw hq
            exact nodes_mids_disjoint hw (hq ▸ hmidmem)
          have hg2iffs : ∀ w : Int × Int,
              CarvedAt (setCell gs (v.1 + d.1 / 2) (v.2 + d.2 / 2)
                (.num MAZE_PASSAGE)) w ↔
              (CarvedAt gs w ∨ w = (v.1 + d.1 / 2, v.2 + d.2 / 2)) := by
            have hq := carvedAt_setCell_iff hok hmidint
              (p := ((v.1 + d.1 / 2 : Int), (v.2 + d.2 / 2 : Int)))
            dsimp only at hq
            exact hq
          have hg2node : ∀ w : Int × Int, w ∈ nodesL →
              (CarvedAt (setCell gs (v.1 + d.1 / 2) (v.2 + d.2 / 2)
                (.num MAZE_PASSAGE)) w ↔ CarvedAt gs w) := by
            intro w hw
            have hq := carvedAt_setCell_ne (g := gs)
              (p := ((v.1 + d.1 / 2 : Int), (v.2 + d.2 / 2 : Int)))
              (v := Cell.num MAZE_PASSAGE) (hmidne w hw)
            dsimp only at hq
            exact hq
          have hbin2 : NodesBinary (setCell gs (v.1 + d.1 / 2) (v.2 + d.2 / 2)
              (.num MAZE_PASSAGE)) := by
            intro w hw
            have hq := getCell_setCell_ne (g := gs) (v := Cell.num MAZE_PASSAGE)
              (pair_ne_cases (w := w)
                (p := ((v.1 + d.1 / 2 : Int), (v.2 + d.2 / 2 : Int))) (hmidne w hw))
            dsimp only at hq
            rw [hq]
            exact hbin w hw
          have hwall2 : getCell (setCell gs (v.1 + d.1 / 2) (v.2 + d.2 / 2)
              (.num MAZE_PASSAGE)) (v.1 + d.1) (v.2 + d.2) = .num MAZE_WALL := by
            have hq := getCell_setCell_ne (g := gs) (v := Cell.num MAZE_PASSAGE)
              (pair_ne_cases (w := ((v.1 + d.1 : Int), (v.2 + d.2 : Int)))
                (p := ((v.1 + d.1 / 2 : Int), (v.2 + d.2 / 2 : Int)))
                (hmidne _ hnode.1))
            dsimp only at hq
            rw [hq]
            exact h0
          have hunc2 : uncNodes (setCell gs (v.1 + d.1 / 2) (v.2 + d.2 / 2)
              (.num MAZE_PASSAGE)) ≤ fuel := by
            have hq := uncNodes_setCell_other (g := gs) (v := Cell.num MAZE_PASSAGE)
              (p := ((v.1 + d.1 / 2 : Int), (v.2 + d.2 / 2 : Int))) hmidnotnode
            dsimp only at hq
            have hle : uncNodes gs ≤ uncNodes g1 :=
              uncNodes_le_of_mono (fun w _ h => hmono1 w h)
            omega
          rcases hrec : mazeGenLog fuel (setCell gs (v.1 + d.1 / 2) (v.2 + d.2 / 2)
              (.num MAZE_PASSAGE)) (v.1 + d.1) (v.2 + d.2) rngs with ⟨gm, rm, lm⟩
          dsimp only
          have hpost := hIH (setCell gs (v.1 + d.1 / 2) (v.2 + d.2 / 2)
              (.num MAZE_PASSAGE)) (v.1 + d.1, v.2 + d.2) rngs hok2 hbin2 hnode.1
            hwall2 hunc2
          dsimp only at hpost
          rw [hrec] at hpost
          obtain ⟨pok, pbin, pmono, pcarv, pnode, pmid, padj, parb, pproc, preach⟩ :=
            hpost
          dsimp only at pok pbin pmono pcarv pnode pmid padj parb pproc preach
          have hmono_s2m : ∀ w, CarvedAt gs w → CarvedAt gm w :=
            fun w h => pmono w ((hg2iffs w).2 (Or.inl h))
          have hcarv_mid : CarvedAt gm (v.1 + d.1 / 2, v.2 + d.2 / 2) :=
            pmono _ ((hg2iffs _).2 (Or.inr rfl))
          have hn_uncarved : ¬ CarvedAt gs (v.1 + d.1, v.2 + d.2) :=
            not_carved_of_wall h0
          refine ⟨⟨pok, pbin, ?_, ?_, ?_, ?_, ?_, ?_, ?_⟩,
            fun w h => hmono_s2m w h, fun _ => pcarv⟩
          · -- monotone from g1
            exact fun w h => hmono_s2m w (hmono1 w h)
          · -- node iff
            intro w hw
            dsimp only
            rw [pnode w hw, hg2node w hw, hnodeiff w hw]
            simp only [List.map_append, List.map_cons, List.mem_append,
              List.mem_cons]
            tauto
          · -- mid iff
            intro m hm
            dsimp only
            have hmv : m ≠ (v.1 + d.1 / 2, v.2 + d.2 / 2) ∨
                m = (v.1 + d.1 / 2, v.2 + d.2 / 2) := by tauto
            rw [pmid m hm, hg2iffs m, hmidiff m hm]
            constructor
            · intro hc
              rcases hc with ((h1 | ⟨ent, hent, hm2⟩) | rfl) | ⟨ent, hent, hm2⟩
              · exact Or.inl h1
              · exact Or.inr ⟨ent, List.mem_append_left _ hent, hm2⟩
              · refine Or.inr ⟨(v, (v.1 + d.1, v.2 + d.2)), ?_, ?_⟩
                · exact List.mem_append_right _ (List.mem_cons_self _ _)
                · exact (midp_step hd).symm
              · exact Or.inr ⟨ent,
                  List.mem_append_right _ (List.mem_cons_of_mem _ hent), hm2⟩
            · intro hc
              rcases hc with h1 | ⟨ent, hent, hm2⟩
              · exact Or.inl (Or.inl (Or.inl h1))
              · rcases List.mem_append.1 hent with hent' | hent'
                · exact Or.inl (Or.inl (Or.inr ⟨ent, hent', hm2⟩))
                · rcases List.mem_cons.1 hent' with rfl | hent''
                  · refine Or.inl (Or.inr ?_)
                    rw [hm2]
                    exact midp_step hd
                  · exact Or.inr ⟨ent, hent'', hm2⟩
          · -- adjacency of entries
            intro ent hent
            rcases List.mem_append.1 hent with hent' | hent'
            · exact hadj ent hent'
            · rcases List.mem_cons.1 hent' with rfl | hent''
              · exact hnode.2
              · exact padj ent hent''
          · -- arborescence
            dsimp only
            refine ArbP_append logs ((v, (v.1 + d.1, v.2 + d.2)) :: lm) _ harb
              ⟨Or.inr (Or.inr rfl), ?_, ?_⟩
            · -- the new child is fresh
              intro hcase
              rcases hcase with hmem | hg_or_v
              · exact hn_uncarved ((hnodeiff _ hnode.1).2 (Or.inr hmem))
              · rcases hg_or_v with hcg | hveq
                · exact hn_uncarved (hmono1 _ ((hg1iff _).2 (Or.inl hcg)))
                · exact hn_uncarved (hmono1 _ ((hg1iff _).2 (Or.inr hveq)))
            · -- the sub-log over the extended predicate
              refine ArbP_congr_on lm (fun w => w ∈ nodesL) _ _
                (fun ent hent => ⟨(padj ent hent).1, (padj ent hent).2.1⟩) ?_ parb
              intro w hw
              rw [hg2node w hw, hnodeiff w hw, hg1iff w]
              tauto
          · -- processed nodes have carved neighbours
            intro w hw hmem u hadJ
            dsimp only at hmem
            rw [List.map_append, List.map_cons] at hmem
            rcases List.mem_append.1 hmem with hmem' | hmem'
            · exact hmono_s2m u (hproc w hw hmem' u hadJ)
            · rcases List.mem_cons.1 hmem' with rfl | hmem''
              · exact pproc _ hnode.1 (Or.inl rfl) u hadJ
              · exact pproc w hw (Or.inr hmem'') u hadJ
          · -- reachability of newly carved nodes
            intro w hw hcw
            rcases preach w hw hcw with hg2w | hreach_n
            · rcases hreach w hw ((hg2node w hw).1 hg2w) with h1 | h2
              · exact Or.inl h1
              · exact Or.inr (mazeReach_mono hmono_s2m h2)
            · refine Or.inr (Relation.ReflTransGen.head ?_ hreach_n)
              refine ⟨hnode.2, ?_⟩
              rw [midp_step hd]
              exact hcarv_mid
        case isFalse h0 =>
          refine ⟨⟨hok, hbin, hmono1, hnodeiff, hmidiff, hadj, harb, hproc, hreach⟩,
            fun w h => h, ?_⟩
          intro hnmem
          rcases hbin _ hnmem with hw | hw
          · exact absurd hw h0
          · exact hw
      case isFalse hbnd =>
        refine ⟨⟨hok, hbin, hmono1, hnodeiff, hmidiff, hadj, harb, hproc, hreach⟩,
          fun w h => h, ?_⟩
        intro hnmem
        exfalso
        have hq := mem_nodesL.1 hnmem
        dsimp only at hq
        rw [gridRowsInt, gridColsInt] at hbnd
        omega
    obtain ⟨hstepinv, hstepmono, hstepnbr⟩ := hstep
    have hrest_res := ih _ hrest hstepinv
    refine ⟨hrest_res.1, ?_, ?_⟩
    · intro w hw
      exact hrest_res.2.1 w (hstepmono w hw)
    · intro d' hd' hnmem
      rcases List.mem_cons.1 hd' with rfl | hd''
      · exact hrest_res.2.1 _ (hstepnbr hnmem)
      · exact hrest_res.2.2 d' hd'' hnmem

set_option maxHeartbeats 2000000 in
theorem mazeLog_master : ∀ (fuel : Nat) (g : Grid) (v : Int × Int) (rng : Rng),
    GridOK g → NodesBinary g → v ∈ nodesL →
    getCell g v.1 v.2 = .num MAZE_WALL → uncNodes g ≤ fuel →
    MazePost g v (mazeGenLog fuel g v.1 v.2 rng)
  | 0, g, v, rng, _, _, hv, hwall, hunc => by
    exfalso
    have := uncNodes_pos hv (not_carved_of_wall hwall)
    omega
  | fuel + 1, g, v, rng, hg, hbin, hv, hwall, hunc => by
    rw [mazeGenLog]
    rcases hsh : shuffle mazeDirections rng with ⟨dirs, rng1⟩
    dsimp only
    have hint := nodesL_interior hv
    have hok1 : GridOK (setCell g v.1 v.2 (.num MAZE_PASSAGE)) :=
      gridRect_setCell hg _ _ _
    have hg1iff : ∀ w, CarvedAt (setCell g v.1 v.2 (.num MAZE_PASSAGE)) w ↔
        (CarvedAt g w ∨ w = v) := by
      have hq := carvedAt_setCell_iff hg hint (p := v)
      exact hq
    have hbin1 : NodesBinary (setCell g v.1 v.2 (.num MAZE_PASSAGE)) := by
      intro w hw
      by_cases hwv : w = v
      · subst hwv
        exact Or.inr (carved_setCell_self hg hint)
      · rw [getCell_setCell_ne (pair_ne_cases hwv)]
        exact hbin w hw
    have hunc1 : uncNodes (setCell g v.1 v.2 (.num MAZE_PASSAGE)) ≤ fuel := by
      have hq := uncNodes_setCell_carve hg hv (not_carved_of_wall hwall)
      omega
    have hds : ∀ d ∈ dirs, d ∈ mazeDirections := by
      intro d hd
      have hperm := shuffle_perm mazeDirections rng
      rw [hsh] at hperm
      exact hperm.mem_iff.1 hd
    have hdirs_all : ∀ d ∈ mazeDirections, d ∈ dirs := by
      intro d hd
      have hperm := shuffle_perm mazeDirections rng
      rw [hsh] at hperm
      exact hperm.mem_iff.2 hd
    have hinv0 : MazeFoldInv g (setCell g v.1 v.2 (.num MAZE_PASSAGE)) v
        (setCell g v.1 v.2 (.num MAZE_PASSAGE), rng1, []) := by
      refine ⟨hok1, hbin1, fun w h => h, ?_, ?_, by simp, trivial, by simp,
        fun w _ h => Or.inl h⟩
      · intro w _
        simp
      · intro m _
        simp
    have hfold := mazeFold_spec fuel g (setCell g v.1 v.2 (.num MAZE_PASSAGE)) v
      (fun g' v' rng' => mazeLog_master fuel g' v' rng')
      hv hg1iff hunc1 dirs (setCell g v.1 v.2 (.num MAZE_PASSAGE), rng1, []) hds hinv0
    obtain ⟨hinvF, _, hnbrF⟩ := hfold
    obtain ⟨fok, fbin, fmono, fnode, fmid, fadj, farb, fproc, freach⟩ := hinvF
    refine ⟨fok, fbin, ?_, ?_, ?_, ?_, fadj, farb, ?_, ?_⟩
    · exact fun w h => fmono w ((hg1iff w).2 (Or.inl h))
    · exact fmono v ((hg1iff v).2 (Or.inr rfl))
    · intro w hw
      rw [fnode w hw, hg1iff w]
      tauto
    · intro m hm
      have hmv : m ≠ v := by
        rintro rfl
        exact nodes_mids_disjoint hv hm
      rw [fmid m hm, carvedAt_setCell_ne (p := v) hmv]
    · intro w hw hcase u hadJ
      rcases hcase with rfl | hmem
      · obtain ⟨d, hd, h1, h2⟩ := nodeAdj_dir hadJ
        have hu : u = (w.1 + d.1, w.2 + d.2) := Prod.ext_iff.2 ⟨h1, h2⟩
        rw [hu]
        exact hnbrF d (hdirs_all d hd) (hu ▸ hadJ.2.1)
      · exact fproc w hw hmem u hadJ
    · intro w hw hcw
      rcases freach w hw hcw with h1 | h2
      · rcases (hg1iff w).1 h1 with hgw | rfl
        · exact Or.inl hgw
        · exact Or.inr Relation.ReflTransGen.refl
      · exact Or.inr h2

/-- The dungeon grid before any rooms are placed: the boxed outer walls with
an all-`MAZE_WALL` (`Unvisited`) interior. -/
def noRoomsGrid : Grid :=
  init_inner_grid (generate_initial_box_dungeon GRID_ROWS GRID_COLUMNS)

/-- The source maze carve, run on the no-rooms grid with the fuel
`generate_hallways_in_remaining_space` passes (`rows * columns + 1`). -/
def mazeNoRooms (v : Int × Int) (rng : Rng) : Grid :=
  (recursive_backtracking_maze_generator (GRID_ROWS * GRID_COLUMNS + 1)
    noRoomsGrid v.1 v.2 rng).1

/-- The carve log of the same run, from the instrumented embedding. -/
def mazeNoRoomsLog (v : Int × Int) (rng : Rng) : List MazeEntry :=
  (mazeGenLog (GRID_ROWS * GRID_COLUMNS + 1) noRoomsGrid v.1 v.2 rng).2.2

theorem noRoomsGrid_ok : GridOK noRoomsGrid :=
  gridOK_init_inner gridOK_box

theorem noRoomsGrid_nodes : ∀ w ∈ nodesL,
    getCell noRoomsGrid w.1 w.2 = .num MAZE_WALL := by decide

theorem noRoomsGrid_mids : ∀ m ∈ midsL, ¬ CarvedAt noRoomsGrid m := by decide

theorem noRoomsGrid_binary : NodesBinary noRoomsGrid :=
  fun w hw => Or.inl (noRoomsGrid_nodes w hw)

theorem noRoomsGrid_unc : uncNodes noRoomsGrid ≤ GRID_ROWS * GRID_COLUMNS + 1 := by
  decide

theorem mazeNoRooms_eq_log (v : Int × Int) (rng : Rng) :
    mazeNoRooms v rng =
      (mazeGenLog (GRID_ROWS * GRID_COLUMNS + 1) noRoomsGrid v.1 v.2 rng).1 :=
  (mazeGenLog_eq (GRID_ROWS * GRID_COLUMNS + 1) noRoomsGrid v.1 v.2 rng).1.symm

theorem mazeNoRooms_post (v : Int × Int) (rng : Rng) (hv : v ∈ nodesL) :
    MazePost noRoomsGrid v
      (mazeGenLog (GRID_ROWS * GRID_COLUMNS + 1) noRoomsGrid v.1 v.2 rng) :=
  mazeLog_master (GRID_ROWS * GRID_COLUMNS + 1) noRoomsGrid v rng
    noRoomsGrid_ok noRoomsGrid_binary hv (noRoomsGrid_nodes v hv) noRoomsGrid_unc

theorem reflTransGen_symm_rel {r : (Int × Int) → (Int × Int) → Prop}
    (hs : ∀ a b, r a b → r b a) {a b : Int × Int}
    (h : Relation.ReflTransGen r a b) : Relation.ReflTransGen r b a := by
  induction h with
  | refl => exact Relation.ReflTransGen.refl
  | tail _ h2 ih => exact Relation.ReflTransGen.head (hs _ _ h2) ih

theorem lattice_to_base_aux : ∀ (n : Nat) (w : Int × Int), w ∈ nodesL →
    (w.1 + w.2).toNat ≤ n → Relation.ReflTransGen NodeAdj w (1, 1)
  | 0, w, hw, hb => by
    exfalso
    have := mem_nodesL.1 hw
    omega
  | n + 1, w, hw, hb => by
    have hmem := mem_nodesL.1 hw
    by_cases h1 : w = ((1 : Int), (1 : Int))
    · rw [h1]
    · by_cases h2 : 3 ≤ w.2
      · have hnext : (w.1, w.2 - 2) ∈ nodesL := mem_nodesL.2 (by
          refine ⟨by omega, by omega, by omega, by omega, by omega, by omega⟩)
        have hadj : NodeAdj w (w.1, w.2 - 2) :=
          ⟨hw, hnext, Or.inl ⟨rfl, Or.inl (by omega)⟩⟩
        refine Relation.ReflTransGen.head hadj
          (lattice_to_base_aux n (w.1, w.2 - 2) hnext ?_)
        dsimp only
        omega
      · have h3 : w.2 = 1 := by omega
        have h4 : 3 ≤ w.1 := by
          rcases pair_ne_cases h1 with hq | hq
          · omega
          · omega
        have hnext : (w.1 - 2, w.2) ∈ nodesL := mem_nodesL.2 (by
          refine ⟨by omega, by omega, by omega, by omega, by omega, by omega⟩)
        have hadj : NodeAdj w (w.1 - 2, w.2) :=
          ⟨hw, hnext, Or.inr ⟨rfl, Or.inl (by omega)⟩⟩
        refine Relation.ReflTransGen.head hadj
          (lattice_to_base_aux n (w.1 - 2, w.2) hnext ?_)
        dsimp only
        omega

theorem lattice_connected {u w : Int × Int} (hu : u ∈ nodesL) (hw : w ∈ nodesL) :
    Relation.ReflTransGen NodeAdj u w :=
  Relation.ReflTransGen.trans
    (lattice_to_base_aux (u.1 + u.2).toNat u hu le_rfl)
    (reflTransGen_symm_rel (fun _ _ h => nodeAdj_symm h)
      (lattice_to_base_aux (w.1 + w.2).toNat w hw le_rfl))

/-- Every lattice node ends carved: the carved set contains `v` and is
closed under lattice adjacency, and the lattice is connected. -/
theorem mazeNoRooms_all_carved (v : Int × Int) (rng : Rng) (hv : v ∈ nodesL) :
    ∀ w ∈ nodesL,
      CarvedAt (mazeGenLog (GRID_ROWS * GRID_COLUMNS + 1)
        noRoomsGrid v.1 v.2 rng).1 w := by
  obtain ⟨_, _, _, pcarv, pnode, _, _, _, pproc, _⟩ := mazeNoRooms_post v rng hv
  have hclosed : ∀ w ∈ nodesL,
      CarvedAt (mazeGenLog (GRID_ROWS * GRID_COLUMNS + 1)
        noRoomsGrid v.1 v.2 rng).1 w →
      ∀ u, NodeAdj w u →
      CarvedAt (mazeGenLog (GRID_ROWS * GRID_COLUMNS + 1)
        noRoomsGrid v.1 v.2 rng).1 u := by
    intro w hw hcw u hadJ
    have hcase := (pnode w hw).1 hcw
    rcases hcase with hg0 | hcase
    · exact absurd hg0 (not_carved_of_wall (noRoomsGrid_nodes w hw))
    · exact pproc w hw hcase u hadJ
  have hall : ∀ x, Relation.ReflTransGen NodeAdj v x →
      CarvedAt (mazeGenLog (GRID_ROWS * GRID_COLUMNS + 1)
        noRoomsGrid v.1 v.2 rng).1 x := by
    intro x hx
    induction hx with
    | refl => exact pcarv
    | tail _ h2 ih => exact hclosed _ h2.1 ih _ h2
  exact fun w hw => hall w (lattice_connected hv hw)

/-- The carve events (start node plus logged children) enumerate the
lattice nodes exactly once. -/
theorem mazeNoRooms_perm (v : Int × Int) (rng : Rng) (hv : v ∈ nodesL) :
    (v :: (mazeNoRoomsLog v rng).map Prod.snd).Perm nodesL := by
  obtain ⟨_, _, _, _, pnode, _, padj, parb, _, _⟩ := mazeNoRooms_post v rng hv
  have hfresh := ArbP_fresh _ _ parb
  have hnodup : (v :: (mazeNoRoomsLog v rng).map Prod.snd).Nodup := by
    refine List.nodup_cons.2 ⟨?_, hfresh.1⟩
    intro hmem
    exact hfresh.2 v hmem (Or.inr rfl)
  have hsub1 : (v :: (mazeNoRoomsLog v rng).map Prod.snd) ⊆ nodesL := by
    intro w hw
    rcases List.mem_cons.1 hw with rfl | hw'
    · exact hv
    · obtain ⟨ent, hent, hw2⟩ := List.mem_map.1 hw'
      rw [← hw2]
      exact (padj ent hent).2.1
  have hsub2 : nodesL ⊆ (v :: (mazeNoRoomsLog v rng).map Prod.snd) := by
    intro w hw
    have hcw := mazeNoRooms_all_carved v rng hv w hw
    rcases (pnode w hw).1 hcw with hg0 | (rfl | hmem)
    · exact absurd hg0 (not_carved_of_wall (noRoomsGrid_nodes w hw))
    · exact List.mem_cons_self _ _
    · exact List.mem_cons_of_mem _ hmem
  exact (List.subperm_of_subset hnodup hsub1).antisymm
    (List.subperm_of_subset nodesL_nodup hsub2)

theorem mazeEdge_symm {g : Grid} {a b : Int × Int} (h : MazeEdge g a b) :
    MazeEdge g b a := by
  refine ⟨nodeAdj_symm h.1, ?_⟩
  rw [midp_comm b a]
  exact h.2

/-- The carved connectors of the finished maze are exactly the logged
(parent, child) pairs. -/
theorem mazeNoRooms_edge_iff (v : Int × Int) (rng : Rng) (hv : v ∈ nodesL) :
    ∀ a b : Int × Int,
      MazeEdge (mazeGenLog (GRID_ROWS * GRID_COLUMNS + 1)
        noRoomsGrid v.1 v.2 rng).1 a b ↔
      (NodeAdj a b ∧ ∃ ent ∈ mazeNoRoomsLog v rng,
        (ent.1 = a ∧ ent.2 = b) ∨ (ent.1 = b ∧ ent.2 = a)) := by
  obtain ⟨_, _, _, _, _, pmid, padj, _, _, _⟩ := mazeNoRooms_post v rng hv
  intro a b
  constructor
  · intro hedge
    have hadj := hedge.1
    have hmm := midp_mem_midsL hadj
    have hcase := (pmid _ hmm).1 hedge.2
    rcases hcase with hg0 | ⟨ent, hent, hm2⟩
    · exact absurd hg0 (noRoomsGrid_mids _ hmm)
    · refine ⟨hadj, ent, hent, ?_⟩
      rcases midp_inj hadj (padj ent hent) hm2 with ⟨e1, e2⟩ | ⟨e1, e2⟩
      · exact Or.inl ⟨e1.symm, e2.symm⟩
      · exact Or.inr ⟨e2.symm, e1.symm⟩
  · rintro ⟨hadj, ent, hent, hmatch⟩
    refine ⟨hadj, ?_⟩
    have hmm := midp_mem_midsL hadj
    refine (pmid _ hmm).2 (Or.inr ⟨ent, hent, ?_⟩)
    rcases hmatch with ⟨e1, e2⟩ | ⟨e1, e2⟩
    · rw [e1, e2]
    · rw [e1, e2]
      exact midp_comm a b

/-- The final node of a walk. -/
def walkEnd : (Int × Int) → List (Int × Int) → (Int × Int)
  | a, [] => a
  | _, b :: l => walkEnd b l

theorem dropLast_walkEnd : ∀ (a : Int × Int) (l : List (Int × Int)), l ≠ [] →
    l.dropLast ++ [walkEnd a l] = l
  | _, [], h => absurd rfl h
  | _, [_], _ => rfl
  | _, b :: c2 :: l, _ => by
    have hq := dropLast_walkEnd b (c2 :: l) (by simp)
    show b :: ((c2 :: l).dropLast ++ [walkEnd b (c2 :: l)]) = b :: c2 :: l
    rw [hq]

theorem isWalk_of_reflTransGen {E : (Int × Int) → (Int × Int) → Prop}
    {a b : Int × Int} (h : Relation.ReflTransGen E a b) :
    ∃ l : List (Int × Int), IsWalk E a l ∧ walkEnd a l = b := by
  induction h with
  | refl => exact ⟨[], trivial, rfl⟩
  | @tail b' c' h1 h2 ih =>
    obtain ⟨l, hw, hlast⟩ := ih
    refine ⟨l ++ [c'], ?_, ?_⟩
    · clear h1
      induction l generalizing a with
      | nil =>
        refine ⟨?_, trivial⟩
        have hq : walkEnd a [] = a := rfl
        rw [hq] at hlast
        rw [hlast]
        exact h2
      | cons x xs ih2 => exact ⟨hw.1, ih2 hw.2 hlast⟩
    · clear h1 h2 hw
      induction l generalizing a with
      | nil => rfl
      | cons x xs ih2 => exact ih2 hlast

theorem isWalk_concat_decomp {E : (Int × Int) → (Int × Int) → Prop} :
    ∀ (a : Int × Int) (l : List (Int × Int)) (c : Int × Int),
    IsWalk E a (l ++ [c]) → IsWalk E a l ∧ E (walkEnd a l) c
  | _, [], _, hw => ⟨trivial, hw.1⟩
  | a, b :: l, c, hw =>
    ⟨⟨hw.1, (isWalk_concat_decomp b l c hw.2).1⟩, (isWalk_concat_decomp b l c hw.2).2⟩

theorem isWalk_of_append {E : (Int × Int) → (Int × Int) → Prop} :
    ∀ (a : Int × Int) (l1 l2 : List (Int × Int)),
    IsWalk E a (l1 ++ l2) → IsWalk E a l1
  | _, [], _, _ => trivial
  | a, b :: l1, l2, h => ⟨h.1, isWalk_of_append b l1 l2 h.2⟩

theorem usesStep_extend {x y : Int × Int} :
    ∀ (a : Int × Int) (l1 l2 : List (Int × Int)),
    UsesStep x y a l1 → UsesStep x y a (l1 ++ l2)
  | _, [], _, h => h.elim
  | a, b :: l1, l2, h => by
    rcases h with h | h | h
    · exact Or.inl h
    · exact Or.inr (Or.inl h)
    · exact Or.inr (Or.inr (usesStep_extend b l1 l2 h))

theorem usesStep_concat {x c : Int × Int} :
    ∀ (a : Int × Int) (l : List (Int × Int)),
    walkEnd a l = x → UsesStep x c a (l ++ [c])
  | _, [], h => Or.inl ⟨h, rfl⟩
  | a, b :: l, h => Or.inr (Or.inr (usesStep_concat b l h))

theorem usesStep_exists_edge {E : (Int × Int) → (Int × Int) → Prop}
    {x y : Int × Int} :
    ∀ (a : Int × Int) (l : List (Int × Int)), IsWalk E a l → UsesStep x y a l →
    ∃ u w, E u w ∧ ((u = x ∧ w = y) ∨ (u = y ∧ w = x))
  | _, [], _, h => h.elim
  | a, b :: l, hw, h => by
    rcases h with h | h | h
    · exact ⟨a, b, hw.1, Or.inl h⟩
    · exact ⟨a, b, hw.1, Or.inr h⟩
    · exact usesStep_exists_edge b l hw.2 h

theorem usesStep_visit {x y : Int × Int} :
    ∀ (a : Int × Int) (l : List (Int × Int)), UsesStep x y a l →
    a = x ∨ ∃ l1, (∃ t, l1 ++ t = l) ∧ walkEnd a l1 = x
  | _, [], h => h.elim
  | a, b :: l, h => by
    rcases h with ⟨h1, _⟩ | ⟨_, h2⟩ | h
    · exact Or.inl h1
    · exact Or.inr ⟨[b], ⟨l, rfl⟩, h2⟩
    · rcases usesStep_visit b l h with hbx | ⟨l1, ⟨t, ht⟩, hlast⟩
      · exact Or.inr ⟨[b], ⟨l, rfl⟩, hbx⟩
      · refine Or.inr ⟨b :: l1, ⟨t, ?_⟩, hlast⟩
        rw [← ht]
        rfl

theorem entries_child_unique {L : List MazeEntry} (hnd : (L.map Prod.snd).Nodup) :
    ∀ ent ∈ L, ∀ ent' ∈ L, ent.2 = ent'.2 → ent.1 = ent'.1 := by
  induction L with
  | nil => simp
  | cons e rest ih =>
    rw [List.map_cons] at hnd
    have hnd' := List.nodup_cons.1 hnd
    intro ent hent ent' hent' heq
    rcases List.mem_cons.1 hent with rfl | h1 <;>
      rcases List.mem_cons.1 hent' with rfl | h2
    · rfl
    · exfalso
      apply hnd'.1
      rw [heq]
      exact List.mem_map_of_mem _ h2
    · exfalso
      apply hnd'.1
      rw [← heq]
      exact List.mem_map_of_mem _ h1
    · exact ih hnd'.2 ent h1 ent' h2 heq

/-- In a walk whose edges all come from an arborescence, any walk from a
shallower node to a child `c` must take `c`'s unique parent edge. -/
theorem walk_uses_parent {E : (Int × Int) → (Int × Int) → Prop}
    {L : List MazeEntry} {dep : (Int × Int) → Nat}
    (hK1 : ∀ ent ∈ L, dep ent.1 < dep ent.2)
    (hK2 : ∀ ent ∈ L, ∀ ent' ∈ L, ent.2 = ent'.2 → ent.1 = ent'.1)
    (hE : ∀ a b, E a b →
      ∃ ent ∈ L, (ent.1 = a ∧ ent.2 = b) ∨ (ent.1 = b ∧ ent.2 = a)) :
    ∀ (n : Nat) (l : List (Int × Int)) (a : Int × Int), l.length ≤ n →
      IsWalk E a l → ∀ p c : Int × Int, (p, c) ∈ L →
      walkEnd a l = c → dep a < dep c → UsesStep p c a l
  | 0, l, a, hlen, _, p, c, _, hlast, hdep => by
    have hl : l = [] := List.length_eq_zero.1 (Nat.le_zero.1 hlen)
    subst hl
    have hac : a = c := hlast
    rw [hac] at hdep
    omega
  | n + 1, l, a, hlen, hw, p, c, hpc, hlast, hdep => by
    have hane : a ≠ c := by
      rintro rfl
      omega
    have hlne : l ≠ [] := by
      rintro rfl
      exact hane hlast
    have hl : l.dropLast ++ [c] = l := by
      have h0 := dropLast_walkEnd a l hlne
      rw [hlast] at h0
      exact h0
    have hwalk2 : IsWalk E a (l.dropLast ++ [c]) := by
      rw [hl]
      exact hw
    have hdecomp := isWalk_concat_decomp a l.dropLast c hwalk2
    obtain ⟨ent, hent, hmatch⟩ := hE (walkEnd a l.dropLast) c hdecomp.2
    have hlen2 : l.dropLast.length ≤ n := by
      have hq := congrArg List.length hl
      simp only [List.length_append, List.length_cons, List.length_nil] at hq
      omega
    rcases hmatch with ⟨he1, he2⟩ | ⟨he1, he2⟩
    · have hup : walkEnd a l.dropLast = p := by
        have hq : ent.1 = p := hK2 ent hent (p, c) hpc he2
        rw [← hq, he1]
      rw [← hl]
      exact usesStep_concat a l.dropLast hup
    · have hcu : ((c, walkEnd a l.dropLast) : MazeEntry) ∈ L := by
        have hq : ent = (c, walkEnd a l.dropLast) := Prod.ext_iff.2 ⟨he1, he2⟩
        rw [← hq]
        exact hent
      have hdep_cu : dep c < dep (walkEnd a l.dropLast) := hK1 _ hcu
      have hstep_cu := walk_uses_parent hK1 hK2 hE n l.dropLast a hlen2 hdecomp.1
        c (walkEnd a l.dropLast) hcu rfl (by omega)
      rcases usesStep_visit a l.dropLast hstep_cu with hax | ⟨l1, ⟨t, ht⟩, hlast1⟩
      · exact absurd hax hane
      · have hw1 : IsWalk E a l1 :=
          isWalk_of_append a l1 t (by rw [ht]; exact hdecomp.1)
        have hlen1 : l1.length ≤ n := by
          have hq := congrArg List.length ht
          simp only [List.length_append] at hq
          omega
        have huses1 := walk_uses_parent hK1 hK2 hE n l1 a hlen1 hw1 p c hpc
          hlast1 hdep
        rw [← hl]
        have hsplit : l1 ++ (t ++ [c]) = l.dropLast ++ [c] := by
          rw [← List.append_assoc, ht]
        rw [← hsplit]
        exact usesStep_extend a l1 (t ++ [c]) huses1

set_option maxHeartbeats 2000000 in
/-- C4: run on the fully-Unvisited no-rooms interior from any stride-2
lattice node `v`, the recursive backtracker marks every lattice node Carved
exactly once (the carve events `v :: log children` enumerate `nodesL` up to
permutation and every node ends Carved), its carved connectors are exactly
the logged parent–child pairs, every node is reachable from `v` along
carved connectors, and the connector set is cycle-free: removing any single
carved connector disconnects its two endpoints. -/
theorem claim_C4_maze_spanning_tree (v : Int × Int) (rng : Rng)
    (hv : v ∈ nodesL) :
    (v :: (mazeNoRoomsLog v rng).map Prod.snd).Perm nodesL ∧
    (∀ w ∈ nodesL, CarvedAt (mazeNoRooms v rng) w) ∧
    (∀ m ∈ midsL, CarvedAt (mazeNoRooms v rng) m ↔
      ∃ ent ∈ mazeNoRoomsLog v rng, m = midp ent.1 ent.2) ∧
    (∀ w ∈ nodesL, MazeReach (mazeNoRooms v rng) v w) ∧
    (∀ a b : Int × Int, MazeEdge (mazeNoRooms v rng) a b →
      ¬ MazeReachExcept (mazeNoRooms v rng) a b a b) := by
  have hG := mazeNoRooms_eq_log v rng
  obtain ⟨_, _, _, _, pnode, pmid, padj, parb, _, preach⟩ := mazeNoRooms_post v rng hv
  refine ⟨mazeNoRooms_perm v rng hv, ?_, ?_, ?_, ?_⟩
  · rw [hG]
    exact mazeNoRooms_all_carved v rng hv
  · rw [hG]
    intro m hm
    rw [pmid m hm]
    constructor
    · rintro (hg0 | h)
      · exact absurd hg0 (noRoomsGrid_mids m hm)
      · exact h
    · exact Or.inr
  · rw [hG]
    intro w hw
    have hcw := mazeNoRooms_all_carved v rng hv w hw
    rcases preach w hw hcw with hg0 | h
    · exact absurd hg0 (not_carved_of_wall (noRoomsGrid_nodes w hw))
    · exact h
  · rw [hG]
    intro a b hedge hreach
    have harb' : ArbP (fun w => w = v) (mazeNoRoomsLog v rng) := by
      refine ArbP_congr_on _ (fun w => w ∈ nodesL) _ _
        (fun ent hent => ⟨(padj ent hent).1, (padj ent hent).2.1⟩) ?_ parb
      intro w hw
      constructor
      · rintro (hg0 | h)
        · exact absurd hg0 (not_carved_of_wall (noRoomsGrid_nodes w hw))
        · exact h
      · exact Or.inr
    have hK1 : ∀ ent ∈ mazeNoRoomsLog v rng,
        depthOf (mazeNoRoomsLog v rng) ent.1 <
          depthOf (mazeNoRoomsLog v rng) ent.2 :=
      (ArbP_depth (mazeNoRoomsLog v rng) _ (fun _ => 0) harb').2
    have hK2 := entries_child_unique (ArbP_fresh _ _ parb).1
    unfold MazeReachExcept at hreach
    have hEL : ∀ x y : Int × Int,
        (MazeEdge (mazeGenLog (GRID_ROWS * GRID_COLUMNS + 1)
            noRoomsGrid v.1 v.2 rng).1 x y ∧
          ¬((x = a ∧ y = b) ∨ (x = b ∧ y = a))) →
        ∃ ent ∈ mazeNoRoomsLog v rng,
          (ent.1 = x ∧ ent.2 = y) ∨ (ent.1 = y ∧ ent.2 = x) := by
      intro x y h
      exact ((mazeNoRooms_edge_iff v rng hv x y).1 h.1).2
    obtain ⟨ent, hent, hmatch⟩ := ((mazeNoRooms_edge_iff v rng hv a b).1 hedge).2
    rcases hmatch with ⟨he1, he2⟩ | ⟨he1, he2⟩
    · have hab : ((a, b) : MazeEntry) ∈ mazeNoRoomsLog v rng := by
        have hq : ent = (a, b) := Prod.ext_iff.2 ⟨he1, he2⟩
        rw [← hq]
        exact hent
      have hdep : depthOf (mazeNoRoomsLog v rng) a <
          depthOf (mazeNoRoomsLog v rng) b := hK1 _ hab
      obtain ⟨l, hwalk, hend⟩ := isWalk_of_reflTransGen hreach
      have huses := walk_uses_parent hK1 hK2 hEL l.length l a le_rfl hwalk
        a b hab hend hdep
      obtain ⟨u, w, hEuw, hmatch2⟩ := usesStep_exists_edge a l hwalk huses
      exact hEuw.2 hmatch2
    · have hba : ((b, a) : MazeEntry) ∈ mazeNoRoomsLog v rng := by
        have hq : ent = (b, a) := Prod.ext_iff.2 ⟨he1, he2⟩
        rw [← hq]
        exact hent
      have hdep : depthOf (mazeNoRoomsLog v rng) b <
          depthOf (mazeNoRoomsLog v rng) a := hK1 _ hba
      have hrev := reflTransGen_symm_rel
        (fun x y h => ⟨mazeEdge_symm h.1, fun hc => h.2 (by tauto)⟩) hreach
      obtain ⟨l, hwalk, hend⟩ := isWalk_of_reflTransGen hrev
      have huses := walk_uses_parent hK1 hK2 hEL l.length l b le_rfl hwalk
        b a hba hend hdep
      obtain ⟨u, w, hEuw, hmatch2⟩ := usesStep_exists_edge b l hwalk huses
      exact hEuw.2 (by tauto)

theorem claim_C4_maze_spanning_tree_witness :
    (((1 : Int), (1 : Int)) ∈ nodesL) ∧
    ((((1 : Int), (1 : Int)) :: (mazeNoRoomsLog (1, 1) []).map Prod.snd).Perm nodesL ∧
    (∀ w ∈ nodesL, CarvedAt (mazeNoRooms (1, 1) []) w) ∧
    (∀ m ∈ midsL, CarvedAt (mazeNoRooms (1, 1) []) m ↔
      ∃ ent ∈ mazeNoRoomsLog (1, 1) [], m = midp ent.1 ent.2) ∧
    (∀ w ∈ nodesL, MazeReach (mazeNoRooms (1, 1) []) (1, 1) w) ∧
    (∀ a b : Int × Int, MazeEdge (mazeNoRooms (1, 1) []) a b →
      ¬ MazeReachExcept (mazeNoRooms (1, 1) []) a b a b)) :=
  ⟨by decide, claim_C4_maze_spanning_tree (1, 1) [] (by decide)⟩
